import Mathlib

/-!
# Verification of the bunny download job manager

A shallow embedding of `src/bunny/downloader.py` (class `ModelDownloader` and
`DownloadJob`).  Pure data (job record, filesystem view of the staging and
final files) is modelled by Lean structures; the worker thread is modelled as
a sequence of atomic actions threaded through a system state `Sys`.

Concurrency model: the only concurrent mutator of a job besides its own
worker is `cancel_job` (which runs under the registry lock, while the worker
writes job fields without taking that lock).  We therefore model an execution
as the worker's sequential code, with a single `cancel_job` invocation that
may fire between any two atomic worker actions: `Sys.tick` counts atomic
actions and `Sys.cancelAt = some t` means the cancel call runs just before
action `t`.  Reads of the cancellation flag, callback invocations, sleeps and
request parameters are recorded in an event trace so that temporal claims can
be stated about them.

The network and filesystem environment of one run is an `Env`: for each
attempt number it gives the outcome of the size probe, the outcome of the
streaming GET (content-length header, the sizes of the chunks yielded by
`iter_content`, and an optional exception raised after those chunks), and an
optional exception raised in the retry-loop body before the transfer (for
example from URL resolution) — that last one is the only way an exception
reaches the `except` clause of `_perform_download`, because both
`_check_disk_space` and `_download_with_resume` swallow their own exceptions.
Machine integers do not overflow here (Python ints), so byte counts are `Nat`.
The Python float comparison `free >= size * 1.2` is modelled exactly as the
rational comparison `6 * size ≤ 5 * free`.
-/

namespace Bunny

/-- Job states, `DownloadJob.status` (downloader.py line 32). -/
inductive Status
  | queued
  | running
  | done
  | failed
  | cancelled
deriving DecidableEq, Repr

/-- The terminal states: `done`, `failed`, `cancelled`. -/
def Status.isTerminal : Status → Bool
  | .done => true
  | .failed => true
  | .cancelled => true
  | _ => false

/-- File-open mode of the staging file: `'ab'` or `'wb'` (line 247). -/
inductive Mode
  | append
  | trunc
deriving DecidableEq, Repr

/-- Observable events of a run, recorded in order. -/
inductive Event
  | statusCb (st : Status)            -- `job.status_callback(...)` invoked
  | progressCb (downloaded total : Nat)  -- `job.progress_callback(...)` invoked
  | sleep (n : Nat)                   -- `time.sleep(backoff)` (line 204)
  | attemptStart (k : Nat)            -- top of the retry loop body, attempt k
  | check (b : Bool)                  -- a read of `job.cancel`, with the value read
  | getReq (range : Option Nat)       -- `requests.get` issued, with the Range offset
  | openFile (m : Mode)               -- `open(part_path, mode)` (line 248)
deriving DecidableEq, Repr

/-- The mutable fields of `DownloadJob` (lines 22-47).  `finished_writes`
logs every assignment to `finished_at` (the stored value is the tick at which
the write happened), so that "written exactly once" is statable.
`path` records whether `job.path` has been assigned.  The two `has*Cb` flags
say whether the optional callbacks are set. -/
structure Job where
  status : Status
  started_at : Option Nat
  finished_writes : List Nat
  error : Option String
  downloaded : Nat
  size : Option Nat
  path : Bool
  cancel : Bool
  hasStatusCb : Bool
  hasProgressCb : Bool
deriving DecidableEq, Repr

/-- Destination-directory filesystem view: lengths of the staging file
(`<filename>.part`) and of the final file, `none` when absent. -/
structure FS where
  part : Option Nat
  final : Option Nat
deriving DecidableEq, Repr

/-- Environment of one streaming GET (line 238): the `content-length`
response header, the chunk sizes yielded by `iter_content`, and an optional
exception raised by the iteration after those chunks. -/
structure GetResp where
  contentLength : Option Nat
  chunks : List Nat
  streamError : Option String
deriving DecidableEq, Repr

/-- Environment of one attempt of the retry loop. -/
structure AttemptEnv where
  preError : Option String
  head : Option (Option Nat)
  get : Except String GetResp

/-- Environment of a run: per-attempt environments (indexed from 1) and the
free space reported by `shutil.disk_usage` for the destination volume. -/
structure Env where
  att : Nat → AttemptEnv
  free : Nat

/-- Whole system state threaded through a run. -/
structure Sys where
  job : Job
  fs : FS
  trace : List Event
  tick : Nat
  cancelAt : Option Nat
  cancelRet : Option Bool
deriving DecidableEq, Repr

/-- `ModelDownloader.cancel_job` (lines 93-102), acting on one job: if the
job is `queued` or `running`, set the flag, eagerly mark it `cancelled` and
write the finish timestamp, returning `True`; otherwise return `False` with
no mutation. -/
def cancel_job (j : Job) (t : Nat) : Job × Bool :=
  if j.status = .queued ∨ j.status = .running then
    ({ j with cancel := true, status := .cancelled,
              finished_writes := j.finished_writes ++ [t] }, true)
  else (j, false)

/-- Advance one atomic action boundary: if the interleaved `cancel_job` call
is scheduled for this tick, apply it (recording its return value), then
increment the tick. -/
def tickCancel (s : Sys) : Sys :=
  if s.cancelAt = some s.tick then
    { s with job := (cancel_job s.job s.tick).1,
             cancelRet := some (cancel_job s.job s.tick).2,
             tick := s.tick + 1 }
  else { s with tick := s.tick + 1 }

/-- Record an event. -/
def emit (e : Event) (s : Sys) : Sys :=
  { s with trace := s.trace ++ [e] }

/-- `ModelDownloader._check_disk_space` (lines 215-228).  A probe failure
(`none`) or a response without `content-length` (`some none`) yields `True`;
otherwise the comparison `free >= size * 1.2`, modelled exactly as
`6 * size ≤ 5 * free`. -/
def check_disk_space (head : Option (Option Nat)) (free : Nat) : Bool :=
  match head with
  | some (some n) => decide (6 * n ≤ 5 * free)
  | _ => true

/-- The `for chunk in resp.iter_content(...)` loop (lines 249-258): before
each chunk the cancellation flag is read (recorded as a `check` event); if it
is set the function returns `False` without committing.  A nonempty chunk is
appended to the staging file, added to `job.downloaded`, and reported to the
progress callback as `(job.downloaded, job.size or 0)`. -/
def streamLoop : Sys → List Nat → Sys × Bool
  | s, [] => (s, true)
  | s, c :: rest =>
    let s1 := tickCancel s
    let s2 := emit (.check s1.job.cancel) s1
    if s1.job.cancel then (s2, false)
    else
      let s3 :=
        if c ≠ 0 then
          let s3a := { s2 with
            job := { s2.job with downloaded := s2.job.downloaded + c },
            fs := { s2.fs with part := some (s2.fs.part.getD 0 + c) } }
          if s3a.job.hasProgressCb then
            emit (.progressCb s3a.job.downloaded (s3a.job.size.getD 0)) s3a
          else s3a
        else s2
      streamLoop s3 rest

/-- `ModelDownloader._download_with_resume` (lines 230-269).  A `Range`
header is sent iff `resume_from > 0`; on a response, `job.size` is set to
`resume_from + content_length` when the header is present; the staging file
is opened in append mode iff `resume_from ≠ 0` (`'ab' if resume_from else
'wb'`), then the chunk loop runs; on completion with no stream error the
staging file is moved to the final name and `job.downloaded` / `job.size`
are set to the final file's on-disk size.  Any exception is caught, stored
in `job.error`, and reported as `False` (line 267-269). -/
def download_with_resume (s : Sys) (resp : Except String GetResp)
    (resume_from : Nat) : Sys × Bool :=
  let sa := emit (.getReq (if resume_from > 0 then some resume_from else none))
    (tickCancel s)
  match resp with
  | .error e => ({ sa with job := { sa.job with error := some e } }, false)
  | .ok r =>
    let sb := tickCancel sa
    let sc :=
      match r.contentLength with
      | some n => { sb with job := { sb.job with size := some (resume_from + n) } }
      | none => sb
    let m : Mode := if resume_from ≠ 0 then .append else .trunc
    let sd := emit (.openFile m) (tickCancel sc)
    let se := { sd with fs := { sd.fs with
        part := match m with
                | .trunc => some 0
                | .append => some (sd.fs.part.getD 0) } }
    match streamLoop se r.chunks with
    | (sf, false) => (sf, false)
    | (sf, true) =>
      match r.streamError with
      | some e =>
        let sg := tickCancel sf
        ({ sg with job := { sg.job with error := some e } }, false)
      | none =>
        let sg := tickCancel sf
        let fl := sg.fs.part.getD 0
        let sh := { sg with fs := { part := none, final := some fl } }
        let si := tickCancel sh
        ({ si with job := { si.job with downloaded := fl, size := some fl } }, true)

/-- The state of `_download_with_resume` just before the chunk loop, on the
response path: request issued (`getReq` recorded), `job.size` updated from
the `content-length` header, staging file opened (`openFile` recorded) in
append or truncate mode.  This is a proof-layer abbreviation; it is
definitionally the corresponding prefix of `download_with_resume`. -/
def dwrPre (s : Sys) (rf : Nat) (cl : Option Nat) : Sys :=
  let sa := emit (.getReq (if rf > 0 then some rf else none)) (tickCancel s)
  let sb := tickCancel sa
  let sc :=
    match cl with
    | some n => { sb with job := { sb.job with size := some (rf + n) } }
    | none => sb
  let m : Mode := if rf ≠ 0 then .append else .trunc
  let sd := emit (.openFile m) (tickCancel sc)
  { sd with fs := { sd.fs with
      part := match m with
              | .trunc => some 0
              | .append => some (sd.fs.part.getD 0) } }

/-- How `_perform_download` hands control back to `_download_worker`:
`exited` = the `while` loop was left and the tail (lines 207-213) ran;
`retDone` / `retDisk` = early `return` on success / on the disk-space gate;
`raised e` = the attempt-4 `raise` (line 203) propagated. -/
inductive POut
  | exited
  | retDone
  | retDisk
  | raised (e : String)
deriving DecidableEq, Repr

/-- The `while attempt < max_attempts and not job.cancel` loop of
`_perform_download` (lines 164-205), with `fuel = 4 - attempt` so the fuel
guard is exactly `attempt < max_attempts` (the flag is not read when that
conjunct is already false, matching Python's short-circuit).  An exception
in the loop body (`preError`) is re-raised on attempt 4 and otherwise
triggers `time.sleep(2 ** (attempt - 1))` before the next attempt; a failed
transfer (`_download_with_resume` returning `False`) just loops, with no
sleep, because that function caught its exception itself. -/
def perform_loop (env : Env) : Nat → Nat → Sys → Sys × POut
  | 0, _, s => (s, .exited)
  | fuel + 1, attempt, s =>
    let s1 := tickCancel s
    let s2 := emit (.check s1.job.cancel) s1
    if s1.job.cancel then (s2, .exited)
    else
      let a := attempt + 1
      let s3 := emit (.attemptStart a) s2
      let ae := env.att a
      match ae.preError with
      | some e =>
        if 4 ≤ a then (tickCancel s3, .raised e)
        else
          let s4 := emit (.sleep (2 ^ (a - 1))) (tickCancel s3)
          perform_loop env fuel a s4
      | none =>
        let s4 := tickCancel s3
        if check_disk_space ae.head env.free then
          let s5 := tickCancel s4
          match download_with_resume s5 ae.get (s5.fs.part.getD 0) with
          | (s6, true) =>
            let s7 := tickCancel s6
            let s8 := { s7 with job := { s7.job with
                status := .done,
                finished_writes := s7.job.finished_writes ++ [s7.tick],
                path := true } }
            (if s8.job.hasStatusCb then emit (.statusCb .done) s8 else s8,
             .retDone)
          | (s6, false) => perform_loop env fuel a s6
        else
          let s5 := tickCancel s4
          ({ s5 with job := { s5.job with
              status := .failed,
              error := some "Insufficient disk space",
              finished_writes := s5.job.finished_writes ++ [s5.tick] } },
           .retDisk)

/-- `ModelDownloader._perform_download` (lines 159-213): the retry loop,
then the tail that re-reads the flag (line 207) and finalizes as `cancelled`
or as `failed` with the generic "Max attempts exceeded" message. -/
def perform_download (env : Env) (s : Sys) : Sys × POut :=
  match perform_loop env 4 0 s with
  | (t, .exited) =>
    let s1 := tickCancel t
    let s2 := emit (.check s1.job.cancel) s1
    if s1.job.cancel then
      let s3 := tickCancel s2
      ({ s3 with job := { s3.job with
          status := .cancelled,
          finished_writes := s3.job.finished_writes ++ [s3.tick] } }, .exited)
    else
      let s3 := tickCancel s2
      ({ s3 with job := { s3.job with
          status := .failed,
          error := some "Max attempts exceeded",
          finished_writes := s3.job.finished_writes ++ [s3.tick] } }, .exited)
  | (t, out) => (t, out)

/-- `ModelDownloader._download_worker` (lines 142-157): mark the job
`running`, invoke the status callback with `running`, run
`_perform_download`, and on a propagated exception finalize as `failed`
and invoke the status callback with `failed`. -/
def download_worker (env : Env) (s : Sys) : Sys :=
  let s1 := tickCancel s
  let s2 := { s1 with job := { s1.job with
      status := .running,
      started_at := some s1.tick } }
  let s3 := tickCancel s2
  let s4 := if s3.job.hasStatusCb then emit (.statusCb .running) s3 else s3
  match perform_download env s4 with
  | (s5, .raised e) =>
    let s6 := tickCancel s5
    let s7 := { s6 with job := { s6.job with
        status := .failed,
        error := some e,
        finished_writes := s6.job.finished_writes ++ [s6.tick] } }
    if s7.job.hasStatusCb then emit (.statusCb .failed) s7 else s7
  | (s5, _) => s5

/-- The worker's prelude (lines 142-148): mark running, set `started_at`,
invoke the status callback with `running` when present.  Proof-layer
abbreviation, definitionally the corresponding prefix of
`download_worker`. -/
def workerPre (s : Sys) : Sys :=
  let s1 := tickCancel s
  let s2 := { s1 with job := { s1.job with
      status := .running,
      started_at := some s1.tick } }
  let s3 := tickCancel s2
  if s3.job.hasStatusCb then emit (.statusCb .running) s3 else s3

/-- `ModelDownloader.start_download` (lines 131-140): refuse (returning
`False`, with no job mutation) unless the job's status is `queued`,
otherwise spawn the worker and return `True`.  The spawned worker is run to
completion here. -/
def start_download (env : Env) (s : Sys) : Sys × Bool :=
  let s1 := tickCancel s
  if s1.job.status = .queued then (download_worker env s1, true)
  else (s1, false)

/-- The guard of `start_download` (lines 134-136): the registry lookup may
fail (`none`), and a job that is not `queued` is refused. -/
def start_download_guard (j : Option Job) : Bool :=
  match j with
  | none => false
  | some j => j.status = .queued

/-- A freshly created job (`DownloadJob.__init__`, lines 22-47): status
`queued`, zero bytes downloaded, no size, no error, flag clear. -/
def initJob (cb pcb : Bool) : Job :=
  { status := .queued, started_at := none, finished_writes := [],
    error := none, downloaded := 0, size := none, path := false,
    cancel := false, hasStatusCb := cb, hasProgressCb := pcb }

/-- Initial system state around a given job and filesystem. -/
def initSys (j : Job) (fs : FS) (cancelAt : Option Nat) : Sys :=
  { job := j, fs := fs, trace := [], tick := 0, cancelAt := cancelAt,
    cancelRet := none }

/-- One complete execution: `start_download` on a fresh job (with one
interleaved `cancel_job` call allowed at any action boundary, including
after completion).  Returns the final state and `start_download`'s result. -/
def startAndRun (env : Env) (fs : FS) (cancelAt : Option Nat)
    (cb pcb : Bool) : Sys × Bool :=
  match start_download env (initSys (initJob cb pcb) fs cancelAt) with
  | (s, r) => (tickCancel s, r)

/-- Concrete environment: every attempt succeeds, the GET reporting a
content length of 2 and yielding two 1-byte chunks. -/
def envSucc : Env :=
  { att := fun _ =>
      { preError := none, head := some none,
        get := .ok { contentLength := some 2, chunks := [1, 1], streamError := none } },
    free := 0 }

/-- Concrete environment: every attempt fails with a network error raised
inside the streaming GET (caught by the transfer engine itself). -/
def envNet : Env :=
  { att := fun _ =>
      { preError := none, head := some none, get := .error "boom" },
    free := 0 }

/-- Concrete environment: every attempt raises "url error" in the retry-loop
body before the transfer (the path through the loop's `except` clause). -/
def envUrl : Env :=
  { att := fun _ =>
      { preError := some "url error", head := some none,
        get := .ok { contentLength := none, chunks := [], streamError := none } },
    free := 0 }

/-- Concrete environment: the size probe reports 10 bytes but only 1 byte is
free on the destination volume (10 * 1.2 > 1). -/
def envLowDisk : Env :=
  { att := fun _ =>
      { preError := none, head := some (some 10), get := .error "x" },
    free := 1 }

/-- Concrete environment: the first attempt fails in the stream with "boom",
the second attempt succeeds. -/
def envRetryOk : Env :=
  { att := fun k =>
      if k = 1 then { preError := none, head := some none, get := .error "boom" }
      else { preError := none, head := some none,
             get := .ok { contentLength := some 2, chunks := [2], streamError := none } },
    free := 0 }

/-- The sequence of status-callback invocations recorded in a trace. -/
def cbsOf (tr : List Event) : List Status :=
  tr.filterMap fun e => match e with | .statusCb st => some st | _ => none

/-- The sequence of sleeps recorded in a trace. -/
def sleepsOf (tr : List Event) : List Nat :=
  tr.filterMap fun e => match e with | .sleep n => some n | _ => none

/-- The sequence of attempt numbers recorded in a trace. -/
def attemptsOf (tr : List Event) : List Nat :=
  tr.filterMap fun e => match e with | .attemptStart k => some k | _ => none

/-- The sequence of progress-callback invocations recorded in a trace. -/
def progsOf (tr : List Event) : List (Nat × Nat) :=
  tr.filterMap fun e => match e with | .progressCb d t => some (d, t) | _ => none

/-- The sequence of GET requests recorded in a trace, each with its `Range`
offset (`none` = no `Range` header was sent). -/
def getsOf (tr : List Event) : List (Option Nat) :=
  tr.filterMap fun e => match e with | .getReq x => some x | _ => none

/-- The sequence of staging-file opens recorded in a trace, each with its
mode (`'ab'` = append, `'wb'` = truncate). -/
def opensOf (tr : List Event) : List Mode :=
  tr.filterMap fun e => match e with | .openFile m => some m | _ => none

/-- Every progress-callback invocation in the trace reported a downloaded
count of at most `bound` and a total of exactly `total`. -/
def ProgOk (tr : List Event) (bound total : Nat) : Prop :=
  ∀ p ∈ progsOf tr, p.1 ≤ bound ∧ p.2 = total

instance (tr : List Event) (bound total : Nat) :
    Decidable (ProgOk tr bound total) :=
  List.decidableBAll _ (progsOf tr)


/-! ## Basic lemmas about the atomic-step combinators -/

theorem tickCancel_none (s : Sys) (h : s.cancelAt = none) :
    tickCancel s = { s with tick := s.tick + 1 } := by
  simp [tickCancel, h]

@[simp] theorem tickCancel_fs (s : Sys) : (tickCancel s).fs = s.fs := by
  unfold tickCancel; split <;> rfl

@[simp] theorem tickCancel_trace (s : Sys) : (tickCancel s).trace = s.trace := by
  unfold tickCancel; split <;> rfl

@[simp] theorem tickCancel_cancelAt (s : Sys) :
    (tickCancel s).cancelAt = s.cancelAt := by
  unfold tickCancel; split <;> rfl

@[simp] theorem tickCancel_path (s : Sys) :
    (tickCancel s).job.path = s.job.path := by
  unfold tickCancel cancel_job; split
  · split <;> rfl
  · rfl

@[simp] theorem tickCancel_started (s : Sys) :
    (tickCancel s).job.started_at = s.job.started_at := by
  unfold tickCancel cancel_job; split
  · split <;> rfl
  · rfl

@[simp] theorem tickCancel_error (s : Sys) :
    (tickCancel s).job.error = s.job.error := by
  unfold tickCancel cancel_job; split
  · split <;> rfl
  · rfl

@[simp] theorem tickCancel_downloaded (s : Sys) :
    (tickCancel s).job.downloaded = s.job.downloaded := by
  unfold tickCancel cancel_job; split
  · split <;> rfl
  · rfl

@[simp] theorem tickCancel_size (s : Sys) :
    (tickCancel s).job.size = s.job.size := by
  unfold tickCancel cancel_job; split
  · split <;> rfl
  · rfl

@[simp] theorem tickCancel_hasStatusCb (s : Sys) :
    (tickCancel s).job.hasStatusCb = s.job.hasStatusCb := by
  unfold tickCancel cancel_job; split
  · split <;> rfl
  · rfl

@[simp] theorem tickCancel_hasProgressCb (s : Sys) :
    (tickCancel s).job.hasProgressCb = s.job.hasProgressCb := by
  unfold tickCancel cancel_job; split
  · split <;> rfl
  · rfl

theorem tickCancel_cancel_true (s : Sys) (h : s.job.cancel = true) :
    (tickCancel s).job.cancel = true := by
  unfold tickCancel cancel_job; split
  · split <;> simp_all
  · exact h

theorem tickCancel_job_of_terminal (s : Sys)
    (h : s.job.status.isTerminal = true) : (tickCancel s).job = s.job := by
  unfold tickCancel cancel_job
  have h2 : ¬ (s.job.status = .queued ∨ s.job.status = .running) := by
    cases hs : s.job.status <;> simp_all [Status.isTerminal]
  split
  · simp [h2]
  · rfl

@[simp] theorem emit_job (e : Event) (s : Sys) : (emit e s).job = s.job := rfl

@[simp] theorem emit_fs (e : Event) (s : Sys) : (emit e s).fs = s.fs := rfl

@[simp] theorem emit_cancelAt (e : Event) (s : Sys) :
    (emit e s).cancelAt = s.cancelAt := rfl

@[simp] theorem emit_trace (e : Event) (s : Sys) :
    (emit e s).trace = s.trace ++ [e] := rfl



/-! ## Computation rules for the trace extractors -/

@[simp] theorem cbsOf_nil : cbsOf [] = [] := rfl

@[simp] theorem cbsOf_append (a b : List Event) :
    cbsOf (a ++ b) = cbsOf a ++ cbsOf b := by
  simp [cbsOf, List.filterMap_append]

@[simp] theorem cbsOf_cons_statusCb (st : Status) (tr : List Event) :
    cbsOf (Event.statusCb st :: tr) = st :: cbsOf tr := rfl

@[simp] theorem cbsOf_cons_progressCb (d t : Nat) (tr : List Event) :
    cbsOf (Event.progressCb d t :: tr) = cbsOf tr := rfl

@[simp] theorem cbsOf_cons_sleep (n : Nat) (tr : List Event) :
    cbsOf (Event.sleep n :: tr) = cbsOf tr := rfl

@[simp] theorem cbsOf_cons_attemptStart (k : Nat) (tr : List Event) :
    cbsOf (Event.attemptStart k :: tr) = cbsOf tr := rfl

@[simp] theorem cbsOf_cons_check (b : Bool) (tr : List Event) :
    cbsOf (Event.check b :: tr) = cbsOf tr := rfl

@[simp] theorem cbsOf_cons_getReq (x : Option Nat) (tr : List Event) :
    cbsOf (Event.getReq x :: tr) = cbsOf tr := rfl

@[simp] theorem cbsOf_cons_openFile (m : Mode) (tr : List Event) :
    cbsOf (Event.openFile m :: tr) = cbsOf tr := rfl

@[simp] theorem sleepsOf_nil : sleepsOf [] = [] := rfl

@[simp] theorem sleepsOf_append (a b : List Event) :
    sleepsOf (a ++ b) = sleepsOf a ++ sleepsOf b := by
  simp [sleepsOf, List.filterMap_append]

@[simp] theorem sleepsOf_cons_statusCb (st : Status) (tr : List Event) :
    sleepsOf (Event.statusCb st :: tr) = sleepsOf tr := rfl

@[simp] theorem sleepsOf_cons_progressCb (d t : Nat) (tr : List Event) :
    sleepsOf (Event.progressCb d t :: tr) = sleepsOf tr := rfl

@[simp] theorem sleepsOf_cons_sleep (n : Nat) (tr : List Event) :
    sleepsOf (Event.sleep n :: tr) = n :: sleepsOf tr := rfl

@[simp] theorem sleepsOf_cons_attemptStart (k : Nat) (tr : List Event) :
    sleepsOf (Event.attemptStart k :: tr) = sleepsOf tr := rfl

@[simp] theorem sleepsOf_cons_check (b : Bool) (tr : List Event) :
    sleepsOf (Event.check b :: tr) = sleepsOf tr := rfl

@[simp] theorem sleepsOf_cons_getReq (x : Option Nat) (tr : List Event) :
    sleepsOf (Event.getReq x :: tr) = sleepsOf tr := rfl

@[simp] theorem sleepsOf_cons_openFile (m : Mode) (tr : List Event) :
    sleepsOf (Event.openFile m :: tr) = sleepsOf tr := rfl

@[simp] theorem attemptsOf_nil : attemptsOf [] = [] := rfl

@[simp] theorem attemptsOf_append (a b : List Event) :
    attemptsOf (a ++ b) = attemptsOf a ++ attemptsOf b := by
  simp [attemptsOf, List.filterMap_append]

@[simp] theorem attemptsOf_cons_statusCb (st : Status) (tr : List Event) :
    attemptsOf (Event.statusCb st :: tr) = attemptsOf tr := rfl

@[simp] theorem attemptsOf_cons_progressCb (d t : Nat) (tr : List Event) :
    attemptsOf (Event.progressCb d t :: tr) = attemptsOf tr := rfl

@[simp] theorem attemptsOf_cons_sleep (n : Nat) (tr : List Event) :
    attemptsOf (Event.sleep n :: tr) = attemptsOf tr := rfl

@[simp] theorem attemptsOf_cons_attemptStart (k : Nat) (tr : List Event) :
    attemptsOf (Event.attemptStart k :: tr) = k :: attemptsOf tr := rfl

@[simp] theorem attemptsOf_cons_check (b : Bool) (tr : List Event) :
    attemptsOf (Event.check b :: tr) = attemptsOf tr := rfl

@[simp] theorem attemptsOf_cons_getReq (x : Option Nat) (tr : List Event) :
    attemptsOf (Event.getReq x :: tr) = attemptsOf tr := rfl

@[simp] theorem attemptsOf_cons_openFile (m : Mode) (tr : List Event) :
    attemptsOf (Event.openFile m :: tr) = attemptsOf tr := rfl

@[simp] theorem progsOf_nil : progsOf [] = [] := rfl

@[simp] theorem progsOf_append (a b : List Event) :
    progsOf (a ++ b) = progsOf a ++ progsOf b := by
  simp [progsOf, List.filterMap_append]

@[simp] theorem progsOf_cons_statusCb (st : Status) (tr : List Event) :
    progsOf (Event.statusCb st :: tr) = progsOf tr := rfl

@[simp] theorem progsOf_cons_progressCb (d t : Nat) (tr : List Event) :
    progsOf (Event.progressCb d t :: tr) = (d, t) :: progsOf tr := rfl

@[simp] theorem progsOf_cons_sleep (n : Nat) (tr : List Event) :
    progsOf (Event.sleep n :: tr) = progsOf tr := rfl

@[simp] theorem progsOf_cons_attemptStart (k : Nat) (tr : List Event) :
    progsOf (Event.attemptStart k :: tr) = progsOf tr := rfl

@[simp] theorem progsOf_cons_check (b : Bool) (tr : List Event) :
    progsOf (Event.check b :: tr) = progsOf tr := rfl

@[simp] theorem progsOf_cons_getReq (x : Option Nat) (tr : List Event) :
    progsOf (Event.getReq x :: tr) = progsOf tr := rfl

@[simp] theorem progsOf_cons_openFile (m : Mode) (tr : List Event) :
    progsOf (Event.openFile m :: tr) = progsOf tr := rfl

/-! ## The chunk loop without cancellation -/

/-- Full characterization of the chunk loop when no cancellation fires:
it consumes every chunk (returns `True`), adds the total chunk size to
`downloaded` and to the staging file, changes nothing else of the job,
and emits only flag-check and progress events; every progress callback
reports at most the final downloaded count and exactly `job.size or 0`. -/
theorem streamLoop_nc : ∀ (cs : List Nat) (s : Sys) (p : Nat),
    s.cancelAt = none → s.job.cancel = false → s.fs.part = some p →
    (streamLoop s cs).2 = true ∧
    (streamLoop s cs).1.job =
      { s.job with downloaded := s.job.downloaded + cs.sum } ∧
    (streamLoop s cs).1.fs = { part := some (p + cs.sum), final := s.fs.final } ∧
    (streamLoop s cs).1.cancelAt = none ∧
    (streamLoop s cs).1.cancelRet = s.cancelRet ∧
    ∃ tr, (streamLoop s cs).1.trace = s.trace ++ tr ∧
      cbsOf tr = [] ∧ sleepsOf tr = [] ∧ attemptsOf tr = [] ∧
      ∀ q ∈ progsOf tr, q.1 ≤ s.job.downloaded + cs.sum ∧ q.2 = s.job.size.getD 0
  | [], s, p, hc, hf, hp => by
    refine ⟨rfl, by simp [streamLoop], by simp [streamLoop, ← hp], by simp [streamLoop, hc],
      rfl, [], by simp [streamLoop], rfl, rfl, rfl, by simp [progsOf]⟩
  | c :: rest, s, p, hc, hf, hp => by
    have h1 : tickCancel s = { s with tick := s.tick + 1 } := tickCancel_none s hc
    by_cases hc0 : c = 0
    · subst hc0
      obtain ⟨hok, hjob, hfs, hca, hcr, tr, htr, hcb, hsl, hat, hpr⟩ :=
        streamLoop_nc rest (emit (.check false) { s with tick := s.tick + 1 }) p hc hf hp
      have hstep : streamLoop s (0 :: rest) =
          streamLoop (emit (.check false) { s with tick := s.tick + 1 }) rest := by
        simp [streamLoop, h1, hf]
      rw [hstep]
      refine ⟨hok, by simpa using hjob, by simpa using hfs, hca, hcr,
        Event.check false :: tr, ?_, ?_, ?_, ?_, ?_⟩
      · simpa using htr
      · simpa [cbsOf, List.filterMap_cons] using hcb
      · simpa [sleepsOf, List.filterMap_cons] using hsl
      · simpa [attemptsOf, List.filterMap_cons] using hat
      · intro q hq
        simp only [progsOf, List.filterMap_cons] at hq
        obtain ⟨h1q, h2q⟩ := hpr q (by simpa [progsOf] using hq)
        exact ⟨by simpa using h1q, h2q⟩
    · by_cases hpb : s.job.hasProgressCb
      · obtain ⟨hok, hjob, hfs, hca, hcr, tr, htr, hcb, hsl, hat, hpr⟩ :=
          streamLoop_nc rest
            (emit (.progressCb (s.job.downloaded + c) (s.job.size.getD 0))
              { job := { s.job with downloaded := s.job.downloaded + c },
                fs := { part := some (p + c), final := s.fs.final },
                trace := s.trace ++ [Event.check false],
                tick := s.tick + 1, cancelAt := s.cancelAt,
                cancelRet := s.cancelRet }) (p + c) hc hf rfl
        have hstep : streamLoop s (c :: rest) =
            streamLoop
              (emit (.progressCb (s.job.downloaded + c) (s.job.size.getD 0))
                { job := { s.job with downloaded := s.job.downloaded + c },
                  fs := { part := some (p + c), final := s.fs.final },
                  trace := s.trace ++ [Event.check false],
                  tick := s.tick + 1, cancelAt := s.cancelAt,
                  cancelRet := s.cancelRet }) rest := by
          simp [streamLoop, h1, hf, emit, hc0, hpb, hp]
        rw [hstep]
        refine ⟨hok, ?_, ?_, hca, hcr,
          Event.check false :: Event.progressCb (s.job.downloaded + c) (s.job.size.getD 0) :: tr,
          ?_, ?_, ?_, ?_, ?_⟩
        · rw [hjob]; simp [Nat.add_assoc]
        · rw [hfs]; simp [Nat.add_assoc]
        · rw [htr]; simp [emit]
        · simpa [cbsOf, List.filterMap_cons] using hcb
        · simpa [sleepsOf, List.filterMap_cons] using hsl
        · simpa [attemptsOf, List.filterMap_cons] using hat
        · intro q hq
          simp only [progsOf, List.filterMap_cons, List.mem_cons] at hq
          rcases hq with hq | hq
          · subst hq
            constructor
            · simp [List.sum_cons, Nat.add_assoc]
            · rfl
          · obtain ⟨h1q, h2q⟩ := hpr q (by simpa [progsOf] using hq)
            refine ⟨?_, h2q⟩
            calc q.1 ≤ s.job.downloaded + c + rest.sum := h1q
              _ = s.job.downloaded + (c :: rest).sum := by simp [Nat.add_assoc]
      · obtain ⟨hok, hjob, hfs, hca, hcr, tr, htr, hcb, hsl, hat, hpr⟩ :=
          streamLoop_nc rest
            ({ job := { s.job with downloaded := s.job.downloaded + c },
               fs := { part := some (p + c), final := s.fs.final },
               trace := s.trace ++ [Event.check false],
               tick := s.tick + 1, cancelAt := s.cancelAt,
               cancelRet := s.cancelRet }) (p + c) hc hf rfl
        have hstep : streamLoop s (c :: rest) =
            streamLoop
              ({ job := { s.job with downloaded := s.job.downloaded + c },
                 fs := { part := some (p + c), final := s.fs.final },
                 trace := s.trace ++ [Event.check false],
                 tick := s.tick + 1, cancelAt := s.cancelAt,
                 cancelRet := s.cancelRet }) rest := by
          simp [streamLoop, h1, hf, emit, hc0, hpb, hp]
        rw [hstep]
        refine ⟨hok, ?_, ?_, hca, hcr, Event.check false :: tr, ?_, ?_, ?_, ?_, ?_⟩
        · rw [hjob]; simp [Nat.add_assoc]
        · rw [hfs]; simp [Nat.add_assoc]
        · rw [htr]; simp
        · simpa [cbsOf, List.filterMap_cons] using hcb
        · simpa [sleepsOf, List.filterMap_cons] using hsl
        · simpa [attemptsOf, List.filterMap_cons] using hat
        · intro q hq
          simp only [progsOf, List.filterMap_cons] at hq
          obtain ⟨h1q, h2q⟩ := hpr q (by simpa [progsOf] using hq)
          refine ⟨?_, h2q⟩
          calc q.1 ≤ s.job.downloaded + c + rest.sum := h1q
            _ = s.job.downloaded + (c :: rest).sum := by simp [Nat.add_assoc]


/-! ## Shape lemmas for the chunk loop with an arbitrary cancellation schedule -/

/-- When the flag check at the head chunk reads `false`, the loop tail-calls
itself on a state that extends the trace by non-check-true events and
preserves the flag, `path`, and the final file. -/
theorem streamLoop_cons_else (s : Sys) (c : Nat) (rest : List Nat)
    (hb : (tickCancel s).job.cancel = false) :
    ∃ s3, streamLoop s (c :: rest) = streamLoop s3 rest ∧
      (Event.check true ∈ s3.trace → Event.check true ∈ s.trace) ∧
      (∃ tr0, s3.trace = s.trace ++ tr0) ∧
      s3.job.cancel = false ∧
      s3.job.path = (tickCancel s).job.path ∧
      s3.fs.final = (tickCancel s).fs.final := by
  by_cases hc0 : c = 0
  · exact ⟨emit (.check false) (tickCancel s), by simp [streamLoop, hb, hc0],
      fun h => by simpa using h, ⟨[Event.check false], by simp⟩,
      by simpa using hb, by simp, by simp⟩
  · by_cases hpb : (tickCancel s).job.hasProgressCb = true
    · have hpb2 : s.job.hasProgressCb = true := by simpa using hpb
      exact ⟨emit (.progressCb ((tickCancel s).job.downloaded + c)
          ((tickCancel s).job.size.getD 0))
        { emit (.check false) (tickCancel s) with
          job := { (tickCancel s).job with
                   downloaded := (tickCancel s).job.downloaded + c },
          fs := { (tickCancel s).fs with
                  part := some ((tickCancel s).fs.part.getD 0 + c) } },
        by simp [streamLoop, hb, hc0, hpb2, emit],
        fun h => by simpa [List.append_assoc] using h,
        ⟨[Event.check false,
          Event.progressCb ((tickCancel s).job.downloaded + c)
            ((tickCancel s).job.size.getD 0)], by simp⟩,
        by simpa using hb, by simp, by simp⟩
    · have hpb2 : s.job.hasProgressCb = false := by simpa using hpb
      exact ⟨{ emit (.check false) (tickCancel s) with
          job := { (tickCancel s).job with
                   downloaded := (tickCancel s).job.downloaded + c },
          fs := { (tickCancel s).fs with
                  part := some ((tickCancel s).fs.part.getD 0 + c) } },
        by simp [streamLoop, hb, hc0, hpb2, emit],
        fun h => by simpa using h, ⟨[Event.check false], by simp⟩,
        by simpa using hb, by simp, by simp⟩

/-- The chunk loop only appends to the trace. -/
theorem streamLoop_trace_ext : ∀ (cs : List Nat) (s : Sys),
    ∃ tr, (streamLoop s cs).1.trace = s.trace ++ tr
  | [], s => ⟨[], by simp [streamLoop]⟩
  | c :: rest, s => by
    by_cases hb : (tickCancel s).job.cancel = true
    · exact ⟨[Event.check true], by simp [streamLoop, hb]⟩
    · obtain ⟨s3, heq, _, ⟨tr0, htr0⟩, _, _, _⟩ :=
        streamLoop_cons_else s c rest (by simpa using hb)
      obtain ⟨tr, htr⟩ := streamLoop_trace_ext rest s3
      exact ⟨tr0 ++ tr, by rw [heq, htr, htr0, List.append_assoc]⟩

/-- The chunk loop never touches `job.path` or the final file. -/
theorem streamLoop_pf : ∀ (cs : List Nat) (s : Sys),
    (streamLoop s cs).1.job.path = s.job.path ∧
    (streamLoop s cs).1.fs.final = s.fs.final
  | [], s => ⟨rfl, rfl⟩
  | c :: rest, s => by
    by_cases hb : (tickCancel s).job.cancel = true
    · constructor
      · simp [streamLoop, hb]
      · simp [streamLoop, hb]
    · obtain ⟨s3, heq, _, _, _, hpath, hfin⟩ :=
        streamLoop_cons_else s c rest (by simpa using hb)
      obtain ⟨ih1, ih2⟩ := streamLoop_pf rest s3
      rw [heq]
      constructor
      · rw [ih1, hpath]; simp
      · rw [ih2, hfin]; simp

/-- Once the flag is set it stays set through the chunk loop. -/
theorem streamLoop_cancel_true : ∀ (cs : List Nat) (s : Sys),
    s.job.cancel = true → (streamLoop s cs).1.job.cancel = true
  | [], _, h => h
  | c :: rest, s, h => by
    have h1 := tickCancel_cancel_true s h
    simp [streamLoop, h1]

/-- If a check-true event was emitted inside the chunk loop, the loop
reported `False` (no commit) and left the flag set. -/
theorem streamLoop_checkTrue : ∀ (cs : List Nat) (s : Sys),
    Event.check true ∈ (streamLoop s cs).1.trace →
    Event.check true ∈ s.trace ∨
      ((streamLoop s cs).2 = false ∧ (streamLoop s cs).1.job.cancel = true)
  | [], s => fun h => Or.inl h
  | c :: rest, s => by
    by_cases hb : (tickCancel s).job.cancel = true
    · intro _
      right
      constructor
      · simp [streamLoop, hb]
      · simp [streamLoop, hb]
    · obtain ⟨s3, heq, himp, _, _, _, _⟩ :=
        streamLoop_cons_else s c rest (by simpa using hb)
      rw [heq]
      intro h
      rcases streamLoop_checkTrue rest s3 h with h' | h'
      · exact Or.inl (himp h')
      · exact Or.inr h'


/-! ## Lemmas about the transfer engine -/

theorem dwr_ok_unfold (s : Sys) (r : GetResp) (rf : Nat) :
    download_with_resume s (.ok r) rf =
      (match streamLoop (dwrPre s rf r.contentLength) r.chunks with
       | (sf, false) => (sf, false)
       | (sf, true) =>
         match r.streamError with
         | some e =>
           ({ tickCancel sf with
              job := { (tickCancel sf).job with error := some e } }, false)
         | none =>
           let sg := tickCancel sf
           let fl := sg.fs.part.getD 0
           let si := tickCancel { sg with fs := { part := none, final := some fl } }
           ({ si with job := { si.job with downloaded := fl, size := some fl } },
            true)) := rfl

theorem dwrPre_trace (s : Sys) (rf : Nat) (cl : Option Nat) :
    (dwrPre s rf cl).trace = s.trace ++
      [Event.getReq (if rf > 0 then some rf else none),
       Event.openFile (if rf ≠ 0 then .append else .trunc)] := by
  cases cl <;> simp [dwrPre]

theorem dwrPre_path (s : Sys) (rf : Nat) (cl : Option Nat) :
    (dwrPre s rf cl).job.path = s.job.path := by
  cases cl <;> simp [dwrPre]

theorem dwrPre_final (s : Sys) (rf : Nat) (cl : Option Nat) :
    (dwrPre s rf cl).fs.final = s.fs.final := by
  cases cl <;> simp [dwrPre]

theorem dwrPre_cancel_true (s : Sys) (rf : Nat) (cl : Option Nat)
    (h : s.job.cancel = true) : (dwrPre s rf cl).job.cancel = true := by
  have h1 : (tickCancel s).job.cancel = true := tickCancel_cancel_true s h
  have h2 := tickCancel_cancel_true
    (emit (.getReq (if rf > 0 then some rf else none)) (tickCancel s)) h1
  cases cl with
  | none => exact tickCancel_cancel_true _ h2
  | some n => exact tickCancel_cancel_true _ h2

theorem dwrPre_checkTrue (s : Sys) (rf : Nat) (cl : Option Nat)
    (h : Event.check true ∈ (dwrPre s rf cl).trace) :
    Event.check true ∈ s.trace := by
  rw [dwrPre_trace] at h
  rcases List.mem_append.mp h with h | h
  · exact h
  · rw [List.mem_cons, List.mem_singleton] at h
    rcases h with h | h <;> cases h

theorem dwr_trace_ext (s : Sys) (resp : Except String GetResp) (rf : Nat) :
    ∃ tr, (download_with_resume s resp rf).1.trace =
      s.trace ++ Event.getReq (if rf > 0 then some rf else none) :: tr := by
  cases resp with
  | error e => exact ⟨[], by simp [download_with_resume]⟩
  | ok r =>
    rw [dwr_ok_unfold]
    rcases hsl : streamLoop (dwrPre s rf r.contentLength) r.chunks with ⟨sf, ok⟩
    obtain ⟨tr, htr⟩ := streamLoop_trace_ext r.chunks (dwrPre s rf r.contentLength)
    rw [hsl] at htr
    have hsf : sf.trace = s.trace ++
        Event.getReq (if rf > 0 then some rf else none) ::
          (Event.openFile (if rf ≠ 0 then .append else .trunc) :: tr) := by
      rw [htr, dwrPre_trace]; simp
    cases ok
    · exact ⟨_, hsf⟩
    · cases r.streamError
      · exact ⟨_, by simpa using hsf⟩
      · exact ⟨_, by simpa using hsf⟩

theorem dwr_path (s : Sys) (resp : Except String GetResp) (rf : Nat) :
    (download_with_resume s resp rf).1.job.path = s.job.path := by
  cases resp with
  | error e => simp [download_with_resume]
  | ok r =>
    rw [dwr_ok_unfold]
    rcases hsl : streamLoop (dwrPre s rf r.contentLength) r.chunks with ⟨sf, ok⟩
    have hsf : sf.job.path = s.job.path := by
      have := (streamLoop_pf r.chunks (dwrPre s rf r.contentLength)).1
      rw [hsl] at this
      rw [this, dwrPre_path]
    cases ok
    · exact hsf
    · cases r.streamError
      · simpa using hsf
      · simpa using hsf

theorem dwr_final_false (s : Sys) (resp : Except String GetResp) (rf : Nat)
    (h : (download_with_resume s resp rf).2 = false) :
    (download_with_resume s resp rf).1.fs.final = s.fs.final := by
  cases resp with
  | error e => simp [download_with_resume]
  | ok r =>
    rw [dwr_ok_unfold] at h ⊢
    rcases hsl : streamLoop (dwrPre s rf r.contentLength) r.chunks with ⟨sf, ok⟩
    have hsf : sf.fs.final = s.fs.final := by
      have := (streamLoop_pf r.chunks (dwrPre s rf r.contentLength)).2
      rw [hsl] at this
      rw [this, dwrPre_final]
    rw [hsl] at h
    cases ok
    · exact hsf
    · cases hse : r.streamError with
      | none => rw [hse] at h; simp at h
      | some e => simpa using hsf

theorem dwr_cancel_true (s : Sys) (resp : Except String GetResp) (rf : Nat)
    (h : s.job.cancel = true) :
    (download_with_resume s resp rf).1.job.cancel = true := by
  cases resp with
  | error e =>
    simpa [download_with_resume] using tickCancel_cancel_true s h
  | ok r =>
    rw [dwr_ok_unfold]
    rcases hsl : streamLoop (dwrPre s rf r.contentLength) r.chunks with ⟨sf, ok⟩
    have hsf : sf.job.cancel = true := by
      have := streamLoop_cancel_true r.chunks (dwrPre s rf r.contentLength)
        (dwrPre_cancel_true s rf r.contentLength h)
      rwa [hsl] at this
    cases ok
    · exact hsf
    · cases r.streamError
      · exact tickCancel_cancel_true _ (tickCancel_cancel_true sf hsf)
      · exact tickCancel_cancel_true sf hsf

theorem dwr_checkTrue (s : Sys) (resp : Except String GetResp) (rf : Nat) :
    Event.check true ∈ (download_with_resume s resp rf).1.trace →
    Event.check true ∈ s.trace ∨
      ((download_with_resume s resp rf).2 = false ∧
       (download_with_resume s resp rf).1.job.cancel = true) := by
  cases resp with
  | error e =>
    intro h
    left
    simpa [download_with_resume] using h
  | ok r =>
    rw [dwr_ok_unfold]
    rcases hsl : streamLoop (dwrPre s rf r.contentLength) r.chunks with ⟨sf, ok⟩
    have hesc := streamLoop_checkTrue r.chunks (dwrPre s rf r.contentLength)
    rw [hsl] at hesc
    cases ok
    · intro h
      rcases hesc h with h' | h'
      · exact Or.inl (dwrPre_checkTrue s rf r.contentLength h')
      · exact Or.inr ⟨rfl, h'.2⟩
    · cases r.streamError
      · intro h
        rcases hesc (by simpa using h) with h' | h'
        · exact Or.inl (dwrPre_checkTrue s rf r.contentLength h')
        · cases h'.1
      · intro h
        rcases hesc (by simpa using h) with h' | h'
        · exact Or.inl (dwrPre_checkTrue s rf r.contentLength h')
        · cases h'.1


/-! ## Lemmas about the retry loop -/

theorem dwr_checkTrue2 (s : Sys) (resp : Except String GetResp) (rf : Nat)
    (s6 : Sys) (ok : Bool)
    (hdwr : download_with_resume s resp rf = (s6, ok)) :
    Event.check true ∈ s6.trace →
    Event.check true ∈ s.trace ∨ (ok = false ∧ s6.job.cancel = true) := by
  intro h
  have h2 := dwr_checkTrue s resp rf (by rw [hdwr]; exact h)
  rwa [hdwr] at h2

theorem dwr_path2 (s : Sys) (resp : Except String GetResp) (rf : Nat)
    (s6 : Sys) (ok : Bool)
    (hdwr : download_with_resume s resp rf = (s6, ok)) :
    s6.job.path = s.job.path := by
  have h2 := dwr_path s resp rf
  rwa [hdwr] at h2

theorem dwr_final_false2 (s : Sys) (resp : Except String GetResp) (rf : Nat)
    (s6 : Sys) (hdwr : download_with_resume s resp rf = (s6, false)) :
    s6.fs.final = s.fs.final := by
  have h2 := dwr_final_false s resp rf (by rw [hdwr])
  rwa [hdwr] at h2

theorem dwr_cancel_true2 (s : Sys) (resp : Except String GetResp) (rf : Nat)
    (s6 : Sys) (ok : Bool)
    (hdwr : download_with_resume s resp rf = (s6, ok))
    (h : s.job.cancel = true) : s6.job.cancel = true := by
  have h2 := dwr_cancel_true s resp rf h
  rwa [hdwr] at h2

/-- If the flag is already set when the `while` condition is evaluated, the
loop exits at once: flag preserved, no commit, `path` and the final file
untouched. -/
theorem perform_loop_cancel_true (env : Env) : ∀ (fuel attempt : Nat) (s : Sys),
    s.job.cancel = true →
    (perform_loop env fuel attempt s).2 = .exited ∧
    (perform_loop env fuel attempt s).1.job.cancel = true ∧
    (perform_loop env fuel attempt s).1.job.path = s.job.path ∧
    (perform_loop env fuel attempt s).1.fs.final = s.fs.final
  | 0, attempt, s, h => ⟨rfl, h, rfl, rfl⟩
  | fuel + 1, attempt, s, h => by
    have h1 := tickCancel_cancel_true s h
    refine ⟨?_, ?_, ?_, ?_⟩ <;> simp [perform_loop, h1]


/-- Main escape lemma for the retry loop: a check-true event recorded during
the loop forces the `exited` outcome with the flag set; and on the `exited`
outcome the loop has never committed (`path` and the final file unchanged). -/
theorem perform_loop_esc (env : Env) : ∀ (fuel attempt : Nat) (s : Sys),
    (Event.check true ∈ (perform_loop env fuel attempt s).1.trace →
      Event.check true ∈ s.trace ∨
        ((perform_loop env fuel attempt s).2 = .exited ∧
         (perform_loop env fuel attempt s).1.job.cancel = true)) ∧
    ((perform_loop env fuel attempt s).2 = .exited →
      (perform_loop env fuel attempt s).1.job.path = s.job.path ∧
      (perform_loop env fuel attempt s).1.fs.final = s.fs.final)
  | 0, attempt, s => ⟨fun h => Or.inl h, fun _ => ⟨rfl, rfl⟩⟩
  | fuel + 1, attempt, s => by
    by_cases hb : (tickCancel s).job.cancel = true
    · refine ⟨fun _ => Or.inr ⟨?_, ?_⟩, fun _ => ⟨?_, ?_⟩⟩ <;>
        simp [perform_loop, hb]
    · have hb' : (tickCancel s).job.cancel = false := by simpa using hb
      cases hpe : (env.att (attempt + 1)).preError with
      | some e =>
        by_cases ha : 4 ≤ attempt + 1
        · constructor
          · intro h
            left
            have htr : (perform_loop env (fuel + 1) attempt s).1.trace =
                s.trace ++ [Event.check false, Event.attemptStart (attempt + 1)] := by
              simp [perform_loop, hb', hpe, ha]
            rw [htr] at h
            simpa using h
          · intro hex
            have h2 : (perform_loop env (fuel + 1) attempt s).2 = .raised e := by
              simp [perform_loop, hb', hpe, ha]
            rw [h2] at hex
            cases hex
        · have hres : perform_loop env (fuel + 1) attempt s =
              perform_loop env fuel (attempt + 1)
                (emit (.sleep (2 ^ attempt))
                  (tickCancel (emit (.attemptStart (attempt + 1))
                    (emit (.check false) (tickCancel s))))) := by
            simp [perform_loop, hb', hpe, ha]
          rw [hres]
          obtain ⟨ih1, ih2⟩ := perform_loop_esc env fuel (attempt + 1)
            (emit (.sleep (2 ^ attempt))
              (tickCancel (emit (.attemptStart (attempt + 1))
                (emit (.check false) (tickCancel s)))))
          constructor
          · intro h
            rcases ih1 h with h' | h'
            · exact Or.inl (by simpa using h')
            · exact Or.inr h'
          · intro hex
            obtain ⟨hp, hf⟩ := ih2 hex
            exact ⟨by rw [hp]; simp, by rw [hf]; simp⟩
      | none =>
        by_cases hd : check_disk_space (env.att (attempt + 1)).head env.free = true
        · rcases hdwr : download_with_resume
              (tickCancel (tickCancel (emit (.attemptStart (attempt + 1))
                (emit (.check false) (tickCancel s)))))
              (env.att (attempt + 1)).get (s.fs.part.getD 0)
              with ⟨s6, ok⟩
          have hs6tr : Event.check true ∈ s6.trace → Event.check true ∈ s.trace ∨
              (ok = false ∧ s6.job.cancel = true) := by
            intro h
            rcases dwr_checkTrue2 _ _ _ _ _ hdwr h with h' | h'
            · exact Or.inl (by simpa using h')
            · exact Or.inr h'
          cases ok with
          | true =>
            have hres : perform_loop env (fuel + 1) attempt s =
                (if s6.job.hasStatusCb = true then
                  emit (.statusCb .done)
                    { tickCancel s6 with job := { (tickCancel s6).job with
                        status := .done,
                        finished_writes :=
                          (tickCancel s6).job.finished_writes ++ [(tickCancel s6).tick],
                        path := true } }
                 else
                  { tickCancel s6 with job := { (tickCancel s6).job with
                      status := .done,
                      finished_writes :=
                        (tickCancel s6).job.finished_writes ++ [(tickCancel s6).tick],
                      path := true } }, .retDone) := by
              simp [perform_loop, hb', hpe, hd, hdwr]
            constructor
            · intro h
              rw [hres] at h
              left
              by_cases hcb : s6.job.hasStatusCb = true
              · rw [if_pos hcb] at h
                rcases hs6tr (by simpa using h) with h' | h'
                · exact h'
                · cases h'.1
              · rw [if_neg hcb] at h
                rcases hs6tr (by simpa using h) with h' | h'
                · exact h'
                · cases h'.1
            · intro hex
              rw [hres] at hex
              cases hex
          | false =>
            have hres : perform_loop env (fuel + 1) attempt s =
                perform_loop env fuel (attempt + 1) s6 := by
              simp [perform_loop, hb', hpe, hd, hdwr]
            rw [hres]
            obtain ⟨ih1, ih2⟩ := perform_loop_esc env fuel (attempt + 1) s6
            constructor
            · intro h
              rcases ih1 h with h' | h'
              · rcases hs6tr h' with h'' | h''
                · exact Or.inl h''
                · obtain ⟨hexi, hcan, _, _⟩ :=
                    perform_loop_cancel_true env fuel (attempt + 1) s6 h''.2
                  exact Or.inr ⟨hexi, hcan⟩
              · exact Or.inr h'
            · intro hex
              obtain ⟨hp, hf⟩ := ih2 hex
              constructor
              · rw [hp, dwr_path2 _ _ _ _ _ hdwr]; simp
              · rw [hf, dwr_final_false2 _ _ _ _ hdwr]; simp
        · constructor
          · intro h
            left
            have htr : (perform_loop env (fuel + 1) attempt s).1.trace =
                s.trace ++ [Event.check false, Event.attemptStart (attempt + 1)] := by
              simp [perform_loop, hb', hpe, hd]
            rw [htr] at h
            simpa using h
          · intro hex
            have h2 : (perform_loop env (fuel + 1) attempt s).2 = .retDisk := by
              simp [perform_loop, hb', hpe, hd]
            rw [h2] at hex
            cases hex


/-- Escape lemma at the level of `_perform_download`: if a check-true event
is in the trace and was not there initially, the run finalized `cancelled`
via the loop tail (never `done`), with no commit. -/
theorem perform_download_esc (env : Env) (s : Sys)
    (hs : Event.check true ∉ s.trace) (t : Sys) (out : POut)
    (hpd : perform_download env s = (t, out))
    (h : Event.check true ∈ t.trace) :
    out = .exited ∧ t.job.status = .cancelled ∧
    t.job.path = s.job.path ∧ t.fs.final = s.fs.final := by
  rcases hpl : perform_loop env 4 0 s with ⟨u, lout⟩
  have hesc := perform_loop_esc env 4 0 s
  rw [hpl] at hesc
  obtain ⟨hesc1, hesc2⟩ := hesc
  cases lout with
  | exited =>
    by_cases hbu : (tickCancel u).job.cancel = true
    · have hres : perform_download env s =
          ({ tickCancel (emit (.check true) (tickCancel u)) with
             job := { (tickCancel (emit (.check true) (tickCancel u))).job with
               status := .cancelled,
               finished_writes :=
                 (tickCancel (emit (.check true) (tickCancel u))).job.finished_writes
                   ++ [(tickCancel (emit (.check true) (tickCancel u))).tick] } },
           .exited) := by
        simp [perform_download, hpl, hbu]
      rw [hres] at hpd
      injection hpd with h1 h2
      subst h1
      subst h2
      refine ⟨rfl, rfl, ?_, ?_⟩
      · simpa using (hesc2 rfl).1
      · simpa using (hesc2 rfl).2
    · have hres : perform_download env s =
          ({ tickCancel (emit (.check false) (tickCancel u)) with
             job := { (tickCancel (emit (.check false) (tickCancel u))).job with
               status := .failed,
               error := some "Max attempts exceeded",
               finished_writes :=
                 (tickCancel (emit (.check false) (tickCancel u))).job.finished_writes
                   ++ [(tickCancel (emit (.check false) (tickCancel u))).tick] } },
           .exited) := by
        simp [perform_download, hpl, hbu]
      rw [hres] at hpd
      injection hpd with h1 h2
      subst h1
      subst h2
      have h3 : Event.check true ∈ u.trace := by simpa using h
      rcases hesc1 h3 with h' | h'
      · exact absurd h' hs
      · exact absurd (tickCancel_cancel_true u h'.2) hbu
  | retDone =>
    have hres : perform_download env s = (u, .retDone) := by
      simp [perform_download, hpl]
    rw [hres] at hpd
    injection hpd with h1 h2
    subst h1
    subst h2
    rcases hesc1 h with h' | h'
    · exact absurd h' hs
    · simp at h'
  | retDisk =>
    have hres : perform_download env s = (u, .retDisk) := by
      simp [perform_download, hpl]
    rw [hres] at hpd
    injection hpd with h1 h2
    subst h1
    subst h2
    rcases hesc1 h with h' | h'
    · exact absurd h' hs
    · simp at h'
  | raised e =>
    have hres : perform_download env s = (u, .raised e) := by
      simp [perform_download, hpl]
    rw [hres] at hpd
    injection hpd with h1 h2
    subst h1
    subst h2
    rcases hesc1 h with h' | h'
    · exact absurd h' hs
    · simp at h'


/-- Escape lemma at the level of `_download_worker`: a check-true event in
the final trace (starting from a trace without one) means the job finished
`cancelled`, with `path` and the final file untouched. -/
theorem download_worker_cancelled (env : Env) (s : Sys)
    (hs : Event.check true ∉ s.trace)
    (h : Event.check true ∈ (download_worker env s).trace) :
    (download_worker env s).job.status = .cancelled ∧
    (download_worker env s).job.path = s.job.path ∧
    (download_worker env s).fs.final = s.fs.final := by
  set s2 : Sys := { tickCancel s with job := { (tickCancel s).job with
      status := .running, started_at := some (tickCancel s).tick } } with hs2
  set s4 : Sys := if (tickCancel s2).job.hasStatusCb = true
      then emit (.statusCb .running) (tickCancel s2) else tickCancel s2 with hs4
  have h4t : Event.check true ∈ s4.trace → Event.check true ∈ s.trace := by
    intro hx
    by_cases hcb : (tickCancel s2).job.hasStatusCb = true
    · rw [hs4, if_pos hcb] at hx
      simpa [hs2] using hx
    · rw [hs4, if_neg hcb] at hx
      simpa [hs2] using hx
  have hs4tr : Event.check true ∉ s4.trace := fun hx => hs (h4t hx)
  have hp4 : s4.job.path = s.job.path := by
    by_cases hcb : (tickCancel s2).job.hasStatusCb = true
    · rw [hs4, if_pos hcb]; simp [hs2]
    · rw [hs4, if_neg hcb]; simp [hs2]
  have hf4 : s4.fs.final = s.fs.final := by
    by_cases hcb : (tickCancel s2).job.hasStatusCb = true
    · rw [hs4, if_pos hcb]; simp [hs2]
    · rw [hs4, if_neg hcb]; simp [hs2]
  have hw : download_worker env s =
      (match perform_download env s4 with
       | (s5, .raised e) =>
         let s6 := tickCancel s5
         let s7 := { s6 with job := { s6.job with
             status := .failed,
             error := some e,
             finished_writes := s6.job.finished_writes ++ [s6.tick] } }
         if s7.job.hasStatusCb then emit (.statusCb .failed) s7 else s7
       | (s5, _) => s5) := rfl
  rcases hpdr : perform_download env s4 with ⟨s5, out⟩
  rw [hpdr] at hw
  cases out with
  | raised e =>
    rw [hw] at h
    have h' : Event.check true ∈
        (if (tickCancel s5).job.hasStatusCb = true
         then emit (.statusCb .failed)
           { tickCancel s5 with job := { (tickCancel s5).job with
               status := .failed, error := some e,
               finished_writes :=
                 (tickCancel s5).job.finished_writes ++ [(tickCancel s5).tick] } }
         else
           { tickCancel s5 with job := { (tickCancel s5).job with
               status := .failed, error := some e,
               finished_writes :=
                 (tickCancel s5).job.finished_writes ++ [(tickCancel s5).tick] } }).trace := h
    have h5 : Event.check true ∈ s5.trace := by
      by_cases hcb : (tickCancel s5).job.hasStatusCb = true
      · rw [if_pos hcb] at h'
        simpa using h'
      · rw [if_neg hcb] at h'
        simpa using h'
    have := (perform_download_esc env s4 hs4tr s5 _ hpdr h5).1
    simp at this
  | exited =>
    rw [hw] at h ⊢
    obtain ⟨_, hst, hpa, hfi⟩ := perform_download_esc env s4 hs4tr s5 _ hpdr h
    exact ⟨hst, by rw [hpa, hp4], by rw [hfi, hf4]⟩
  | retDone =>
    rw [hw] at h ⊢
    obtain ⟨_, hst, hpa, hfi⟩ := perform_download_esc env s4 hs4tr s5 _ hpdr h
    exact ⟨hst, by rw [hpa, hp4], by rw [hfi, hf4]⟩
  | retDisk =>
    rw [hw] at h ⊢
    obtain ⟨_, hst, hpa, hfi⟩ := perform_download_esc env s4 hs4tr s5 _ hpdr h
    exact ⟨hst, by rw [hpa, hp4], by rw [hfi, hf4]⟩


/-! ## Claim C1 -/

/-- C1 (amended): once the cancellation flag is set and any of the worker's
flag checks observes it, the job reaches the terminal state `cancelled` with
no commit (`path` never set, final file untouched); and a job cancelled
while still `queued` is never started and stays `cancelled`.  (The original
claim — that a flag set at any moment while queued or running prevents
`done` — fails for a flag set after the final per-chunk check, see the
counterexample.) -/
theorem c1_cancel_observed_cancelled (env : Env) (fs : FS) (cAt : Option Nat)
    (cb pcb : Bool)
    (h : Event.check true ∈ (startAndRun env fs cAt cb pcb).1.trace) :
    (startAndRun env fs cAt cb pcb).1.job.status = .cancelled ∧
    (startAndRun env fs cAt cb pcb).1.job.path = false ∧
    (startAndRun env fs cAt cb pcb).1.fs.final = fs.final ∧
    (startAndRun env fs (some 0) cb pcb).1.job.status = .cancelled ∧
    (startAndRun env fs (some 0) cb pcb).2 = false := by
  have hmain : (startAndRun env fs cAt cb pcb).1.job.status = .cancelled ∧
      (startAndRun env fs cAt cb pcb).1.job.path = false ∧
      (startAndRun env fs cAt cb pcb).1.fs.final = fs.final := by
    by_cases hq : (tickCancel (initSys (initJob cb pcb) fs cAt)).job.status = .queued
    · have hrun : (startAndRun env fs cAt cb pcb).1 =
          tickCancel (download_worker env
            (tickCancel (initSys (initJob cb pcb) fs cAt))) := by
        simp [startAndRun, start_download, hq]
      rw [hrun] at h ⊢
      have hs : Event.check true ∉
          (tickCancel (initSys (initJob cb pcb) fs cAt)).trace := by
        simp [initSys]
      obtain ⟨h1, h2, h3⟩ := download_worker_cancelled env
        (tickCancel (initSys (initJob cb pcb) fs cAt)) hs (by simpa using h)
      have hterm : (tickCancel (download_worker env
          (tickCancel (initSys (initJob cb pcb) fs cAt)))).job =
          (download_worker env
            (tickCancel (initSys (initJob cb pcb) fs cAt))).job :=
        tickCancel_job_of_terminal _ (by rw [h1]; rfl)
      refine ⟨?_, ?_, ?_⟩
      · rw [hterm, h1]
      · rw [hterm, h2]
        simp [initSys, initJob]
      · rw [tickCancel_fs, h3]
        simp [initSys]
    · have hrun : (startAndRun env fs cAt cb pcb).1 =
          tickCancel (tickCancel (initSys (initJob cb pcb) fs cAt)) := by
        simp [startAndRun, start_download, hq]
      rw [hrun] at h
      simp [initSys] at h
  exact ⟨hmain.1, hmain.2.1, hmain.2.2, rfl, rfl⟩


/-- C1 counterexample: in a run whose single attempt succeeds (two chunks),
a `cancel_job` call landing at tick 11 — after the final per-chunk flag
check but before the worker's commit — returns `True` (so the job was still
`queued` or `running` at that moment), sets the cancellation flag, and yet
the job ends in state `done`, never `cancelled`.  This falsifies "once the
cancellation flag is set to true, the job reaches `cancelled` and never
becomes `done`". -/
theorem c1_counterexample :
    (startAndRun envSucc ⟨none, none⟩ (some 11) true true).1.cancelRet =
        some true ∧
    (startAndRun envSucc ⟨none, none⟩ (some 11) true true).1.job.cancel =
        true ∧
    (startAndRun envSucc ⟨none, none⟩ (some 11) true true).1.job.status =
        .done := by
  decide

/-- Witness for the amended C1 theorem at a concrete input: a cancel landing
mid-stream (tick 9) is observed by a flag check and the job ends
`cancelled`, uncommitted. -/
theorem c1_witness :
    (startAndRun envSucc ⟨none, none⟩ (some 9) true true).1.job.status =
        .cancelled ∧
    (startAndRun envSucc ⟨none, none⟩ (some 9) true true).1.job.path = false ∧
    (startAndRun envSucc ⟨none, none⟩ (some 9) true true).1.fs.final =
        (⟨none, none⟩ : FS).final ∧
    (startAndRun envSucc ⟨none, none⟩ (some 0) true true).1.job.status =
        .cancelled ∧
    (startAndRun envSucc ⟨none, none⟩ (some 0) true true).2 = false :=
  c1_cancel_observed_cancelled envSucc ⟨none, none⟩ (some 9) true true
    (by decide)


/-! ## The transfer engine without cancellation -/

theorem dwrPre_nc (s : Sys) (rf : Nat) (cl : Option Nat)
    (hc : s.cancelAt = none) :
    dwrPre s rf cl = { s with
      job := { s.job with
        size := match cl with | some n => some (rf + n) | none => s.job.size },
      fs := { s.fs with
        part := if rf ≠ 0 then some (s.fs.part.getD 0) else some 0 },
      trace := s.trace ++
        [Event.getReq (if rf > 0 then some rf else none),
         Event.openFile (if rf ≠ 0 then Mode.append else Mode.trunc)],
      tick := s.tick + 3 } := by
  have h1 : tickCancel s = { s with tick := s.tick + 1 } := tickCancel_none s hc
  cases cl <;> by_cases hrf : rf = 0 <;>
    simp [dwrPre, emit, h1, tickCancel_none, hc, hrf]

/-- Characterization of `_download_with_resume` when no cancellation fires:
it never touches status, the finish log, `started_at`, the callbacks'
presence, or `path`; it emits no status-callback, sleep, or attempt events;
and on success (`True`) it leaves the error field unchanged. -/
theorem dwr_nc (s : Sys) (resp : Except String GetResp) (rf : Nat)
    (hc : s.cancelAt = none) (hf : s.job.cancel = false) :
    (download_with_resume s resp rf).1.cancelAt = none ∧
    (download_with_resume s resp rf).1.job.cancel = false ∧
    (download_with_resume s resp rf).1.job.status = s.job.status ∧
    (download_with_resume s resp rf).1.job.finished_writes =
      s.job.finished_writes ∧
    (download_with_resume s resp rf).1.job.started_at = s.job.started_at ∧
    (download_with_resume s resp rf).1.job.hasStatusCb = s.job.hasStatusCb ∧
    (download_with_resume s resp rf).1.job.path = s.job.path ∧
    cbsOf (download_with_resume s resp rf).1.trace = cbsOf s.trace ∧
    sleepsOf (download_with_resume s resp rf).1.trace = sleepsOf s.trace ∧
    attemptsOf (download_with_resume s resp rf).1.trace =
      attemptsOf s.trace ∧
    ((download_with_resume s resp rf).2 = true →
      (download_with_resume s resp rf).1.job.error = s.job.error) := by
  cases resp with
  | error e =>
    have h1 : tickCancel s = { s with tick := s.tick + 1 } := tickCancel_none s hc
    refine ⟨?_, ?_, ?_, ?_, ?_, ?_, ?_, ?_, ?_, ?_, ?_⟩ <;>
      simp [download_with_resume, emit, h1, hc, hf, cbsOf, sleepsOf, attemptsOf,
        List.filterMap_append, List.filterMap_cons]
  | ok r =>
    rw [dwr_ok_unfold]
    have hpre := dwrPre_nc s rf r.contentLength hc
    have hprePart : (dwrPre s rf r.contentLength).fs.part =
        some (if rf ≠ 0 then s.fs.part.getD 0 else 0) := by
      rw [hpre]
      by_cases hrf : rf = 0 <;> simp [hrf]
    obtain ⟨hok, hjob, hfs, hca, hcr, tr, htr, hcb, hsl, hat, hpr⟩ :=
      streamLoop_nc r.chunks (dwrPre s rf r.contentLength)
        (if rf ≠ 0 then s.fs.part.getD 0 else 0)
        (by rw [hpre]; exact hc) (by rw [hpre]; exact hf) hprePart
    rcases hsl2 : streamLoop (dwrPre s rf r.contentLength) r.chunks with ⟨sf, ok⟩
    rw [hsl2] at hok
    rw [hsl2] at hjob
    rw [hsl2] at hfs
    rw [hsl2] at hca
    rw [hsl2] at htr
    have hok2 : ok = true := hok
    subst hok2
    have hsfca : sf.cancelAt = none := by simpa using hca
    have h1 : tickCancel sf = { sf with tick := sf.tick + 1 } :=
      tickCancel_none sf hsfca
    have hD_trace : (dwrPre s rf r.contentLength).trace = s.trace ++
        [Event.getReq (if rf > 0 then some rf else none),
         Event.openFile (if rf ≠ 0 then Mode.append else Mode.trunc)] := by
      rw [hpre]
    have hsf_cancel : sf.job.cancel = false := by
      rw [hjob]
      show (dwrPre s rf r.contentLength).job.cancel = false
      rw [hpre]
      exact hf
    have hsf_status : sf.job.status = s.job.status := by
      rw [hjob]
      show (dwrPre s rf r.contentLength).job.status = s.job.status
      rw [hpre]
    have hsf_fin : sf.job.finished_writes = s.job.finished_writes := by
      rw [hjob]
      show (dwrPre s rf r.contentLength).job.finished_writes =
        s.job.finished_writes
      rw [hpre]
    have hsf_started : sf.job.started_at = s.job.started_at := by
      rw [hjob]
      show (dwrPre s rf r.contentLength).job.started_at = s.job.started_at
      rw [hpre]
    have hsf_cb : sf.job.hasStatusCb = s.job.hasStatusCb := by
      rw [hjob]
      show (dwrPre s rf r.contentLength).job.hasStatusCb = s.job.hasStatusCb
      rw [hpre]
    have hsf_path : sf.job.path = s.job.path := by
      rw [hjob]
      show (dwrPre s rf r.contentLength).job.path = s.job.path
      rw [hpre]
    have hsf_err : sf.job.error = s.job.error := by
      rw [hjob]
      show (dwrPre s rf r.contentLength).job.error = s.job.error
      rw [hpre]
    have hsf_cbs : cbsOf sf.trace = cbsOf s.trace := by
      have h0 : sf.trace = (dwrPre s rf r.contentLength).trace ++ tr := htr
      rw [h0, hD_trace]
      simp [hcb]
    have hsf_sleeps : sleepsOf sf.trace = sleepsOf s.trace := by
      have h0 : sf.trace = (dwrPre s rf r.contentLength).trace ++ tr := htr
      rw [h0, hD_trace]
      simp [hsl]
    have hsf_atts : attemptsOf sf.trace = attemptsOf s.trace := by
      have h0 : sf.trace = (dwrPre s rf r.contentLength).trace ++ tr := htr
      rw [h0, hD_trace]
      simp [hat]
    cases hse : r.streamError with
    | some e =>
      refine ⟨?_, ?_, ?_, ?_, ?_, ?_, ?_, ?_, ?_, ?_, ?_⟩ <;>
        simp [h1, hsfca, hsf_cancel, hsf_status, hsf_fin, hsf_started,
          hsf_cb, hsf_path, hsf_cbs, hsf_sleeps, hsf_atts]
    | none =>
      refine ⟨?_, ?_, ?_, ?_, ?_, ?_, ?_, ?_, ?_, ?_, ?_⟩ <;>
        simp [h1, tickCancel_none, hsfca, hsf_cancel, hsf_status, hsf_fin,
          hsf_started, hsf_cb, hsf_path, hsf_err, hsf_cbs, hsf_sleeps,
          hsf_atts]


/-- Characterization of the retry loop when no cancellation fires, by
outcome: `retDone` marks `done`, sets `path`, appends exactly one finish
write, and invokes the status callback with `done` (when set); `retDisk`
marks `failed` with the disk-space message and one finish write, with no
status callback; `raised` and `exited` leave status, `path`, the finish log
and the callback log untouched. -/
theorem perform_loop_nc (env : Env) : ∀ (fuel attempt : Nat) (s : Sys),
    s.cancelAt = none → s.job.cancel = false →
    (perform_loop env fuel attempt s).1.cancelAt = none ∧
    (perform_loop env fuel attempt s).1.job.cancel = false ∧
    (perform_loop env fuel attempt s).1.job.started_at = s.job.started_at ∧
    (perform_loop env fuel attempt s).1.job.hasStatusCb = s.job.hasStatusCb ∧
    (match (perform_loop env fuel attempt s).2 with
     | .retDone =>
         (perform_loop env fuel attempt s).1.job.status = .done ∧
         (perform_loop env fuel attempt s).1.job.path = true ∧
         (perform_loop env fuel attempt s).1.job.finished_writes.length =
           s.job.finished_writes.length + 1 ∧
         cbsOf (perform_loop env fuel attempt s).1.trace = cbsOf s.trace ++
           (if s.job.hasStatusCb = true then [Status.done] else [])
     | .retDisk =>
         (perform_loop env fuel attempt s).1.job.status = .failed ∧
         (perform_loop env fuel attempt s).1.job.error =
           some "Insufficient disk space" ∧
         (perform_loop env fuel attempt s).1.job.path = s.job.path ∧
         (perform_loop env fuel attempt s).1.job.finished_writes.length =
           s.job.finished_writes.length + 1 ∧
         cbsOf (perform_loop env fuel attempt s).1.trace = cbsOf s.trace
     | .raised e =>
         (perform_loop env fuel attempt s).1.job.status = s.job.status ∧
         (perform_loop env fuel attempt s).1.job.path = s.job.path ∧
         (perform_loop env fuel attempt s).1.job.finished_writes =
           s.job.finished_writes ∧
         cbsOf (perform_loop env fuel attempt s).1.trace = cbsOf s.trace
     | .exited =>
         (perform_loop env fuel attempt s).1.job.status = s.job.status ∧
         (perform_loop env fuel attempt s).1.job.path = s.job.path ∧
         (perform_loop env fuel attempt s).1.job.finished_writes =
           s.job.finished_writes ∧
         cbsOf (perform_loop env fuel attempt s).1.trace = cbsOf s.trace)
  | 0, attempt, s, hc, hf => ⟨hc, hf, rfl, rfl, rfl, rfl, rfl, rfl⟩
  | fuel + 1, attempt, s, hc, hf => by
    have h1 : tickCancel s = { s with tick := s.tick + 1 } := tickCancel_none s hc
    have hb' : (tickCancel s).job.cancel = false := by rw [h1]; exact hf
    cases hpe : (env.att (attempt + 1)).preError with
    | some e =>
      by_cases ha : 4 ≤ attempt + 1
      · have hres : perform_loop env (fuel + 1) attempt s =
            (tickCancel (emit (.attemptStart (attempt + 1))
              (emit (.check false) (tickCancel s))), .raised e) := by
          simp [perform_loop, hb', hpe, ha]
        rw [hres]
        have h3c : (emit (.attemptStart (attempt + 1))
            (emit (.check false) (tickCancel s))).cancelAt = none := by
          simp [hc]
        have h3 := tickCancel_none _ h3c
        rw [h3]
        refine ⟨by simp [hc], by simp [h1, hf], by simp [h1], by simp [h1], ?_⟩
        refine ⟨by simp [h1], by simp [h1], by simp [h1], ?_⟩
        rw [show (emit (.attemptStart (attempt + 1))
            (emit (.check false) (tickCancel s))).trace =
          s.trace ++ [Event.check false, Event.attemptStart (attempt + 1)]
          from by simp]
        simp
      · have hres : perform_loop env (fuel + 1) attempt s =
            perform_loop env fuel (attempt + 1)
              (emit (.sleep (2 ^ attempt))
                (tickCancel (emit (.attemptStart (attempt + 1))
                  (emit (.check false) (tickCancel s))))) := by
          simp [perform_loop, hb', hpe, ha]
        rw [hres]
        have h3c : (emit (.attemptStart (attempt + 1))
            (emit (.check false) (tickCancel s))).cancelAt = none := by
          simp [hc]
        have h3 := tickCancel_none _ h3c
        have h4c : (emit (.sleep (2 ^ attempt))
            (tickCancel (emit (.attemptStart (attempt + 1))
              (emit (.check false) (tickCancel s))))).cancelAt = none := by
          simp [hc]
        have h4f : (emit (.sleep (2 ^ attempt))
            (tickCancel (emit (.attemptStart (attempt + 1))
              (emit (.check false) (tickCancel s))))).job.cancel = false := by
          rw [emit_job, h3]
          simp [h1, hf]
        obtain ⟨ih1, ih2, ih3, ih4, ih5⟩ :=
          perform_loop_nc env fuel (attempt + 1) _ h4c h4f
        have h4job : (tickCancel (emit (.attemptStart (attempt + 1))
            (emit (.check false) (tickCancel s)))).job = s.job := by
          rw [h3]
          simp [h1]
        have h4tr : (tickCancel (emit (.attemptStart (attempt + 1))
            (emit (.check false) (tickCancel s)))).trace =
            s.trace ++ [Event.check false, Event.attemptStart (attempt + 1)] := by
          simp
        refine ⟨ih1, ih2, by simp [ih3, h4job], by simp [ih4, h4job], ?_⟩
        rcases hout : (perform_loop env fuel (attempt + 1)
            (emit (.sleep (2 ^ attempt))
              (tickCancel (emit (.attemptStart (attempt + 1))
                (emit (.check false) (tickCancel s)))))).2 with _ | _ | _ | e2 <;>
          rw [hout] at ih5
        · exact ⟨by simp [ih5.1, h4job], by simp [ih5.2.1, h4job],
            by simp [ih5.2.2.1, h4job], by simp [ih5.2.2.2, h4tr, h4job]⟩
        · exact ⟨by simp [ih5.1], by simp [ih5.2.1, h4job],
            by simp [ih5.2.2.1, h4job], by simp [ih5.2.2.2, h4tr, h4job]⟩
        · exact ⟨by simp [ih5.1], by simp [ih5.2.1], by simp [ih5.2.2.1, h4job],
            by simp [ih5.2.2.2.1, h4job], by simp [ih5.2.2.2.2, h4tr, h4job]⟩
        · exact ⟨by simp [ih5.1, h4job], by simp [ih5.2.1, h4job],
            by simp [ih5.2.2.1, h4job], by simp [ih5.2.2.2, h4tr, h4job]⟩
    | none =>
      by_cases hd : check_disk_space (env.att (attempt + 1)).head env.free = true
      · have h3c : (emit (.attemptStart (attempt + 1))
            (emit (.check false) (tickCancel s))).cancelAt = none := by
          simp [hc]
        have h3 := tickCancel_none _ h3c
        have h5 := tickCancel_none (tickCancel (emit (.attemptStart (attempt + 1))
            (emit (.check false) (tickCancel s)))) (by simp [hc])
        have hA_job : (emit (.attemptStart (attempt + 1))
            (emit (.check false) (tickCancel s))).job = s.job := by
          simp [h1]
        have h3job : (tickCancel (emit (.attemptStart (attempt + 1))
            (emit (.check false) (tickCancel s)))).job = s.job := by
          rw [h3]
          simpa using hA_job
        have h5job : (tickCancel (tickCancel (emit (.attemptStart (attempt + 1))
            (emit (.check false) (tickCancel s))))).job = s.job := by
          rw [h5]
          simpa using h3job
        have h5tr : (tickCancel (tickCancel (emit (.attemptStart (attempt + 1))
            (emit (.check false) (tickCancel s))))).trace =
            s.trace ++ [Event.check false, Event.attemptStart (attempt + 1)] := by
          simp
        have h5c : (tickCancel (tickCancel (emit (.attemptStart (attempt + 1))
            (emit (.check false) (tickCancel s))))).cancelAt = none := by
          simp [hc]
        have h5f : (tickCancel (tickCancel (emit (.attemptStart (attempt + 1))
            (emit (.check false) (tickCancel s))))).job.cancel = false := by
          rw [h5job]
          exact hf
        obtain ⟨d1, d2, d3, d4, d5, d6, d7, d8, d9, d10, d11⟩ :=
          dwr_nc (tickCancel (tickCancel (emit (.attemptStart (attempt + 1))
              (emit (.check false) (tickCancel s)))))
            (env.att (attempt + 1)).get (s.fs.part.getD 0) h5c h5f
        rcases hdwr : download_with_resume
            (tickCancel (tickCancel (emit (.attemptStart (attempt + 1))
              (emit (.check false) (tickCancel s)))))
            (env.att (attempt + 1)).get (s.fs.part.getD 0)
            with ⟨s6, ok⟩
        rw [hdwr] at d1 d2 d3 d4 d5 d6 d7 d8 d9 d10 d11
        have h6c : s6.cancelAt = none := d1
        have h6flag : s6.job.cancel = false := d2
        have h6status : s6.job.status = s.job.status := by rw [d3, h5job]
        have h6fin : s6.job.finished_writes = s.job.finished_writes := by
          rw [d4, h5job]
        have h6started : s6.job.started_at = s.job.started_at := by
          rw [d5, h5job]
        have h6hasCb : s6.job.hasStatusCb = s.job.hasStatusCb := by
          rw [d6, h5job]
        have h6path : s6.job.path = s.job.path := by rw [d7, h5job]
        have h6cbs : cbsOf s6.trace = cbsOf s.trace := by
          rw [d8, h5tr]
          simp
        have h6tick := tickCancel_none s6 h6c
        cases ok with
        | true =>
          have hres : perform_loop env (fuel + 1) attempt s =
              (if s6.job.hasStatusCb = true then
                emit (.statusCb .done)
                  { tickCancel s6 with job := { (tickCancel s6).job with
                      status := .done,
                      finished_writes :=
                        (tickCancel s6).job.finished_writes ++ [(tickCancel s6).tick],
                      path := true } }
               else
                { tickCancel s6 with job := { (tickCancel s6).job with
                    status := .done,
                    finished_writes :=
                      (tickCancel s6).job.finished_writes ++ [(tickCancel s6).tick],
                    path := true } }, .retDone) := by
            simp [perform_loop, hb', hpe, hd, hdwr]
          rw [hres]
          by_cases hcb : s6.job.hasStatusCb = true
          · rw [if_pos hcb]
            refine ⟨by simp [h6c], by simp [h6tick, h6flag], ?_, ?_, ?_, ?_, ?_, ?_⟩
            · simp [h6tick, h6started]
            · simp [h6tick, h6hasCb]
            · simp
            · simp
            · simp [h6tick, h6fin]
            · rw [show s.job.hasStatusCb = true from by rw [← h6hasCb]; exact hcb]
              simp [h6tick, h6cbs]
          · rw [if_neg hcb]
            refine ⟨by simp [h6c], by simp [h6tick, h6flag], ?_, ?_, ?_, ?_, ?_, ?_⟩
            · simp [h6tick, h6started]
            · simp [h6tick, h6hasCb]
            · simp
            · simp
            · simp [h6tick, h6fin]
            · rw [show s.job.hasStatusCb = false from by
                rw [← h6hasCb]; simpa using hcb]
              simp [h6tick, h6cbs]
        | false =>
          have hres : perform_loop env (fuel + 1) attempt s =
              perform_loop env fuel (attempt + 1) s6 := by
            simp [perform_loop, hb', hpe, hd, hdwr]
          rw [hres]
          obtain ⟨ih1, ih2, ih3, ih4, ih5⟩ :=
            perform_loop_nc env fuel (attempt + 1) s6 h6c h6flag
          refine ⟨ih1, ih2, by rw [ih3, h6started], by rw [ih4, h6hasCb], ?_⟩
          rcases hout : (perform_loop env fuel (attempt + 1) s6).2
              with _ | _ | _ | e2 <;> rw [hout] at ih5
          · exact ⟨by rw [ih5.1, h6status], by rw [ih5.2.1, h6path],
              by rw [ih5.2.2.1, h6fin], by rw [ih5.2.2.2, h6cbs]⟩
          · exact ⟨ih5.1, ih5.2.1, by rw [ih5.2.2.1, h6fin],
              by rw [ih5.2.2.2, h6cbs, h6hasCb]⟩
          · exact ⟨ih5.1, ih5.2.1, by rw [ih5.2.2.1, h6path],
              by rw [ih5.2.2.2.1, h6fin], by rw [ih5.2.2.2.2, h6cbs]⟩
          · exact ⟨by rw [ih5.1, h6status], by rw [ih5.2.1, h6path],
              by rw [ih5.2.2.1, h6fin], by rw [ih5.2.2.2, h6cbs]⟩
      · have hres : perform_loop env (fuel + 1) attempt s =
            ({ tickCancel (tickCancel (emit (.attemptStart (attempt + 1))
                (emit (.check false) (tickCancel s)))) with
               job := { (tickCancel (tickCancel (emit (.attemptStart (attempt + 1))
                   (emit (.check false) (tickCancel s))))).job with
                 status := .failed,
                 error := some "Insufficient disk space",
                 finished_writes :=
                   (tickCancel (tickCancel (emit (.attemptStart (attempt + 1))
                     (emit (.check false) (tickCancel s))))).job.finished_writes
                   ++ [(tickCancel (tickCancel (emit (.attemptStart (attempt + 1))
                     (emit (.check false) (tickCancel s))))).tick] } },
             .retDisk) := by
          simp [perform_loop, hb', hpe, hd]
        rw [hres]
        have h3c : (emit (.attemptStart (attempt + 1))
            (emit (.check false) (tickCancel s))).cancelAt = none := by
          simp [hc]
        have h3 := tickCancel_none _ h3c
        have h4c : (tickCancel (emit (.attemptStart (attempt + 1))
            (emit (.check false) (tickCancel s)))).cancelAt = none := by
          simp [hc]
        have h4 := tickCancel_none _ h4c
        rw [h4, h3]
        refine ⟨by simp [hc], by simp [h1, hf], by simp [h1], by simp [h1], ?_⟩
        refine ⟨by simp [h1], rfl, by simp [h1], by simp [h1], ?_⟩
        rw [show (emit (.attemptStart (attempt + 1))
            (emit (.check false) (tickCancel s))).trace =
          s.trace ++ [Event.check false, Event.attemptStart (attempt + 1)]
          from by simp]
        simp


/-- `_perform_download` without cancellation: the run always ends with a
terminal-writing outcome; the `exited` outcome (attempt budget exhausted)
finalizes `failed` with the generic "Max attempts exceeded" message,
overwriting any more specific error recorded by the attempts. -/
theorem perform_download_nc (env : Env) (s : Sys)
    (hc : s.cancelAt = none) (hf : s.job.cancel = false) :
    (perform_download env s).1.cancelAt = none ∧
    (perform_download env s).1.job.cancel = false ∧
    (perform_download env s).1.job.started_at = s.job.started_at ∧
    (perform_download env s).1.job.hasStatusCb = s.job.hasStatusCb ∧
    (match (perform_download env s).2 with
     | .retDone =>
         (perform_download env s).1.job.status = .done ∧
         (perform_download env s).1.job.path = true ∧
         (perform_download env s).1.job.finished_writes.length =
           s.job.finished_writes.length + 1 ∧
         cbsOf (perform_download env s).1.trace = cbsOf s.trace ++
           (if s.job.hasStatusCb = true then [Status.done] else [])
     | .retDisk =>
         (perform_download env s).1.job.status = .failed ∧
         (perform_download env s).1.job.error =
           some "Insufficient disk space" ∧
         (perform_download env s).1.job.path = s.job.path ∧
         (perform_download env s).1.job.finished_writes.length =
           s.job.finished_writes.length + 1 ∧
         cbsOf (perform_download env s).1.trace = cbsOf s.trace
     | .raised e =>
         (perform_download env s).1.job.status = s.job.status ∧
         (perform_download env s).1.job.path = s.job.path ∧
         (perform_download env s).1.job.finished_writes =
           s.job.finished_writes ∧
         cbsOf (perform_download env s).1.trace = cbsOf s.trace
     | .exited =>
         (perform_download env s).1.job.status = .failed ∧
         (perform_download env s).1.job.error =
           some "Max attempts exceeded" ∧
         (perform_download env s).1.job.path = s.job.path ∧
         (perform_download env s).1.job.finished_writes.length =
           s.job.finished_writes.length + 1 ∧
         cbsOf (perform_download env s).1.trace = cbsOf s.trace) := by
  obtain ⟨n1, n2, n3, n4, n5⟩ := perform_loop_nc env 4 0 s hc hf
  rcases hpl : perform_loop env 4 0 s with ⟨u, lout⟩
  rw [hpl] at n1 n2 n3 n4 n5
  have hu1 : u.cancelAt = none := n1
  have hu2 : u.job.cancel = false := n2
  have hu3 : u.job.started_at = s.job.started_at := n3
  have hu4 : u.job.hasStatusCb = s.job.hasStatusCb := n4
  have hut := tickCancel_none u hu1
  cases lout with
  | exited =>
    obtain ⟨m1, m2, m3, m4⟩ := n5
    have hm2 : u.job.path = s.job.path := m2
    have hm3 : u.job.finished_writes = s.job.finished_writes := m3
    have hm4 : cbsOf u.trace = cbsOf s.trace := m4
    have hbu : (tickCancel u).job.cancel = false := by rw [hut]; exact hu2
    have hres : perform_download env s =
        ({ tickCancel (emit (.check false) (tickCancel u)) with
           job := { (tickCancel (emit (.check false) (tickCancel u))).job with
             status := .failed,
             error := some "Max attempts exceeded",
             finished_writes :=
               (tickCancel (emit (.check false) (tickCancel u))).job.finished_writes
                 ++ [(tickCancel (emit (.check false) (tickCancel u))).tick] } },
         .exited) := by
      simp [perform_download, hpl, hbu]
    rw [hres]
    have hec : (emit (.check false) (tickCancel u)).cancelAt = none := by
      simp [hu1]
    have he := tickCancel_none _ hec
    have hejob : (tickCancel (emit (.check false) (tickCancel u))).job = u.job := by
      rw [he]
      simp [hut]
    have hetr : (tickCancel (emit (.check false) (tickCancel u))).trace =
        u.trace ++ [Event.check false] := by
      simp
    refine ⟨by simp [hu1], by simp [hejob, hu2], by simp [hejob, hu3],
      by simp [hejob, hu4], ?_, ?_, ?_, ?_, ?_⟩
    · rfl
    · rfl
    · simp [hejob, hm2]
    · simp [hejob, hm3]
    · simp [hetr, hm4]
  | retDone =>
    have hres : perform_download env s = (u, .retDone) := by
      simp [perform_download, hpl]
    rw [hres]
    exact ⟨n1, n2, n3, n4, n5⟩
  | retDisk =>
    have hres : perform_download env s = (u, .retDisk) := by
      simp [perform_download, hpl]
    rw [hres]
    exact ⟨n1, n2, n3, n4, n5⟩
  | raised e =>
    have hres : perform_download env s = (u, .raised e) := by
      simp [perform_download, hpl]
    rw [hres]
    exact ⟨n1, n2, n3, n4, n5⟩


/-- `_download_worker` on a fresh job with no cancellation: the job always
ends `done` or `failed`; the finish timestamp is written exactly once;
`failed` jobs always carry an error message; `path` is set iff `done`;
`started_at` is set; and a `done` run invoked the status callback exactly
with `running` then `done`. -/
theorem download_worker_nc (env : Env) (s : Sys) (hc : s.cancelAt = none)
    (hf : s.job.cancel = false) (hfin : s.job.finished_writes = [])
    (hpath : s.job.path = false) (htr : s.trace = []) :
    ((download_worker env s).job.status = .done ∨
     (download_worker env s).job.status = .failed) ∧
    (download_worker env s).job.finished_writes.length = 1 ∧
    ((download_worker env s).job.status = .failed →
      (download_worker env s).job.error.isSome = true) ∧
    ((download_worker env s).job.status = .done ↔
     (download_worker env s).job.path = true) ∧
    (download_worker env s).job.started_at.isSome = true ∧
    ((download_worker env s).job.status = .done →
      cbsOf (download_worker env s).trace =
        if s.job.hasStatusCb = true then [Status.running, Status.done]
        else []) := by
  have h1 := tickCancel_none s hc
  set s2 : Sys := { tickCancel s with job := { (tickCancel s).job with
      status := .running, started_at := some (tickCancel s).tick } } with hs2
  have hs2c : s2.cancelAt = none := by rw [hs2]; simp [hc]
  have hs2f : s2.job.cancel = false := by rw [hs2, h1]; exact hf
  have hs2fin : s2.job.finished_writes = [] := by rw [hs2, h1]; exact hfin
  have hs2path : s2.job.path = false := by rw [hs2, h1]; exact hpath
  have hs2cb : s2.job.hasStatusCb = s.job.hasStatusCb := by rw [hs2, h1]
  have hs2tr : s2.trace = [] := by rw [hs2]; simp [htr]
  have hs2st : s2.job.started_at.isSome = true := by rw [hs2]; rfl
  have h2 := tickCancel_none s2 hs2c
  set s4 : Sys := if (tickCancel s2).job.hasStatusCb = true
      then emit (.statusCb .running) (tickCancel s2) else tickCancel s2
      with hs4
  have hcond : (tickCancel s2).job.hasStatusCb = s.job.hasStatusCb := by
    rw [h2]
    exact hs2cb
  have hs4c : s4.cancelAt = none := by
    rw [hs4, hcond]
    by_cases hcb : s.job.hasStatusCb = true <;> simp [hcb, h2, hs2c, h1, hc, hf, hfin, hpath, htr]
  have hs4f : s4.job.cancel = false := by
    rw [hs4, hcond]
    by_cases hcb : s.job.hasStatusCb = true <;> simp [hcb, h2, hs2f, h1, hc, hf, hfin, hpath, htr]
  have hs4fin : s4.job.finished_writes = [] := by
    rw [hs4, hcond]
    by_cases hcb : s.job.hasStatusCb = true <;> simp [hcb, h2, hs2fin, h1, hc, hf, hfin, hpath, htr]
  have hs4path : s4.job.path = false := by
    rw [hs4, hcond]
    by_cases hcb : s.job.hasStatusCb = true <;> simp [hcb, h2, hs2path, h1, hc, hf, hfin, hpath, htr]
  have hs4cb : s4.job.hasStatusCb = s.job.hasStatusCb := by
    rw [hs4, hcond]
    by_cases hcb : s.job.hasStatusCb = true <;> simp [hcb, h2, hs2cb, h1, hc, hf, hfin, hpath, htr]
  have hs4st : s4.job.started_at.isSome = true := by
    rw [hs4, hcond]
    by_cases hcb : s.job.hasStatusCb = true <;> simp [hcb, h2, hs2st, h1, hc, hf, hfin, hpath, htr]
  have hs4cbs : cbsOf s4.trace =
      (if s.job.hasStatusCb = true then [Status.running] else []) := by
    rw [hs4, hcond]
    by_cases hcb : s.job.hasStatusCb = true <;> simp [hcb, h2, hs2tr, h1, hc, hf, hfin, hpath, htr]
  have hw : download_worker env s =
      (match perform_download env s4 with
       | (s5, .raised e) =>
         let s6 := tickCancel s5
         let s7 := { s6 with job := { s6.job with
             status := .failed,
             error := some e,
             finished_writes := s6.job.finished_writes ++ [s6.tick] } }
         if s7.job.hasStatusCb then emit (.statusCb .failed) s7 else s7
       | (s5, _) => s5) := rfl
  obtain ⟨n1, n2, n3, n4, n5⟩ := perform_download_nc env s4 hs4c hs4f
  rcases hpd : perform_download env s4 with ⟨s5, out⟩
  rw [hpd] at n1 n2 n3 n4 n5
  rw [hpd] at hw
  have hn1 : s5.cancelAt = none := n1
  have hn3 : s5.job.started_at = s4.job.started_at := n3
  have hn4 : s5.job.hasStatusCb = s4.job.hasStatusCb := n4
  cases out with
  | retDone =>
    have hm1 : s5.job.status = .done := n5.1
    have hm2 : s5.job.path = true := n5.2.1
    have hm3 : s5.job.finished_writes.length =
        s4.job.finished_writes.length + 1 := n5.2.2.1
    have hm4 : cbsOf s5.trace = cbsOf s4.trace ++
        (if s4.job.hasStatusCb = true then [Status.done] else []) := n5.2.2.2
    rw [hw]
    refine ⟨Or.inl hm1, ?_, ?_, ?_, ?_, ?_⟩
    · rw [hm3, hs4fin]
      rfl
    · intro hcon
      rw [hm1] at hcon
      cases hcon
    · simp [hm1, hm2]
    · rw [hn3]
      exact hs4st
    · intro _
      rw [hm4, hs4cbs, hs4cb]
      by_cases hcb : s.job.hasStatusCb = true <;> simp [hcb]
  | retDisk =>
    have hm1 : s5.job.status = .failed := n5.1
    have hm2 : s5.job.error = some "Insufficient disk space" := n5.2.1
    have hm3 : s5.job.path = s4.job.path := n5.2.2.1
    have hm4 : s5.job.finished_writes.length =
        s4.job.finished_writes.length + 1 := n5.2.2.2.1
    rw [hw]
    refine ⟨Or.inr hm1, ?_, ?_, ?_, ?_, ?_⟩
    · rw [hm4, hs4fin]
      rfl
    · intro _
      rw [hm2]
      rfl
    · rw [hm1, hm3, hs4path]
      simp
    · rw [hn3]
      exact hs4st
    · intro hcon
      rw [hm1] at hcon
      cases hcon
  | exited =>
    have hm1 : s5.job.status = .failed := n5.1
    have hm2 : s5.job.error = some "Max attempts exceeded" := n5.2.1
    have hm3 : s5.job.path = s4.job.path := n5.2.2.1
    have hm4 : s5.job.finished_writes.length =
        s4.job.finished_writes.length + 1 := n5.2.2.2.1
    rw [hw]
    refine ⟨Or.inr hm1, ?_, ?_, ?_, ?_, ?_⟩
    · rw [hm4, hs4fin]
      rfl
    · intro _
      rw [hm2]
      rfl
    · rw [hm1, hm3, hs4path]
      simp
    · rw [hn3]
      exact hs4st
    · intro hcon
      rw [hm1] at hcon
      cases hcon
  | raised e =>
    have hm1 : s5.job.status = s4.job.status := n5.1
    have hm2 : s5.job.path = s4.job.path := n5.2.1
    have hm3 : s5.job.finished_writes = s4.job.finished_writes := n5.2.2.1
    have h5 := tickCancel_none s5 hn1
    have hW : download_worker env s =
        (if (tickCancel s5).job.hasStatusCb = true
         then emit (.statusCb .failed)
           { tickCancel s5 with job := { (tickCancel s5).job with
               status := .failed, error := some e,
               finished_writes :=
                 (tickCancel s5).job.finished_writes ++ [(tickCancel s5).tick] } }
         else
           { tickCancel s5 with job := { (tickCancel s5).job with
               status := .failed, error := some e,
               finished_writes :=
                 (tickCancel s5).job.finished_writes ++ [(tickCancel s5).tick] } }) :=
      hw
    rw [hW]
    by_cases hcb : (tickCancel s5).job.hasStatusCb = true
    · rw [if_pos hcb]
      refine ⟨Or.inr rfl, ?_, ?_, ?_, ?_, ?_⟩
      · simp [h5, hm3, hs4fin]
      · intro _
        rfl
      · simp [h5, hm2, hs4path]
      · simp [h5, hn3]
        rw [show s4.job.started_at.isSome = true from hs4st]
      · intro hcon
        simp at hcon
    · rw [if_neg hcb]
      refine ⟨Or.inr rfl, ?_, ?_, ?_, ?_, ?_⟩
      · simp [h5, hm3, hs4fin]
      · intro _
        rfl
      · simp [h5, hm2, hs4path]
      · simp [h5, hn3]
        rw [show s4.job.started_at.isSome = true from hs4st]
      · intro hcon
        simp at hcon


/-- A complete run with no cancellation: start succeeds, the job ends
`done` or `failed`, the finish timestamp is written exactly once, `failed`
implies an error message is recorded, `path` is set iff `done`,
`started_at` is set, and a `done` run invoked the status callback exactly
with `running` then `done`. -/
theorem startAndRun_nc (env : Env) (fs : FS) (cb pcb : Bool) :
    ((startAndRun env fs none cb pcb).1.job.status = .done ∨
     (startAndRun env fs none cb pcb).1.job.status = .failed) ∧
    (startAndRun env fs none cb pcb).1.job.finished_writes.length = 1 ∧
    ((startAndRun env fs none cb pcb).1.job.status = .failed →
      (startAndRun env fs none cb pcb).1.job.error.isSome = true) ∧
    ((startAndRun env fs none cb pcb).1.job.status = .done ↔
      (startAndRun env fs none cb pcb).1.job.path = true) ∧
    (startAndRun env fs none cb pcb).1.job.started_at.isSome = true ∧
    (startAndRun env fs none cb pcb).2 = true ∧
    ((startAndRun env fs none cb pcb).1.job.status = .done →
      cbsOf (startAndRun env fs none cb pcb).1.trace =
        if cb = true then [Status.running, Status.done] else []) := by
  have hq : (tickCancel (initSys (initJob cb pcb) fs none)).job.status =
      .queued := rfl
  have hrun : (startAndRun env fs none cb pcb).1 =
      tickCancel (download_worker env
        (tickCancel (initSys (initJob cb pcb) fs none))) := by
    simp [startAndRun, start_download, hq]
  have hrun2 : (startAndRun env fs none cb pcb).2 = true := by
    simp [startAndRun, start_download, hq]
  obtain ⟨w1, w2, w3, w4, w5, w6⟩ := download_worker_nc env
    (tickCancel (initSys (initJob cb pcb) fs none))
    (by simp [initSys]) (by rfl) (by rfl) (by rfl) (by simp [initSys])
  have hWterm : (download_worker env
      (tickCancel (initSys (initJob cb pcb) fs none))).job.status.isTerminal =
      true := by
    rcases w1 with h | h <;> rw [h] <;> rfl
  have htj := tickCancel_job_of_terminal
    (download_worker env (tickCancel (initSys (initJob cb pcb) fs none))) hWterm
  rw [hrun, htj]
  have hWcb : (tickCancel (initSys (initJob cb pcb) fs none)).job.hasStatusCb =
      cb := rfl
  rw [hWcb] at w6
  exact ⟨w1, w2, w3, w4, w5, hrun2, by
    intro hd
    rw [show (tickCancel (download_worker env
        (tickCancel (initSys (initJob cb pcb) fs none)))).trace =
      (download_worker env
        (tickCancel (initSys (initJob cb pcb) fs none))).trace from by simp]
    exact w6 hd⟩


/-- A GET response that yields its chunks without a stream error always
commits when no cancellation fires. -/
theorem dwr_ok_true (s : Sys) (cl : Option Nat) (cs : List Nat) (rf : Nat)
    (hc : s.cancelAt = none) (hf : s.job.cancel = false) :
    (download_with_resume s
      (.ok { contentLength := cl, chunks := cs, streamError := none }) rf).2 =
      true := by
  rw [dwr_ok_unfold]
  have hpre := dwrPre_nc s rf cl
  obtain ⟨hok, hjob, hfs, hca, hcr, tr, htr, hcb, hsl, hat, hpr⟩ :=
    streamLoop_nc cs (dwrPre s rf cl)
      (if rf ≠ 0 then s.fs.part.getD 0 else 0)
      (by rw [hpre hc]; exact hc) (by rw [hpre hc]; exact hf)
      (by rw [hpre hc]; by_cases hrf : rf = 0 <;> simp [hrf])
  rcases hsl2 : streamLoop (dwrPre s rf cl) cs with ⟨sf, ok⟩
  rw [hsl2] at hok
  have hok2 : ok = true := hok
  subst hok2
  rfl

/-- If the first attempt raises no loop-body exception, passes the disk
gate, and its GET streams to completion, the run returns `retDone` from the
first attempt, leaving the error field untouched. -/
theorem perform_loop_first_success (env : Env) (s : Sys)
    (hc : s.cancelAt = none) (hf : s.job.cancel = false)
    (h1 : (env.att 1).preError = none)
    (h2 : check_disk_space (env.att 1).head env.free = true)
    (cl : Option Nat) (cs : List Nat)
    (h3 : (env.att 1).get =
      .ok { contentLength := cl, chunks := cs, streamError := none }) :
    (perform_loop env 4 0 s).2 = .retDone ∧
    (perform_loop env 4 0 s).1.job.error = s.job.error ∧
    (perform_loop env 4 0 s).1.job.status = .done := by
  have hone : tickCancel s = { s with tick := s.tick + 1 } := tickCancel_none s hc
  have hb' : (tickCancel s).job.cancel = false := by rw [hone]; exact hf
  have h5c : (tickCancel (tickCancel (emit (.attemptStart 1)
      (emit (.check false) (tickCancel s))))).cancelAt = none := by
    simp [hc]
  have h5f : (tickCancel (tickCancel (emit (.attemptStart 1)
      (emit (.check false) (tickCancel s))))).job.cancel = false := by
    have h3' := tickCancel_none (emit (.attemptStart 1)
      (emit (.check false) (tickCancel s))) (by simp [hc])
    have h5' := tickCancel_none (tickCancel (emit (.attemptStart 1)
      (emit (.check false) (tickCancel s)))) (by simp [hc])
    rw [h5', h3']
    simpa [hone] using hf
  obtain ⟨d1, d2, d3, d4, d5, d6, d7, d8, d9, d10, d11⟩ :=
    dwr_nc (tickCancel (tickCancel (emit (.attemptStart 1)
        (emit (.check false) (tickCancel s)))))
      (env.att 1).get (s.fs.part.getD 0) h5c h5f
  have htrue := dwr_ok_true (tickCancel (tickCancel (emit (.attemptStart 1)
      (emit (.check false) (tickCancel s))))) cl cs (s.fs.part.getD 0) h5c h5f
  rcases hdwr : download_with_resume
      (tickCancel (tickCancel (emit (.attemptStart 1)
        (emit (.check false) (tickCancel s)))))
      (env.att 1).get (s.fs.part.getD 0)
      with ⟨s6, ok⟩
  rw [hdwr] at d1 d2 d3 d4 d5 d6 d7 d8 d9 d10 d11
  have hok : ok = true := by
    rw [h3] at hdwr
    rw [hdwr] at htrue
    exact htrue
  subst hok
  have hres : perform_loop env 4 0 s =
      (if s6.job.hasStatusCb = true then
        emit (.statusCb .done)
          { tickCancel s6 with job := { (tickCancel s6).job with
              status := .done,
              finished_writes :=
                (tickCancel s6).job.finished_writes ++ [(tickCancel s6).tick],
              path := true } }
       else
        { tickCancel s6 with job := { (tickCancel s6).job with
            status := .done,
            finished_writes :=
              (tickCancel s6).job.finished_writes ++ [(tickCancel s6).tick],
            path := true } }, .retDone) := by
    rw [show (4 : Nat) = 3 + 1 from rfl]
    simp [perform_loop, hb', h1, h2, hdwr]
  rw [hres]
  have h6c : s6.cancelAt = none := d1
  have h6tick := tickCancel_none s6 h6c
  have h6err : s6.job.error = s.job.error := by
    rw [d11 rfl]
    have h3' := tickCancel_none (emit (.attemptStart 1)
      (emit (.check false) (tickCancel s))) (by simp [hc])
    have h5' := tickCancel_none (tickCancel (emit (.attemptStart 1)
      (emit (.check false) (tickCancel s)))) (by simp [hc])
    rw [h5', h3']
    simp [hone]
  refine ⟨?_, ?_, ?_⟩
  · by_cases hcb : s6.job.hasStatusCb = true <;> simp [hcb]
  · by_cases hcb : s6.job.hasStatusCb = true <;>
      simp [hcb, h6tick, h6err]
  · by_cases hcb : s6.job.hasStatusCb = true <;> simp [hcb]

/-- The worker on a clean-first-attempt environment: the job ends `done`
with the error field untouched. -/
theorem download_worker_cleanFirst (env : Env) (s : Sys)
    (hc : s.cancelAt = none) (hf : s.job.cancel = false)
    (h1 : (env.att 1).preError = none)
    (h2 : check_disk_space (env.att 1).head env.free = true)
    (cl : Option Nat) (cs : List Nat)
    (h3 : (env.att 1).get =
      .ok { contentLength := cl, chunks := cs, streamError := none }) :
    (download_worker env s).job.status = .done ∧
    (download_worker env s).job.error = s.job.error := by
  have h1t := tickCancel_none s hc
  set s2 : Sys := { tickCancel s with job := { (tickCancel s).job with
      status := .running, started_at := some (tickCancel s).tick } } with hs2
  have hs2c : s2.cancelAt = none := by rw [hs2]; simp [hc]
  have h2t := tickCancel_none s2 hs2c
  set s4 : Sys := if (tickCancel s2).job.hasStatusCb = true
      then emit (.statusCb .running) (tickCancel s2) else tickCancel s2
      with hs4
  have hs2f : s2.job.cancel = false := by
    rw [hs2]
    show (tickCancel s).job.cancel = false
    rw [h1t]
    exact hf
  have hs2err : s2.job.error = s.job.error := by
    rw [hs2]
    simp
  have hcond : (tickCancel s2).job.hasStatusCb = s.job.hasStatusCb := by
    rw [h2t, hs2]
    simp
  have hs4c : s4.cancelAt = none := by
    rw [hs4, hcond]
    by_cases hcb : s.job.hasStatusCb = true <;> simp [hcb, h2t, hs2c, hc]
  have hs4f : s4.job.cancel = false := by
    rw [hs4, hcond]
    by_cases hcb : s.job.hasStatusCb = true <;> simp [hcb, h2t, hs2f, h1t, hf]
  have hs4err : s4.job.error = s.job.error := by
    rw [hs4, hcond]
    by_cases hcb : s.job.hasStatusCb = true <;> simp [hcb, h2t, hs2err, h1t]
  obtain ⟨p1, p2, p3⟩ :=
    perform_loop_first_success env s4 hs4c hs4f h1 h2 cl cs h3
  have hw : download_worker env s =
      (match perform_download env s4 with
       | (s5, .raised e) =>
         let s6 := tickCancel s5
         let s7 := { s6 with job := { s6.job with
             status := .failed,
             error := some e,
             finished_writes := s6.job.finished_writes ++ [s6.tick] } }
         if s7.job.hasStatusCb then emit (.statusCb .failed) s7 else s7
       | (s5, _) => s5) := rfl
  rcases hpl : perform_loop env 4 0 s4 with ⟨u, lout⟩
  rw [hpl] at p1 p2 p3
  have hlout : lout = .retDone := p1
  subst hlout
  have hpd : perform_download env s4 = (u, .retDone) := by
    simp [perform_download, hpl]
  rw [hpd] at hw
  rw [hw]
  exact ⟨p3, by rw [show u.job.error = s4.job.error from p2, hs4err]⟩

/-- A complete cancellation-free run on a clean-first-attempt environment:
the job ends `done`, with no error recorded, and the status callback was
invoked exactly with `running` then `done`. -/
theorem startAndRun_cleanFirst (env : Env) (fs : FS) (cb pcb : Bool)
    (h1 : (env.att 1).preError = none)
    (h2 : check_disk_space (env.att 1).head env.free = true)
    (cl : Option Nat) (cs : List Nat)
    (h3 : (env.att 1).get =
      .ok { contentLength := cl, chunks := cs, streamError := none }) :
    (startAndRun env fs none cb pcb).1.job.status = .done ∧
    (startAndRun env fs none cb pcb).1.job.error = none ∧
    cbsOf (startAndRun env fs none cb pcb).1.trace =
      (if cb = true then [Status.running, Status.done] else []) := by
  have hq : (tickCancel (initSys (initJob cb pcb) fs none)).job.status =
      .queued := rfl
  have hrun : (startAndRun env fs none cb pcb).1 =
      tickCancel (download_worker env
        (tickCancel (initSys (initJob cb pcb) fs none))) := by
    simp [startAndRun, start_download, hq]
  obtain ⟨wd, we⟩ := download_worker_cleanFirst env
    (tickCancel (initSys (initJob cb pcb) fs none))
    (by simp [initSys]) (by rfl) h1 h2 cl cs h3
  have hWterm : (download_worker env
      (tickCancel (initSys (initJob cb pcb) fs none))).job.status.isTerminal =
      true := by rw [wd]; rfl
  have htj := tickCancel_job_of_terminal
    (download_worker env (tickCancel (initSys (initJob cb pcb) fs none))) hWterm
  obtain ⟨_, _, _, _, _, _, w7⟩ := startAndRun_nc env fs cb pcb
  refine ⟨by rw [hrun, htj]; exact wd, ?_, ?_⟩
  · rw [hrun, htj, we]
    rfl
  · exact w7 (by rw [hrun, htj]; exact wd)


/-! ## Claim C5 -/

/-- C5 (amended): at completion the finish timestamp is set iff the state is
terminal; on a run with no `cancel_job` call it is written exactly once, at
the moment the terminal state is reached.  (The original "written exactly
once" claim fails when a job is eagerly cancelled and its worker
subsequently also finalizes it — the worker writes the timestamp a second
time at line 209; see the counterexample.) -/
theorem c5_finished_iff_terminal (env : Env) (fs : FS) (cb pcb : Bool) :
    (startAndRun env fs none cb pcb).1.job.status.isTerminal = true ∧
    (startAndRun env fs none cb pcb).1.job.finished_writes.length = 1 ∧
    ((startAndRun env fs none cb pcb).1.job.finished_writes ≠ [] ↔
      (startAndRun env fs none cb pcb).1.job.status.isTerminal = true) := by
  obtain ⟨h1, h2, _, _, _, _, _⟩ := startAndRun_nc env fs cb pcb
  have hterm : (startAndRun env fs none cb pcb).1.job.status.isTerminal =
      true := by
    rcases h1 with h | h <;> rw [h] <;> rfl
  refine ⟨hterm, h2, ?_, fun _ => ?_⟩
  · intro _
    exact hterm
  · intro hnil
    rw [hnil] at h2
    cases h2

/-- C5 counterexample: a `cancel_job` call landing mid-stream (tick 9)
eagerly writes the finish timestamp; when the worker notices the flag it
finalizes the job as `cancelled` and writes the finish timestamp a second
time (line 209 of downloader.py), so `finished_at` is written twice. -/
theorem c5_counterexample :
    (startAndRun envSucc ⟨none, none⟩ (some 9) true true).1.job.status =
        .cancelled ∧
    (startAndRun envSucc ⟨none, none⟩
        (some 9) true true).1.job.finished_writes.length = 2 := by
  decide

/-! ## Claim C6 -/

/-- C6 (amended): a `failed` job always has an error message recorded, and a
job whose first attempt succeeds cleanly reaches `done` with no error
recorded; but the error field is never cleared, so a job whose earlier
attempt failed retryably retains that attempt's message even when it later
reaches `done` (see the counterexample). -/
theorem c6_error_semantics (env env2 : Env) (fs fs2 : FS)
    (cb pcb cb2 pcb2 : Bool)
    (h1 : (env2.att 1).preError = none)
    (h2 : check_disk_space (env2.att 1).head env2.free = true)
    (cl : Option Nat) (cs : List Nat)
    (h3 : (env2.att 1).get =
      .ok { contentLength := cl, chunks := cs, streamError := none }) :
    ((startAndRun env fs none cb pcb).1.job.status = .failed →
      (startAndRun env fs none cb pcb).1.job.error.isSome = true) ∧
    (startAndRun env2 fs2 none cb2 pcb2).1.job.status = .done ∧
    (startAndRun env2 fs2 none cb2 pcb2).1.job.error = none := by
  obtain ⟨_, _, h3', _, _, _, _⟩ := startAndRun_nc env fs cb pcb
  obtain ⟨hd, he, _⟩ := startAndRun_cleanFirst env2 fs2 cb2 pcb2 h1 h2 cl cs h3
  exact ⟨h3', hd, he⟩

/-- Witness for the amended C6 theorem at concrete inputs. -/
theorem c6_witness :
    ((startAndRun envNet ⟨none, none⟩ none true true).1.job.status = .failed →
      (startAndRun envNet ⟨none, none⟩
          none true true).1.job.error.isSome = true) ∧
    (startAndRun envSucc ⟨none, none⟩ none false false).1.job.status = .done ∧
    (startAndRun envSucc ⟨none, none⟩ none false false).1.job.error = none :=
  c6_error_semantics envNet envSucc ⟨none, none⟩ ⟨none, none⟩ true true
    false false rfl (by decide) (some 2) [1, 1] rfl

/-- C6 counterexample: the first attempt fails in the stream with "boom"
(recorded into the error field at line 268), the second attempt succeeds;
the job reaches `done` with the stale error message still recorded, so
"the last-error-message field is set only when the job's state is failed"
is false. -/
theorem c6_counterexample :
    (startAndRun envRetryOk ⟨none, none⟩ none true true).1.job.status =
        .done ∧
    (startAndRun envRetryOk ⟨none, none⟩ none true true).1.job.error =
        some "boom" := by
  decide

/-! ## Claim C9 -/

/-- C9: `start_download` on a `queued` job spawns the worker (which marks
the job running — `started_at` is set — and runs it to a terminal state)
and returns `True`; the guard refuses a missing job and a job in any
non-`queued` state, returning `False` with no mutation of the job. -/
theorem c9_start_semantics (env : Env) (fs : FS) (cb pcb : Bool) (j : Job)
    (hnq : j.status ≠ .queued) :
    (startAndRun env fs none cb pcb).2 = true ∧
    (startAndRun env fs none cb pcb).1.job.started_at.isSome = true ∧
    (startAndRun env fs none cb pcb).1.job.status.isTerminal = true ∧
    start_download_guard none = false ∧
    start_download_guard (some j) = false ∧
    (start_download env (initSys j fs none)).2 = false ∧
    (start_download env (initSys j fs none)).1.job = j := by
  obtain ⟨h1, _, _, _, h5, h6, _⟩ := startAndRun_nc env fs cb pcb
  have hterm : (startAndRun env fs none cb pcb).1.job.status.isTerminal =
      true := by
    rcases h1 with h | h <;> rw [h] <;> rfl
  refine ⟨h6, h5, hterm, rfl, ?_, ?_, ?_⟩
  · simp [start_download_guard, hnq]
  · simp [start_download, initSys, tickCancel_none, hnq]
  · simp [start_download, initSys, tickCancel_none, hnq]

/-- Witness for C9 at a concrete non-queued job and environment. -/
theorem c9_witness :
    (startAndRun envSucc ⟨none, none⟩ none true true).2 = true ∧
    (startAndRun envSucc ⟨none, none⟩
        none true true).1.job.started_at.isSome = true ∧
    (startAndRun envSucc ⟨none, none⟩
        none true true).1.job.status.isTerminal = true ∧
    start_download_guard none = false ∧
    start_download_guard (some { initJob true true with
      status := .running }) = false ∧
    (start_download envSucc (initSys { initJob true true with
      status := .running } ⟨none, none⟩ none)).2 = false ∧
    (start_download envSucc (initSys { initJob true true with
      status := .running } ⟨none, none⟩ none)).1.job =
      { initJob true true with status := .running } :=
  c9_start_semantics envSucc ⟨none, none⟩ true true
    { initJob true true with status := .running } (by decide)


/-! ## The worker prelude -/

theorem download_worker_eq (env : Env) (s : Sys) :
    download_worker env s =
      (match perform_download env (workerPre s) with
       | (s5, .raised e) =>
         let s6 := tickCancel s5
         let s7 := { s6 with job := { s6.job with
             status := .failed,
             error := some e,
             finished_writes := s6.job.finished_writes ++ [s6.tick] } }
         if s7.job.hasStatusCb then emit (.statusCb .failed) s7 else s7
       | (s5, _) => s5) := rfl

theorem workerPre_nc (s : Sys) (hc : s.cancelAt = none) :
    (workerPre s).cancelAt = none ∧
    (workerPre s).job.cancel = s.job.cancel ∧
    (workerPre s).job.error = s.job.error ∧
    (workerPre s).job.finished_writes = s.job.finished_writes ∧
    (workerPre s).job.hasStatusCb = s.job.hasStatusCb ∧
    (workerPre s).job.status = .running ∧
    (workerPre s).fs = s.fs ∧
    cbsOf (workerPre s).trace = cbsOf s.trace ++
      (if s.job.hasStatusCb = true then [Status.running] else []) ∧
    sleepsOf (workerPre s).trace = sleepsOf s.trace ∧
    attemptsOf (workerPre s).trace = attemptsOf s.trace ∧
    (workerPre s).job.downloaded = s.job.downloaded ∧
    (workerPre s).job.hasProgressCb = s.job.hasProgressCb ∧
    progsOf (workerPre s).trace = progsOf s.trace ∧
    (workerPre s).job.size = s.job.size ∧
    (workerPre s).job.path = s.job.path := by
  refine ⟨?_, ?_, ?_, ?_, ?_, ?_, ?_, ?_, ?_, ?_, ?_, ?_, ?_, ?_, ?_⟩ <;>
  · show _
    by_cases hcb : s.job.hasStatusCb = true <;>
      simp [workerPre, tickCancel, hc, hcb]

/-! ## Computation rules for the GET-request and file-open extractors -/

@[simp] theorem getsOf_nil : getsOf [] = [] := rfl

@[simp] theorem getsOf_append (a b : List Event) :
    getsOf (a ++ b) = getsOf a ++ getsOf b := by
  simp [getsOf, List.filterMap_append]

@[simp] theorem getsOf_cons_statusCb (st : Status) (tr : List Event) :
    getsOf (Event.statusCb st :: tr) = getsOf tr := rfl

@[simp] theorem getsOf_cons_progressCb (d t : Nat) (tr : List Event) :
    getsOf (Event.progressCb d t :: tr) = getsOf tr := rfl

@[simp] theorem getsOf_cons_sleep (n : Nat) (tr : List Event) :
    getsOf (Event.sleep n :: tr) = getsOf tr := rfl

@[simp] theorem getsOf_cons_attemptStart (k : Nat) (tr : List Event) :
    getsOf (Event.attemptStart k :: tr) = getsOf tr := rfl

@[simp] theorem getsOf_cons_check (b : Bool) (tr : List Event) :
    getsOf (Event.check b :: tr) = getsOf tr := rfl

@[simp] theorem getsOf_cons_getReq (x : Option Nat) (tr : List Event) :
    getsOf (Event.getReq x :: tr) = x :: getsOf tr := rfl

@[simp] theorem getsOf_cons_openFile (m : Mode) (tr : List Event) :
    getsOf (Event.openFile m :: tr) = getsOf tr := rfl

@[simp] theorem opensOf_nil : opensOf [] = [] := rfl

@[simp] theorem opensOf_append (a b : List Event) :
    opensOf (a ++ b) = opensOf a ++ opensOf b := by
  simp [opensOf, List.filterMap_append]

@[simp] theorem opensOf_cons_statusCb (st : Status) (tr : List Event) :
    opensOf (Event.statusCb st :: tr) = opensOf tr := rfl

@[simp] theorem opensOf_cons_progressCb (d t : Nat) (tr : List Event) :
    opensOf (Event.progressCb d t :: tr) = opensOf tr := rfl

@[simp] theorem opensOf_cons_sleep (n : Nat) (tr : List Event) :
    opensOf (Event.sleep n :: tr) = opensOf tr := rfl

@[simp] theorem opensOf_cons_attemptStart (k : Nat) (tr : List Event) :
    opensOf (Event.attemptStart k :: tr) = opensOf tr := rfl

@[simp] theorem opensOf_cons_check (b : Bool) (tr : List Event) :
    opensOf (Event.check b :: tr) = opensOf tr := rfl

@[simp] theorem opensOf_cons_getReq (x : Option Nat) (tr : List Event) :
    opensOf (Event.getReq x :: tr) = opensOf tr := rfl

@[simp] theorem opensOf_cons_openFile (m : Mode) (tr : List Event) :
    opensOf (Event.openFile m :: tr) = m :: opensOf tr := rfl

/-- The chunk loop issues no GET request and opens no file. -/
theorem streamLoop_gets : ∀ (cs : List Nat) (s : Sys),
    getsOf (streamLoop s cs).1.trace = getsOf s.trace ∧
    opensOf (streamLoop s cs).1.trace = opensOf s.trace
  | [], _ => ⟨rfl, rfl⟩
  | c :: rest, s => by
    by_cases hb : (tickCancel s).job.cancel = true
    · constructor <;> simp [streamLoop, hb]
    · have hb' : (tickCancel s).job.cancel = false := by simpa using hb
      by_cases hc0 : c = 0
      · have hstep : streamLoop s (c :: rest) =
            streamLoop (emit (.check false) (tickCancel s)) rest := by
          simp [streamLoop, hb', hc0]
        obtain ⟨ih1, ih2⟩ :=
          streamLoop_gets rest (emit (.check false) (tickCancel s))
        rw [hstep]
        constructor
        · rw [ih1]; simp
        · rw [ih2]; simp
      · by_cases hpb : s.job.hasProgressCb = true
        · have hstep : streamLoop s (c :: rest) =
              streamLoop (emit (.progressCb ((tickCancel s).job.downloaded + c)
                  ((tickCancel s).job.size.getD 0))
                { emit (.check false) (tickCancel s) with
                  job := { (tickCancel s).job with
                    downloaded := (tickCancel s).job.downloaded + c },
                  fs := { (tickCancel s).fs with
                    part := some ((tickCancel s).fs.part.getD 0 + c) } })
                rest := by
            simp [streamLoop, hb', hc0, hpb, emit]
          obtain ⟨ih1, ih2⟩ :=
            streamLoop_gets rest (emit (.progressCb
                ((tickCancel s).job.downloaded + c)
                ((tickCancel s).job.size.getD 0))
              { emit (.check false) (tickCancel s) with
                job := { (tickCancel s).job with
                  downloaded := (tickCancel s).job.downloaded + c },
                fs := { (tickCancel s).fs with
                  part := some ((tickCancel s).fs.part.getD 0 + c) } })
          rw [hstep]
          constructor
          · rw [ih1]; simp [emit]
          · rw [ih2]; simp [emit]
        · have hpb2 : s.job.hasProgressCb = false := by simpa using hpb
          have hstep : streamLoop s (c :: rest) =
              streamLoop
                ({ emit (.check false) (tickCancel s) with
                   job := { (tickCancel s).job with
                     downloaded := (tickCancel s).job.downloaded + c },
                   fs := { (tickCancel s).fs with
                     part := some ((tickCancel s).fs.part.getD 0 + c) } })
                rest := by
            simp [streamLoop, hb', hc0, hpb2, emit]
          obtain ⟨ih1, ih2⟩ := streamLoop_gets rest
              ({ emit (.check false) (tickCancel s) with
                 job := { (tickCancel s).job with
                   downloaded := (tickCancel s).job.downloaded + c },
                 fs := { (tickCancel s).fs with
                   part := some ((tickCancel s).fs.part.getD 0 + c) } })
          rw [hstep]
          constructor
          · rw [ih1]; simp [emit]
          · rw [ih2]; simp [emit]

/-- `_download_with_resume` issues exactly one GET request, with a `Range`
header iff the resume offset is positive; on a response it opens the staging
file exactly once, in append mode iff the offset is nonzero; on a request
exception no file is opened. -/
theorem dwr_gets (s : Sys) (resp : Except String GetResp) (rf : Nat) :
    getsOf (download_with_resume s resp rf).1.trace =
      getsOf s.trace ++ [if rf > 0 then some rf else none] ∧
    opensOf (download_with_resume s resp rf).1.trace =
      opensOf s.trace ++
        (match resp with
         | .error _ => []
         | .ok _ => [if rf ≠ 0 then Mode.append else Mode.trunc]) := by
  cases resp with
  | error e => constructor <;> simp [download_with_resume, emit]
  | ok r =>
    rw [dwr_ok_unfold]
    obtain ⟨g1, g2⟩ := streamLoop_gets r.chunks (dwrPre s rf r.contentLength)
    have hD := dwrPre_trace s rf r.contentLength
    rcases hsl : streamLoop (dwrPre s rf r.contentLength) r.chunks with ⟨sf, ok⟩
    rw [hsl] at g1 g2
    have g1' : getsOf sf.trace =
        getsOf s.trace ++ [if rf > 0 then some rf else none] := by
      rw [show (sf, ok).1.trace = sf.trace from rfl] at g1
      rw [g1, hD]; simp
    have g2' : opensOf sf.trace =
        opensOf s.trace ++ [if rf ≠ 0 then Mode.append else Mode.trunc] := by
      rw [show (sf, ok).1.trace = sf.trace from rfl] at g2
      rw [g2, hD]; simp
    cases ok with
    | false => constructor <;> simp [g1', g2']
    | true =>
      cases hse : r.streamError with
      | some e => constructor <;> simp [g1', g2']
      | none => constructor <;> simp [g1', g2']

/-- The worker's prelude issues no GET request and opens no file, and leaves
`downloaded`, the sleep log and the attempt log unchanged. -/
theorem workerPre_gets (s : Sys) :
    getsOf (workerPre s).trace = getsOf s.trace ∧
    opensOf (workerPre s).trace = opensOf s.trace := by
  constructor <;> (simp only [workerPre]; split <;> simp)

/-! ## Single-attempt step equations for the retry loop -/

/-- One loop iteration whose body raises before the transfer, on a
non-final attempt: the exception is caught by the loop's `except` clause and
`time.sleep(2 ** (attempt - 1))` runs before the next attempt. -/
theorem perform_loop_pre_step (env : Env) (fuel attempt : Nat) (s : Sys)
    (e : String)
    (hc : s.cancelAt = none) (hf : s.job.cancel = false)
    (hpe : (env.att (attempt + 1)).preError = some e)
    (ha : ¬ 4 ≤ attempt + 1) :
    perform_loop env (fuel + 1) attempt s =
      perform_loop env fuel (attempt + 1)
        { s with
          trace := s.trace ++ [.check false, .attemptStart (attempt + 1),
            .sleep (2 ^ attempt)],
          tick := s.tick + 2 } := by
  simp [perform_loop, emit, tickCancel, hc, hf, hpe, ha, Nat.add_assoc]

/-- The final loop iteration whose body raises before the transfer: the
`attempt >= max_attempts` guard re-raises the exception out of the loop. -/
theorem perform_loop_pre_raise (env : Env) (fuel : Nat) (s : Sys) (e : String)
    (hc : s.cancelAt = none) (hf : s.job.cancel = false)
    (hpe : (env.att 4).preError = some e) :
    perform_loop env (fuel + 1) 3 s =
      ({ s with
         trace := s.trace ++ [.check false, .attemptStart 4],
         tick := s.tick + 2 }, .raised e) := by
  simp [perform_loop, emit, tickCancel, hc, hf, hpe, Nat.add_assoc]

/-- One loop iteration whose GET raises inside the stream:
`_download_with_resume` catches the exception itself (lines 267-269),
stores it in `job.error`, and reports `False`, so the loop retries with no
backoff sleep. -/
theorem perform_loop_streamErr_step (env : Env) (fuel attempt : Nat)
    (s : Sys) (e : String)
    (hc : s.cancelAt = none) (hf : s.job.cancel = false)
    (hpart : s.fs.part = none)
    (hpe : (env.att (attempt + 1)).preError = none)
    (hdk : check_disk_space (env.att (attempt + 1)).head env.free = true)
    (hget : (env.att (attempt + 1)).get = .error e) :
    perform_loop env (fuel + 1) attempt s =
      perform_loop env fuel (attempt + 1)
        { s with
          job := { s.job with error := some e },
          trace := s.trace ++ [.check false, .attemptStart (attempt + 1),
            .getReq none],
          tick := s.tick + 4 } := by
  simp [perform_loop, download_with_resume, emit, tickCancel, hc, hf, hpart,
    hpe, hdk, hget, Nat.add_assoc]

/-- One loop iteration that fails the disk-space gate: the job is finalized
as `failed` with the disk-space message and the loop returns, with no GET
issued and no status callback. -/
theorem perform_loop_disk_fail (env : Env) (fuel attempt : Nat) (s : Sys)
    (hc : s.cancelAt = none) (hf : s.job.cancel = false)
    (hpe : (env.att (attempt + 1)).preError = none)
    (hdk : check_disk_space (env.att (attempt + 1)).head env.free = false) :
    perform_loop env (fuel + 1) attempt s =
      ({ s with
         job := { s.job with
           status := .failed,
           error := some "Insufficient disk space",
           finished_writes := s.job.finished_writes ++ [s.tick + 3] },
         trace := s.trace ++ [.check false, .attemptStart (attempt + 1)],
         tick := s.tick + 3 }, .retDisk) := by
  simp [perform_loop, emit, tickCancel, hc, hf, hpe, hdk, Nat.add_assoc]

/-- The retry loop when every attempt raises in the loop body before the
transfer (e.g. URL construction fails): attempts 1-4 run, backoff sleeps of
1, 2, 4 time units separate consecutive attempts (none before the first,
none after the last), and the attempt-4 exception propagates out of the
loop.  The job record is untouched. -/
theorem perform_loop_allPre (env : Env) (s : Sys) (e1 e2 e3 e4 : String)
    (hc : s.cancelAt = none) (hf : s.job.cancel = false)
    (hp1 : (env.att 1).preError = some e1)
    (hp2 : (env.att 2).preError = some e2)
    (hp3 : (env.att 3).preError = some e3)
    (hp4 : (env.att 4).preError = some e4) :
    perform_loop env 4 0 s =
      ({ s with
         trace := s.trace ++
           [.check false, .attemptStart 1, .sleep 1,
            .check false, .attemptStart 2, .sleep 2,
            .check false, .attemptStart 3, .sleep 4,
            .check false, .attemptStart 4],
         tick := s.tick + 8 }, .raised e4) := by
  simp [perform_loop, emit, tickCancel, hc, hf, hp1, hp2, hp3, hp4,
    Nat.add_assoc]

/-- The retry loop when every attempt's GET fails inside the stream (the
transfer engine catches its own exception, lines 267-269): attempts 1-4 run
with NO backoff sleep between them — the `time.sleep` at line 204 is only
reached through the loop's `except` clause, which a `False` return does not
trigger — and the loop exits normally with the last stream error stored in
`job.error`. -/
theorem perform_loop_allStream (env : Env) (s : Sys) (e1 e2 e3 e4 : String)
    (hc : s.cancelAt = none) (hf : s.job.cancel = false)
    (hpart : s.fs.part = none)
    (hp1 : (env.att 1).preError = none)
    (hp2 : (env.att 2).preError = none)
    (hp3 : (env.att 3).preError = none)
    (hp4 : (env.att 4).preError = none)
    (hd1 : check_disk_space (env.att 1).head env.free = true)
    (hd2 : check_disk_space (env.att 2).head env.free = true)
    (hd3 : check_disk_space (env.att 3).head env.free = true)
    (hd4 : check_disk_space (env.att 4).head env.free = true)
    (hg1 : (env.att 1).get = .error e1)
    (hg2 : (env.att 2).get = .error e2)
    (hg3 : (env.att 3).get = .error e3)
    (hg4 : (env.att 4).get = .error e4) :
    perform_loop env 4 0 s =
      ({ s with
         job := { s.job with error := some e4 },
         trace := s.trace ++
           [.check false, .attemptStart 1, .getReq none,
            .check false, .attemptStart 2, .getReq none,
            .check false, .attemptStart 3, .getReq none,
            .check false, .attemptStart 4, .getReq none],
         tick := s.tick + 16 }, .exited) := by
  simp [perform_loop, download_with_resume, emit, tickCancel, hc, hf, hpart,
    hp1, hp2, hp3, hp4, hd1, hd2, hd3, hd4, hg1, hg2, hg3, hg4,
    Nat.add_assoc]

/-- The worker when every attempt raises before the transfer: the attempt-4
exception propagates to `_download_worker`'s `except` clause, which marks
the job `failed` with that exception's message and invokes the status
callback with `failed`; the backoff sleeps 1, 2, 4 separate the attempts. -/
theorem download_worker_allPre (env : Env) (s : Sys) (e1 e2 e3 e4 : String)
    (hc : s.cancelAt = none) (hf : s.job.cancel = false)
    (hp1 : (env.att 1).preError = some e1)
    (hp2 : (env.att 2).preError = some e2)
    (hp3 : (env.att 3).preError = some e3)
    (hp4 : (env.att 4).preError = some e4) :
    (download_worker env s).job.status = .failed ∧
    (download_worker env s).job.error = some e4 ∧
    cbsOf (download_worker env s).trace = cbsOf s.trace ++
      (if s.job.hasStatusCb = true then [Status.running, Status.failed]
       else []) ∧
    sleepsOf (download_worker env s).trace = sleepsOf s.trace ++ [1, 2, 4] ∧
    attemptsOf (download_worker env s).trace =
      attemptsOf s.trace ++ [1, 2, 3, 4] ∧
    progsOf (download_worker env s).trace = progsOf s.trace ∧
    (download_worker env s).job.finished_writes.length =
      s.job.finished_writes.length + 1 := by
  obtain ⟨w1, w2, w3, w4, w5, w6, w7, w8, w9, w10, w11, w12, w13, w14, w15⟩ :=
    workerPre_nc s hc
  have hpf : (workerPre s).job.cancel = false := by rw [w2]; exact hf
  have hloop := perform_loop_allPre env (workerPre s) e1 e2 e3 e4 w1 hpf
    hp1 hp2 hp3 hp4
  rw [download_worker_eq env s]
  by_cases hcb : s.job.hasStatusCb = true <;>
    refine ⟨?_, ?_, ?_, ?_, ?_, ?_, ?_⟩ <;>
      simp [perform_download, hloop, tickCancel, w1, w2, w4, w5, w8, w9,
        w10, w13, hcb, hf]

/-- The worker when every attempt's GET fails inside the stream: no
exception reaches the worker, so the loop's tail (lines 210-213) finalizes
the job as `failed` with the generic "Max attempts exceeded" message —
overwriting the specific stream error recorded at line 268 — with no
terminal status callback and no backoff sleeps. -/
theorem download_worker_allStream (env : Env) (s : Sys) (e1 e2 e3 e4 : String)
    (hc : s.cancelAt = none) (hf : s.job.cancel = false)
    (hpart : s.fs.part = none)
    (hp1 : (env.att 1).preError = none)
    (hp2 : (env.att 2).preError = none)
    (hp3 : (env.att 3).preError = none)
    (hp4 : (env.att 4).preError = none)
    (hd1 : check_disk_space (env.att 1).head env.free = true)
    (hd2 : check_disk_space (env.att 2).head env.free = true)
    (hd3 : check_disk_space (env.att 3).head env.free = true)
    (hd4 : check_disk_space (env.att 4).head env.free = true)
    (hg1 : (env.att 1).get = .error e1)
    (hg2 : (env.att 2).get = .error e2)
    (hg3 : (env.att 3).get = .error e3)
    (hg4 : (env.att 4).get = .error e4) :
    (download_worker env s).job.status = .failed ∧
    (download_worker env s).job.error = some "Max attempts exceeded" ∧
    cbsOf (download_worker env s).trace = cbsOf s.trace ++
      (if s.job.hasStatusCb = true then [Status.running] else []) ∧
    sleepsOf (download_worker env s).trace = sleepsOf s.trace ∧
    attemptsOf (download_worker env s).trace =
      attemptsOf s.trace ++ [1, 2, 3, 4] ∧
    progsOf (download_worker env s).trace = progsOf s.trace ∧
    (download_worker env s).job.finished_writes.length =
      s.job.finished_writes.length + 1 := by
  obtain ⟨w1, w2, w3, w4, w5, w6, w7, w8, w9, w10, w11, w12, w13, w14, w15⟩ :=
    workerPre_nc s hc
  have hpf : (workerPre s).job.cancel = false := by rw [w2]; exact hf
  have hppart : (workerPre s).fs.part = none := by rw [w7]; exact hpart
  have hloop := perform_loop_allStream env (workerPre s) e1 e2 e3 e4 w1 hpf
    hppart hp1 hp2 hp3 hp4 hd1 hd2 hd3 hd4 hg1 hg2 hg3 hg4
  rw [download_worker_eq env s]
  by_cases hcb : s.job.hasStatusCb = true <;>
    refine ⟨?_, ?_, ?_, ?_, ?_, ?_, ?_⟩ <;>
      simp [perform_download, hloop, tickCancel, w1, w2, w4, w5, w8, w9,
        w10, w13, hcb, hf]

/-- The worker when the first attempt fails the disk-space gate: the job is
finalized as `failed` with the disk-space message on attempt 1, with no GET
request, no progress callback, no retry, no backoff, no change to
`downloaded`, and no terminal status callback. -/
theorem download_worker_diskFail (env : Env) (s : Sys)
    (hc : s.cancelAt = none) (hf : s.job.cancel = false)
    (hpe : (env.att 1).preError = none)
    (hdk : check_disk_space (env.att 1).head env.free = false) :
    (download_worker env s).job.status = .failed ∧
    (download_worker env s).job.error = some "Insufficient disk space" ∧
    (download_worker env s).job.downloaded = s.job.downloaded ∧
    cbsOf (download_worker env s).trace = cbsOf s.trace ++
      (if s.job.hasStatusCb = true then [Status.running] else []) ∧
    sleepsOf (download_worker env s).trace = sleepsOf s.trace ∧
    attemptsOf (download_worker env s).trace = attemptsOf s.trace ++ [1] ∧
    progsOf (download_worker env s).trace = progsOf s.trace ∧
    getsOf (download_worker env s).trace = getsOf s.trace ∧
    (download_worker env s).job.finished_writes.length =
      s.job.finished_writes.length + 1 := by
  obtain ⟨w1, w2, w3, w4, w5, w6, w7, w8, w9, w10, w11, w12, w13, w14, w15⟩ :=
    workerPre_nc s hc
  obtain ⟨g1, g2⟩ := workerPre_gets s
  have hpf : (workerPre s).job.cancel = false := by rw [w2]; exact hf
  have hloop : perform_loop env 4 0 (workerPre s) =
      ({ workerPre s with
         job := { (workerPre s).job with
           status := .failed,
           error := some "Insufficient disk space",
           finished_writes := (workerPre s).job.finished_writes ++
             [(workerPre s).tick + 3] },
         trace := (workerPre s).trace ++ [.check false, .attemptStart 1],
         tick := (workerPre s).tick + 3 }, .retDisk) :=
    perform_loop_disk_fail env 3 0 (workerPre s) w1 hpf hpe hdk
  rw [download_worker_eq env s]
  by_cases hcb : s.job.hasStatusCb = true <;>
    refine ⟨?_, ?_, ?_, ?_, ?_, ?_, ?_, ?_, ?_⟩ <;>
      simp [perform_download, hloop, tickCancel, w1, w2, w4, w5, w8, w9,
        w10, w11, w13, g1, hcb, hf]

/-- A complete cancellation-free run in which every attempt raises before
the transfer: 4 attempts, backoff sleeps 1, 2, 4 between them, final state
`failed` carrying the attempt-4 message, status callback `running` then
`failed`. -/
theorem startAndRun_allPre (env : Env) (fs : FS) (cb pcb : Bool)
    (e1 e2 e3 e4 : String)
    (hp1 : (env.att 1).preError = some e1)
    (hp2 : (env.att 2).preError = some e2)
    (hp3 : (env.att 3).preError = some e3)
    (hp4 : (env.att 4).preError = some e4) :
    (startAndRun env fs none cb pcb).1.job.status = .failed ∧
    (startAndRun env fs none cb pcb).1.job.error = some e4 ∧
    cbsOf (startAndRun env fs none cb pcb).1.trace =
      (if cb = true then [Status.running, Status.failed] else []) ∧
    sleepsOf (startAndRun env fs none cb pcb).1.trace = [1, 2, 4] ∧
    attemptsOf (startAndRun env fs none cb pcb).1.trace = [1, 2, 3, 4] ∧
    progsOf (startAndRun env fs none cb pcb).1.trace = [] ∧
    (startAndRun env fs none cb pcb).1.job.finished_writes.length = 1 := by
  have hq : (tickCancel (initSys (initJob cb pcb) fs none)).job.status =
      .queued := rfl
  have hrun : (startAndRun env fs none cb pcb).1 =
      tickCancel (download_worker env
        (tickCancel (initSys (initJob cb pcb) fs none))) := by
    simp [startAndRun, start_download, hq]
  obtain ⟨d1, d2, d3, d4, d5, d6, d7⟩ := download_worker_allPre env
    (tickCancel (initSys (initJob cb pcb) fs none)) e1 e2 e3 e4
    (by simp [initSys]) (by rfl) hp1 hp2 hp3 hp4
  have hWterm : (download_worker env
      (tickCancel (initSys (initJob cb pcb) fs none))).job.status.isTerminal =
      true := by rw [d1]; rfl
  have htj := tickCancel_job_of_terminal
    (download_worker env (tickCancel (initSys (initJob cb pcb) fs none))) hWterm
  refine ⟨?_, ?_, ?_, ?_, ?_, ?_, ?_⟩
  · rw [hrun, htj]; exact d1
  · rw [hrun, htj]; exact d2
  · rw [hrun]; simpa [initSys, initJob] using d3
  · rw [hrun]; simpa [initSys, initJob] using d4
  · rw [hrun]; simpa [initSys, initJob] using d5
  · rw [hrun]; simpa [initSys, initJob] using d6
  · rw [hrun, htj]; simpa [initSys, initJob] using d7

/-- A complete cancellation-free run in which every attempt's GET fails
inside the stream: 4 attempts with NO backoff sleep between them, final
state `failed` with the generic "Max attempts exceeded" message, and no
terminal status callback (only `running`). -/
theorem startAndRun_allStream (env : Env) (fs : FS) (cb pcb : Bool)
    (e1 e2 e3 e4 : String)
    (hpart : fs.part = none)
    (hp1 : (env.att 1).preError = none)
    (hp2 : (env.att 2).preError = none)
    (hp3 : (env.att 3).preError = none)
    (hp4 : (env.att 4).preError = none)
    (hd1 : check_disk_space (env.att 1).head env.free = true)
    (hd2 : check_disk_space (env.att 2).head env.free = true)
    (hd3 : check_disk_space (env.att 3).head env.free = true)
    (hd4 : check_disk_space (env.att 4).head env.free = true)
    (hg1 : (env.att 1).get = .error e1)
    (hg2 : (env.att 2).get = .error e2)
    (hg3 : (env.att 3).get = .error e3)
    (hg4 : (env.att 4).get = .error e4) :
    (startAndRun env fs none cb pcb).1.job.status = .failed ∧
    (startAndRun env fs none cb pcb).1.job.error =
      some "Max attempts exceeded" ∧
    cbsOf (startAndRun env fs none cb pcb).1.trace =
      (if cb = true then [Status.running] else []) ∧
    sleepsOf (startAndRun env fs none cb pcb).1.trace = [] ∧
    attemptsOf (startAndRun env fs none cb pcb).1.trace = [1, 2, 3, 4] ∧
    progsOf (startAndRun env fs none cb pcb).1.trace = [] ∧
    (startAndRun env fs none cb pcb).1.job.finished_writes.length = 1 := by
  have hq : (tickCancel (initSys (initJob cb pcb) fs none)).job.status =
      .queued := rfl
  have hrun : (startAndRun env fs none cb pcb).1 =
      tickCancel (download_worker env
        (tickCancel (initSys (initJob cb pcb) fs none))) := by
    simp [startAndRun, start_download, hq]
  obtain ⟨d1, d2, d3, d4, d5, d6, d7⟩ := download_worker_allStream env
    (tickCancel (initSys (initJob cb pcb) fs none)) e1 e2 e3 e4
    (by simp [initSys]) (by rfl) (by simpa [initSys] using hpart)
    hp1 hp2 hp3 hp4 hd1 hd2 hd3 hd4 hg1 hg2 hg3 hg4
  have hWterm : (download_worker env
      (tickCancel (initSys (initJob cb pcb) fs none))).job.status.isTerminal =
      true := by rw [d1]; rfl
  have htj := tickCancel_job_of_terminal
    (download_worker env (tickCancel (initSys (initJob cb pcb) fs none))) hWterm
  refine ⟨?_, ?_, ?_, ?_, ?_, ?_, ?_⟩
  · rw [hrun, htj]; exact d1
  · rw [hrun, htj]; exact d2
  · rw [hrun]; simpa [initSys, initJob] using d3
  · rw [hrun]; simpa [initSys, initJob] using d4
  · rw [hrun]; simpa [initSys, initJob] using d5
  · rw [hrun]; simpa [initSys, initJob] using d6
  · rw [hrun, htj]; simpa [initSys, initJob] using d7

/-- A complete cancellation-free run whose first attempt fails the
disk-space gate: terminal `failed` with the disk-space message after a
single attempt, zero bytes downloaded, no GET request, no progress
callback, no backoff, and no terminal status callback. -/
theorem startAndRun_diskFail (env : Env) (fs : FS) (cb pcb : Bool)
    (hpe : (env.att 1).preError = none)
    (hdk : check_disk_space (env.att 1).head env.free = false) :
    (startAndRun env fs none cb pcb).1.job.status = .failed ∧
    (startAndRun env fs none cb pcb).1.job.error =
      some "Insufficient disk space" ∧
    (startAndRun env fs none cb pcb).1.job.downloaded = 0 ∧
    cbsOf (startAndRun env fs none cb pcb).1.trace =
      (if cb = true then [Status.running] else []) ∧
    sleepsOf (startAndRun env fs none cb pcb).1.trace = [] ∧
    attemptsOf (startAndRun env fs none cb pcb).1.trace = [1] ∧
    progsOf (startAndRun env fs none cb pcb).1.trace = [] ∧
    getsOf (startAndRun env fs none cb pcb).1.trace = [] ∧
    (startAndRun env fs none cb pcb).1.job.finished_writes.length = 1 := by
  have hq : (tickCancel (initSys (initJob cb pcb) fs none)).job.status =
      .queued := rfl
  have hrun : (startAndRun env fs none cb pcb).1 =
      tickCancel (download_worker env
        (tickCancel (initSys (initJob cb pcb) fs none))) := by
    simp [startAndRun, start_download, hq]
  obtain ⟨d1, d2, d3, d4, d5, d6, d7, d8, d9⟩ := download_worker_diskFail env
    (tickCancel (initSys (initJob cb pcb) fs none))
    (by simp [initSys]) (by rfl) hpe hdk
  have hWterm : (download_worker env
      (tickCancel (initSys (initJob cb pcb) fs none))).job.status.isTerminal =
      true := by rw [d1]; rfl
  have htj := tickCancel_job_of_terminal
    (download_worker env (tickCancel (initSys (initJob cb pcb) fs none))) hWterm
  refine ⟨?_, ?_, ?_, ?_, ?_, ?_, ?_, ?_, ?_⟩
  · rw [hrun, htj]; exact d1
  · rw [hrun, htj]; exact d2
  · rw [hrun, htj]; simpa [initSys, initJob] using d3
  · rw [hrun]; simpa [initSys, initJob] using d4
  · rw [hrun]; simpa [initSys, initJob] using d5
  · rw [hrun]; simpa [initSys, initJob] using d6
  · rw [hrun]; simpa [initSys, initJob] using d7
  · rw [hrun]; simpa [initSys, initJob] using d8
  · rw [hrun, htj]; simpa [initSys, initJob] using d9

/-! ## Status-callback logs under an arbitrary cancellation schedule -/

/-- The chunk loop never invokes the status callback, whatever the
cancellation schedule. -/
theorem streamLoop_cbs : ∀ (cs : List Nat) (s : Sys),
    cbsOf (streamLoop s cs).1.trace = cbsOf s.trace
  | [], _ => rfl
  | c :: rest, s => by
    by_cases hb : (tickCancel s).job.cancel = true
    · simp [streamLoop, hb]
    · have hb' : (tickCancel s).job.cancel = false := by simpa using hb
      by_cases hc0 : c = 0
      · have hstep : streamLoop s (c :: rest) =
            streamLoop (emit (.check false) (tickCancel s)) rest := by
          simp [streamLoop, hb', hc0]
        rw [hstep, streamLoop_cbs rest (emit (.check false) (tickCancel s))]
        simp
      · by_cases hpb : s.job.hasProgressCb = true
        · have hstep : streamLoop s (c :: rest) =
              streamLoop (emit (.progressCb ((tickCancel s).job.downloaded + c)
                  ((tickCancel s).job.size.getD 0))
                { emit (.check false) (tickCancel s) with
                  job := { (tickCancel s).job with
                    downloaded := (tickCancel s).job.downloaded + c },
                  fs := { (tickCancel s).fs with
                    part := some ((tickCancel s).fs.part.getD 0 + c) } })
                rest := by
            simp [streamLoop, hb', hc0, hpb, emit]
          rw [hstep, streamLoop_cbs rest (emit (.progressCb
                ((tickCancel s).job.downloaded + c)
                ((tickCancel s).job.size.getD 0))
              { emit (.check false) (tickCancel s) with
                job := { (tickCancel s).job with
                  downloaded := (tickCancel s).job.downloaded + c },
                fs := { (tickCancel s).fs with
                  part := some ((tickCancel s).fs.part.getD 0 + c) } })]
          simp [emit]
        · have hpb2 : s.job.hasProgressCb = false := by simpa using hpb
          have hstep : streamLoop s (c :: rest) =
              streamLoop
                ({ emit (.check false) (tickCancel s) with
                   job := { (tickCancel s).job with
                     downloaded := (tickCancel s).job.downloaded + c },
                   fs := { (tickCancel s).fs with
                     part := some ((tickCancel s).fs.part.getD 0 + c) } })
                rest := by
            simp [streamLoop, hb', hc0, hpb2, emit]
          rw [hstep, streamLoop_cbs rest
              ({ emit (.check false) (tickCancel s) with
                 job := { (tickCancel s).job with
                   downloaded := (tickCancel s).job.downloaded + c },
                 fs := { (tickCancel s).fs with
                   part := some ((tickCancel s).fs.part.getD 0 + c) } })]
          simp [emit]

/-- `_download_with_resume` never invokes the status callback, whatever the
cancellation schedule. -/
theorem dwr_cbs (s : Sys) (resp : Except String GetResp) (rf : Nat) :
    cbsOf (download_with_resume s resp rf).1.trace = cbsOf s.trace := by
  cases resp with
  | error e => simp [download_with_resume, emit]
  | ok r =>
    rw [dwr_ok_unfold]
    have g1 := streamLoop_cbs r.chunks (dwrPre s rf r.contentLength)
    have hD := dwrPre_trace s rf r.contentLength
    rcases hsl : streamLoop (dwrPre s rf r.contentLength) r.chunks
        with ⟨sf, ok⟩
    rw [hsl] at g1
    have g1' : cbsOf sf.trace = cbsOf s.trace := by
      rw [show (sf, ok).1.trace = sf.trace from rfl] at g1
      rw [g1, hD]; simp
    cases ok with
    | false => simpa using g1'
    | true =>
      cases hse : r.streamError with
      | some e => simpa using g1'
      | none => simpa using g1'

/-- If the retry loop does not return `retDone`, it never invoked the
status callback, whatever the cancellation schedule (the only callback site
inside the loop is the success finalization at lines 197-198). -/
theorem perform_loop_cbs (env : Env) : ∀ (fuel attempt : Nat) (s : Sys),
    (perform_loop env fuel attempt s).2 ≠ POut.retDone →
    cbsOf (perform_loop env fuel attempt s).1.trace = cbsOf s.trace
  | 0, _, _, _ => rfl
  | fuel + 1, attempt, s, hout => by
    by_cases hb : (tickCancel s).job.cancel = true
    · simp [perform_loop, hb]
    · have hb' : (tickCancel s).job.cancel = false := by simpa using hb
      cases hpe : (env.att (attempt + 1)).preError with
      | some e =>
        by_cases ha : 4 ≤ attempt + 1
        · simp [perform_loop, hb', hpe, ha]
        · have hres : perform_loop env (fuel + 1) attempt s =
              perform_loop env fuel (attempt + 1)
                (emit (.sleep (2 ^ attempt))
                  (tickCancel (emit (.attemptStart (attempt + 1))
                    (emit (.check false) (tickCancel s))))) := by
            simp [perform_loop, hb', hpe, ha]
          rw [hres] at hout ⊢
          rw [perform_loop_cbs env fuel (attempt + 1) _ hout]
          simp
      | none =>
        by_cases hd : check_disk_space (env.att (attempt + 1)).head
            env.free = true
        · rcases hdwr : download_with_resume
              (tickCancel (tickCancel (emit (.attemptStart (attempt + 1))
                (emit (.check false) (tickCancel s)))))
              (env.att (attempt + 1)).get (s.fs.part.getD 0)
              with ⟨s6, ok⟩
          cases ok with
          | true =>
            exfalso
            apply hout
            simp [perform_loop, hb', hpe, hd, hdwr]
          | false =>
            have hres : perform_loop env (fuel + 1) attempt s =
                perform_loop env fuel (attempt + 1) s6 := by
              simp [perform_loop, hb', hpe, hd, hdwr]
            rw [hres] at hout ⊢
            rw [perform_loop_cbs env fuel (attempt + 1) s6 hout]
            have hd6 := dwr_cbs
              (tickCancel (tickCancel (emit (.attemptStart (attempt + 1))
                (emit (.check false) (tickCancel s)))))
              (env.att (attempt + 1)).get (s.fs.part.getD 0)
            rw [hdwr] at hd6
            have hd6' : cbsOf s6.trace =
                cbsOf (tickCancel (tickCancel (emit (.attemptStart (attempt + 1))
                  (emit (.check false) (tickCancel s))))).trace := hd6
            rw [hd6']
            simp
        · simp [perform_loop, hb', hpe, hd]

/-- The retry loop's early returns carry the status they wrote: `retDone`
leaves the job `done`, `retDisk` leaves it `failed`, whatever the
cancellation schedule. -/
theorem perform_loop_out_status (env : Env) : ∀ (fuel attempt : Nat) (s : Sys),
    ((perform_loop env fuel attempt s).2 = POut.retDone →
      (perform_loop env fuel attempt s).1.job.status = .done) ∧
    ((perform_loop env fuel attempt s).2 = POut.retDisk →
      (perform_loop env fuel attempt s).1.job.status = .failed)
  | 0, _, _ => ⟨fun h => (nomatch h), fun h => (nomatch h)⟩
  | fuel + 1, attempt, s => by
    by_cases hb : (tickCancel s).job.cancel = true
    · constructor <;> (intro h; simp [perform_loop, hb] at h)
    · have hb' : (tickCancel s).job.cancel = false := by simpa using hb
      cases hpe : (env.att (attempt + 1)).preError with
      | some e =>
        by_cases ha : 4 ≤ attempt + 1
        · constructor <;> (intro h; simp [perform_loop, hb', hpe, ha] at h)
        · have hres : perform_loop env (fuel + 1) attempt s =
              perform_loop env fuel (attempt + 1)
                (emit (.sleep (2 ^ attempt))
                  (tickCancel (emit (.attemptStart (attempt + 1))
                    (emit (.check false) (tickCancel s))))) := by
            simp [perform_loop, hb', hpe, ha]
          rw [hres]
          exact perform_loop_out_status env fuel (attempt + 1) _
      | none =>
        by_cases hd : check_disk_space (env.att (attempt + 1)).head
            env.free = true
        · rcases hdwr : download_with_resume
              (tickCancel (tickCancel (emit (.attemptStart (attempt + 1))
                (emit (.check false) (tickCancel s)))))
              (env.att (attempt + 1)).get (s.fs.part.getD 0)
              with ⟨s6, ok⟩
          cases ok with
          | true =>
            have hres : perform_loop env (fuel + 1) attempt s =
                (if s6.job.hasStatusCb = true then
                  emit (.statusCb .done)
                    { tickCancel s6 with job := { (tickCancel s6).job with
                        status := .done,
                        finished_writes := (tickCancel s6).job.finished_writes
                          ++ [(tickCancel s6).tick],
                        path := true } }
                 else
                  { tickCancel s6 with job := { (tickCancel s6).job with
                      status := .done,
                      finished_writes := (tickCancel s6).job.finished_writes
                        ++ [(tickCancel s6).tick],
                      path := true } }, .retDone) := by
              simp [perform_loop, hb', hpe, hd, hdwr]
            rw [hres]
            constructor
            · intro _
              by_cases hcb : s6.job.hasStatusCb = true <;> simp [hcb]
            · intro h
              simp at h
          | false =>
            have hres : perform_loop env (fuel + 1) attempt s =
                perform_loop env fuel (attempt + 1) s6 := by
              simp [perform_loop, hb', hpe, hd, hdwr]
            rw [hres]
            exact perform_loop_out_status env fuel (attempt + 1) s6
        · constructor
          · intro h
            simp [perform_loop, hb', hpe, hd] at h
          · intro _
            simp [perform_loop, hb', hpe, hd]

/-- If `_perform_download` does not return via the success path, it never
invoked the status callback, whatever the cancellation schedule — in
particular the cancellation tail (lines 207-209) and the exhaustion tail
(lines 210-213) finalize silently. -/
theorem perform_download_cbs (env : Env) (s : Sys)
    (hout : (perform_download env s).2 ≠ POut.retDone) :
    cbsOf (perform_download env s).1.trace = cbsOf s.trace := by
  rcases hpl : perform_loop env 4 0 s with ⟨u, lout⟩
  have hcbs := perform_loop_cbs env 4 0 s
  rw [hpl] at hcbs
  cases lout with
  | exited =>
    have hu : cbsOf u.trace = cbsOf s.trace := hcbs (by simp)
    by_cases hbu : (tickCancel u).job.cancel = true
    · have hres : perform_download env s =
          ({ tickCancel (emit (.check true) (tickCancel u)) with
             job := { (tickCancel (emit (.check true) (tickCancel u))).job with
               status := .cancelled,
               finished_writes :=
                 (tickCancel (emit (.check true) (tickCancel u))).job.finished_writes
                   ++ [(tickCancel (emit (.check true) (tickCancel u))).tick] } },
           .exited) := by
        simp [perform_download, hpl, hbu]
      rw [hres]
      simp [hu]
    · have hres : perform_download env s =
          ({ tickCancel (emit (.check false) (tickCancel u)) with
             job := { (tickCancel (emit (.check false) (tickCancel u))).job with
               status := .failed,
               error := some "Max attempts exceeded",
               finished_writes :=
                 (tickCancel (emit (.check false) (tickCancel u))).job.finished_writes
                   ++ [(tickCancel (emit (.check false) (tickCancel u))).tick] } },
           .exited) := by
        simp [perform_download, hpl, hbu]
      rw [hres]
      simp [hu]
  | retDone =>
    exfalso
    apply hout
    simp [perform_download, hpl]
  | retDisk =>
    have hres : perform_download env s = (u, .retDisk) := by
      simp [perform_download, hpl]
    rw [hres]
    exact hcbs (by simp)
  | raised e =>
    have hres : perform_download env s = (u, .raised e) := by
      simp [perform_download, hpl]
    rw [hres]
    exact hcbs (by simp)

/-- `_perform_download`'s outcome determines the status it wrote: a normal
loop exit finalizes `cancelled` or `failed`, the success return carries
`done`, the disk-gate return carries `failed` — whatever the cancellation
schedule. -/
theorem perform_download_status (env : Env) (s : Sys) :
    ((perform_download env s).2 = POut.exited →
      (perform_download env s).1.job.status = .cancelled ∨
      (perform_download env s).1.job.status = .failed) ∧
    ((perform_download env s).2 = POut.retDone →
      (perform_download env s).1.job.status = .done) ∧
    ((perform_download env s).2 = POut.retDisk →
      (perform_download env s).1.job.status = .failed) := by
  rcases hpl : perform_loop env 4 0 s with ⟨u, lout⟩
  obtain ⟨hdone, hdisk⟩ := perform_loop_out_status env 4 0 s
  rw [hpl] at hdone hdisk
  cases lout with
  | exited =>
    by_cases hbu : (tickCancel u).job.cancel = true
    · have hres : perform_download env s =
          ({ tickCancel (emit (.check true) (tickCancel u)) with
             job := { (tickCancel (emit (.check true) (tickCancel u))).job with
               status := .cancelled,
               finished_writes :=
                 (tickCancel (emit (.check true) (tickCancel u))).job.finished_writes
                   ++ [(tickCancel (emit (.check true) (tickCancel u))).tick] } },
           .exited) := by
        simp [perform_download, hpl, hbu]
      rw [hres]
      exact ⟨fun _ => Or.inl rfl, fun h => by simp at h, fun h => by simp at h⟩
    · have hres : perform_download env s =
          ({ tickCancel (emit (.check false) (tickCancel u)) with
             job := { (tickCancel (emit (.check false) (tickCancel u))).job with
               status := .failed,
               error := some "Max attempts exceeded",
               finished_writes :=
                 (tickCancel (emit (.check false) (tickCancel u))).job.finished_writes
                   ++ [(tickCancel (emit (.check false) (tickCancel u))).tick] } },
           .exited) := by
        simp [perform_download, hpl, hbu]
      rw [hres]
      exact ⟨fun _ => Or.inr rfl, fun h => by simp at h, fun h => by simp at h⟩
  | retDone =>
    have hres : perform_download env s = (u, .retDone) := by
      simp [perform_download, hpl]
    rw [hres]
    exact ⟨fun h => by simp at h, fun _ => hdone rfl, fun h => by simp at h⟩
  | retDisk =>
    have hres : perform_download env s = (u, .retDisk) := by
      simp [perform_download, hpl]
    rw [hres]
    exact ⟨fun h => by simp at h, fun h => by simp at h, fun _ => hdisk rfl⟩
  | raised e =>
    have hres : perform_download env s = (u, .raised e) := by
      simp [perform_download, hpl]
    rw [hres]
    exact ⟨fun h => by simp at h, fun h => by simp at h, fun h => by simp at h⟩

/-- The worker's prelude invokes the status callback exactly once, with
`running`, when the callback is installed — whatever the cancellation
schedule (`cancel_job` never touches the callback fields). -/
theorem workerPre_cbs (s : Sys) :
    cbsOf (workerPre s).trace = cbsOf s.trace ++
      (if s.job.hasStatusCb = true then [Status.running] else []) := by
  simp only [workerPre]
  by_cases hcb : s.job.hasStatusCb = true
  · rw [if_pos (by simp [hcb])]
    simp [hcb]
  · rw [if_neg (by simp [hcb])]
    simp [hcb]

/-- The worker always leaves the job in a terminal state, whatever the
cancellation schedule: every exit of `_download_worker` passes through one
of the finalizations at lines 153-155, 179-182, 194-196, or 207-213. -/
theorem download_worker_terminal (env : Env) (s : Sys) :
    (download_worker env s).job.status = .done ∨
    (download_worker env s).job.status = .failed ∨
    (download_worker env s).job.status = .cancelled := by
  rw [download_worker_eq env s]
  obtain ⟨hex, hdn, hdk⟩ := perform_download_status env (workerPre s)
  rcases hpd : perform_download env (workerPre s) with ⟨s5, out⟩
  rw [hpd] at hex hdn hdk
  cases out with
  | raised e =>
    right; left
    by_cases hcb : s5.job.hasStatusCb = true <;> simp [hcb]
  | exited =>
    rcases hex rfl with h | h
    · right; right; exact h
    · right; left; exact h
  | retDone =>
    left
    exact hdn rfl
  | retDisk =>
    right; left
    exact hdk rfl

/-- A worker run that ends `cancelled` invoked the status callback exactly
once, with `running` (when installed), and never with a terminal value:
it must have returned through `_perform_download`'s cancellation tail,
which finalizes silently. -/
theorem download_worker_cancelled_cbs (env : Env) (s : Sys)
    (h : (download_worker env s).job.status = .cancelled) :
    cbsOf (download_worker env s).trace = cbsOf s.trace ++
      (if s.job.hasStatusCb = true then [Status.running] else []) := by
  rw [download_worker_eq env s] at h ⊢
  obtain ⟨hex, hdn, hdk⟩ := perform_download_status env (workerPre s)
  have hcbs := perform_download_cbs env (workerPre s)
  rcases hpd : perform_download env (workerPre s) with ⟨s5, out⟩
  rw [hpd] at hex hdn hdk h hcbs
  cases out with
  | raised e =>
    exfalso
    by_cases hcb : s5.job.hasStatusCb = true <;>
      simp [hcb] at h
  | retDone =>
    exfalso
    have h5 : s5.job.status = Status.done := hdn rfl
    have h5' : s5.job.status = Status.cancelled := h
    rw [h5] at h5'
    simp at h5'
  | retDisk =>
    exfalso
    have h5 : s5.job.status = Status.failed := hdk rfl
    have h5' : s5.job.status = Status.cancelled := h
    rw [h5] at h5'
    simp at h5'
  | exited =>
    have hcbs' : cbsOf s5.trace = cbsOf (workerPre s).trace :=
      hcbs (by simp)
    show cbsOf s5.trace = _
    rw [hcbs', workerPre_cbs]

/-! ## Claim C2 -/

/-- C2 (amended): the worker invokes the status callback once with
`running` when work begins on every path, and with the terminal value only
on the success path (`done`, line 198) and the raised-exception path
(`failed`, line 157).  The original claim's "exactly once with the terminal
value on every terminal path" is false: the disk-space failure (lines
179-182), attempt exhaustion (lines 211-213) and cancellation (lines
208-209) paths reach a terminal state with no terminal callback — the
callback log ends at `running` (see the counterexample).  The last two
conjuncts cover the cancellation path: under EVERY environment and
cancellation schedule, a run that ends `cancelled` only ever passed
`running` to the status callback, and in the concrete mid-stream
cancellation run the log is exactly `[running]` — the `running` invocation
fired when the worker began and no terminal invocation followed. -/
theorem c2_status_callbacks (env1 env2 env3 env4 : Env)
    (fs1 fs2 fs3 fs4 : FS) (cb1 pcb1 cb2 pcb2 cb3 pcb3 cb4 pcb4 : Bool)
    (cl : Option Nat) (cs : List Nat)
    (h11 : (env1.att 1).preError = none)
    (h12 : check_disk_space (env1.att 1).head env1.free = true)
    (h13 : (env1.att 1).get =
      .ok { contentLength := cl, chunks := cs, streamError := none })
    (h21 : (env2.att 1).preError = none)
    (h22 : check_disk_space (env2.att 1).head env2.free = false)
    (f1 f2 f3 f4 : String)
    (hpart3 : fs3.part = none)
    (h31 : (env3.att 1).preError = none)
    (h32 : (env3.att 2).preError = none)
    (h33 : (env3.att 3).preError = none)
    (h34 : (env3.att 4).preError = none)
    (hd31 : check_disk_space (env3.att 1).head env3.free = true)
    (hd32 : check_disk_space (env3.att 2).head env3.free = true)
    (hd33 : check_disk_space (env3.att 3).head env3.free = true)
    (hd34 : check_disk_space (env3.att 4).head env3.free = true)
    (hg31 : (env3.att 1).get = .error f1)
    (hg32 : (env3.att 2).get = .error f2)
    (hg33 : (env3.att 3).get = .error f3)
    (hg34 : (env3.att 4).get = .error f4)
    (g1 g2 g3 g4 : String)
    (h41 : (env4.att 1).preError = some g1)
    (h42 : (env4.att 2).preError = some g2)
    (h43 : (env4.att 3).preError = some g3)
    (h44 : (env4.att 4).preError = some g4) :
    ((startAndRun env1 fs1 none cb1 pcb1).1.job.status = .done ∧
     cbsOf (startAndRun env1 fs1 none cb1 pcb1).1.trace =
       (if cb1 = true then [Status.running, Status.done] else [])) ∧
    ((startAndRun env2 fs2 none cb2 pcb2).1.job.status = .failed ∧
     cbsOf (startAndRun env2 fs2 none cb2 pcb2).1.trace =
       (if cb2 = true then [Status.running] else [])) ∧
    ((startAndRun env3 fs3 none cb3 pcb3).1.job.status = .failed ∧
     cbsOf (startAndRun env3 fs3 none cb3 pcb3).1.trace =
       (if cb3 = true then [Status.running] else [])) ∧
    ((startAndRun env4 fs4 none cb4 pcb4).1.job.status = .failed ∧
     cbsOf (startAndRun env4 fs4 none cb4 pcb4).1.trace =
       (if cb4 = true then [Status.running, Status.failed] else [])) ∧
    (∀ (env5 : Env) (fs5 : FS) (cAt : Option Nat) (cb5 pcb5 : Bool),
      (startAndRun env5 fs5 cAt cb5 pcb5).1.job.status = .cancelled →
      ∀ st ∈ cbsOf (startAndRun env5 fs5 cAt cb5 pcb5).1.trace,
        st = Status.running) ∧
    ((startAndRun envSucc ⟨none, none⟩ (some 9) true true).1.job.status =
       .cancelled ∧
     cbsOf (startAndRun envSucc ⟨none, none⟩ (some 9) true true).1.trace =
       [Status.running]) := by
  obtain ⟨a1, _, a3⟩ := startAndRun_cleanFirst env1 fs1 cb1 pcb1 h11 h12
    cl cs h13
  obtain ⟨b1, _, _, b3, _, _, _, _, _⟩ := startAndRun_diskFail env2 fs2
    cb2 pcb2 h21 h22
  obtain ⟨c1, _, c3, _, _, _, _⟩ := startAndRun_allStream env3 fs3 cb3 pcb3
    f1 f2 f3 f4 hpart3 h31 h32 h33 h34 hd31 hd32 hd33 hd34
    hg31 hg32 hg33 hg34
  obtain ⟨d1, _, d3, _, _, _, _⟩ := startAndRun_allPre env4 fs4 cb4 pcb4
    g1 g2 g3 g4 h41 h42 h43 h44
  refine ⟨⟨a1, a3⟩, ⟨b1, b3⟩, ⟨c1, c3⟩, ⟨d1, d3⟩, ?_, by decide⟩
  intro env5 fs5 cAt cb5 pcb5 hcan st hmem
  by_cases hq : (tickCancel (initSys (initJob cb5 pcb5) fs5 cAt)).job.status =
      .queued
  · have hrun : (startAndRun env5 fs5 cAt cb5 pcb5).1 =
        tickCancel (download_worker env5
          (tickCancel (initSys (initJob cb5 pcb5) fs5 cAt))) := by
      simp [startAndRun, start_download, hq]
    rw [hrun] at hcan hmem
    rcases download_worker_terminal env5
        (tickCancel (initSys (initJob cb5 pcb5) fs5 cAt)) with hw | hw | hw
    · have htj := tickCancel_job_of_terminal
        (download_worker env5 (tickCancel (initSys (initJob cb5 pcb5) fs5 cAt)))
        (by rw [hw]; rfl)
      rw [htj, hw] at hcan
      simp at hcan
    · have htj := tickCancel_job_of_terminal
        (download_worker env5 (tickCancel (initSys (initJob cb5 pcb5) fs5 cAt)))
        (by rw [hw]; rfl)
      rw [htj, hw] at hcan
      simp at hcan
    · have hc2 := download_worker_cancelled_cbs env5
        (tickCancel (initSys (initJob cb5 pcb5) fs5 cAt)) hw
      rw [tickCancel_trace, hc2] at hmem
      by_cases hcb5 : (tickCancel (initSys (initJob cb5 pcb5)
          fs5 cAt)).job.hasStatusCb = true
      · rw [if_pos hcb5] at hmem
        simp [initSys, initJob] at hmem
        exact hmem
      · rw [if_neg hcb5] at hmem
        simp [initSys, initJob] at hmem
  · have hrun : (startAndRun env5 fs5 cAt cb5 pcb5).1 =
        tickCancel (tickCancel (initSys (initJob cb5 pcb5) fs5 cAt)) := by
      simp [startAndRun, start_download, hq]
    rw [hrun] at hmem
    simp [initSys] at hmem

/-- Witness for the amended C2 theorem at concrete environments: a clean
success, a disk-space failure, an all-stream-error exhaustion, and an
all-raise exhaustion, each with the status callback installed. -/
theorem c2_witness :
    ((startAndRun envSucc ⟨none, none⟩ none true true).1.job.status =
       .done ∧
     cbsOf (startAndRun envSucc ⟨none, none⟩ none true true).1.trace =
       [Status.running, Status.done]) ∧
    ((startAndRun envLowDisk ⟨none, none⟩ none true true).1.job.status =
       .failed ∧
     cbsOf (startAndRun envLowDisk ⟨none, none⟩ none true true).1.trace =
       [Status.running]) ∧
    ((startAndRun envNet ⟨none, none⟩ none true true).1.job.status =
       .failed ∧
     cbsOf (startAndRun envNet ⟨none, none⟩ none true true).1.trace =
       [Status.running]) ∧
    ((startAndRun envUrl ⟨none, none⟩ none true true).1.job.status =
       .failed ∧
     cbsOf (startAndRun envUrl ⟨none, none⟩ none true true).1.trace =
       [Status.running, Status.failed]) ∧
    (∀ (env5 : Env) (fs5 : FS) (cAt : Option Nat) (cb5 pcb5 : Bool),
      (startAndRun env5 fs5 cAt cb5 pcb5).1.job.status = .cancelled →
      ∀ st ∈ cbsOf (startAndRun env5 fs5 cAt cb5 pcb5).1.trace,
        st = Status.running) ∧
    ((startAndRun envSucc ⟨none, none⟩ (some 9) true true).1.job.status =
       .cancelled ∧
     cbsOf (startAndRun envSucc ⟨none, none⟩ (some 9) true true).1.trace =
       [Status.running]) :=
  c2_status_callbacks envSucc envLowDisk envNet envUrl
    ⟨none, none⟩ ⟨none, none⟩ ⟨none, none⟩ ⟨none, none⟩
    true true true true true true true true
    (some 2) [1, 1] rfl (by decide) rfl rfl (by decide)
    "boom" "boom" "boom" "boom" rfl rfl rfl rfl rfl
    (by decide) (by decide) (by decide) (by decide)
    rfl rfl rfl rfl
    "url error" "url error" "url error" "url error" rfl rfl rfl rfl

/-- C2 counterexample: the disk-space gate finalizes the job as `failed`
(terminal) but never invokes the status callback with `failed` — the
callback log of the whole run is `[running]`, refuting "exactly once with
the terminal value on every terminal path". -/
theorem c2_counterexample :
    (startAndRun envLowDisk ⟨none, none⟩ none true true).1.job.status =
      .failed ∧
    cbsOf (startAndRun envLowDisk ⟨none, none⟩ none true true).1.trace =
      [Status.running] := by
  decide

/-! ## Claim C3 -/

/-- C3 (amended): the backoff schedule 1, 2, 4 (2^(k-1) before attempt k,
k ≥ 2, never before the first) holds only for attempts that fail by raising
in the loop body (line 201's `except` clause runs `time.sleep(backoff)`).
When every attempt fails with a retryable stream error,
`_download_with_resume` catches the exception itself and returns `False`
(lines 267-269), so the loop retries immediately: exactly 4 attempts run
with NO delay between them (see the counterexample). -/
theorem c3_backoff_schedule (env env2 : Env) (fs fs2 : FS)
    (cb pcb cb2 pcb2 : Bool) (e1 e2 e3 e4 f1 f2 f3 f4 : String)
    (hp1 : (env.att 1).preError = some e1)
    (hp2 : (env.att 2).preError = some e2)
    (hp3 : (env.att 3).preError = some e3)
    (hp4 : (env.att 4).preError = some e4)
    (hpart2 : fs2.part = none)
    (hq1 : (env2.att 1).preError = none)
    (hq2 : (env2.att 2).preError = none)
    (hq3 : (env2.att 3).preError = none)
    (hq4 : (env2.att 4).preError = none)
    (hd1 : check_disk_space (env2.att 1).head env2.free = true)
    (hd2 : check_disk_space (env2.att 2).head env2.free = true)
    (hd3 : check_disk_space (env2.att 3).head env2.free = true)
    (hd4 : check_disk_space (env2.att 4).head env2.free = true)
    (hg1 : (env2.att 1).get = .error f1)
    (hg2 : (env2.att 2).get = .error f2)
    (hg3 : (env2.att 3).get = .error f3)
    (hg4 : (env2.att 4).get = .error f4) :
    (attemptsOf (startAndRun env fs none cb pcb).1.trace = [1, 2, 3, 4] ∧
     sleepsOf (startAndRun env fs none cb pcb).1.trace = [1, 2, 4] ∧
     (startAndRun env fs none cb pcb).1.job.status = .failed) ∧
    (attemptsOf (startAndRun env2 fs2 none cb2 pcb2).1.trace =
       [1, 2, 3, 4] ∧
     sleepsOf (startAndRun env2 fs2 none cb2 pcb2).1.trace = [] ∧
     (startAndRun env2 fs2 none cb2 pcb2).1.job.status = .failed) := by
  obtain ⟨a1, _, _, a4, a5, _, _⟩ := startAndRun_allPre env fs cb pcb
    e1 e2 e3 e4 hp1 hp2 hp3 hp4
  obtain ⟨b1, _, _, b4, b5, _, _⟩ := startAndRun_allStream env2 fs2 cb2 pcb2
    f1 f2 f3 f4 hpart2 hq1 hq2 hq3 hq4 hd1 hd2 hd3 hd4 hg1 hg2 hg3 hg4
  exact ⟨⟨a5, a4, a1⟩, ⟨b5, b4, b1⟩⟩

/-- Witness for the amended C3 theorem: every attempt raises before the
transfer (`envUrl`) versus every attempt fails inside the stream
(`envNet`). -/
theorem c3_witness :
    (attemptsOf (startAndRun envUrl ⟨none, none⟩ none true true).1.trace =
       [1, 2, 3, 4] ∧
     sleepsOf (startAndRun envUrl ⟨none, none⟩ none true true).1.trace =
       [1, 2, 4] ∧
     (startAndRun envUrl ⟨none, none⟩ none true true).1.job.status =
       .failed) ∧
    (attemptsOf (startAndRun envNet ⟨none, none⟩ none true true).1.trace =
       [1, 2, 3, 4] ∧
     sleepsOf (startAndRun envNet ⟨none, none⟩ none true true).1.trace =
       [] ∧
     (startAndRun envNet ⟨none, none⟩ none true true).1.job.status =
       .failed) :=
  c3_backoff_schedule envUrl envNet ⟨none, none⟩ ⟨none, none⟩
    true true true true
    "url error" "url error" "url error" "url error"
    "boom" "boom" "boom" "boom"
    rfl rfl rfl rfl rfl rfl rfl rfl rfl
    (by decide) (by decide) (by decide) (by decide)
    rfl rfl rfl rfl

/-- C3 counterexample: a job whose every attempt fails with a retryable
stream error performs its 4 attempts back-to-back — the run's sleep log is
empty, refuting "a backoff delay is applied between consecutive
attempts". -/
theorem c3_counterexample :
    attemptsOf (startAndRun envNet ⟨none, none⟩ none true true).1.trace =
      [1, 2, 3, 4] ∧
    sleepsOf (startAndRun envNet ⟨none, none⟩ none true true).1.trace =
      [] ∧
    (startAndRun envNet ⟨none, none⟩ none true true).1.job.status =
      .failed := by
  decide

/-! ## Claim C4 -/

/-- C4 (amended): when the attempt budget is exhausted by stream-level
failures, every failure's message IS captured into `job.error` (line 268),
but the exhaustion tail (lines 211-212) unconditionally overwrites it with
the generic "Max attempts exceeded" message — the last specific error
survives only on the raised-exception path, where attempt 4's exception
propagates and the worker records its message (line 154). -/
theorem c4_exhaustion_error (env env2 : Env) (fs fs2 : FS)
    (cb pcb cb2 pcb2 : Bool) (e1 e2 e3 e4 f1 f2 f3 f4 : String)
    (hp1 : (env.att 1).preError = some e1)
    (hp2 : (env.att 2).preError = some e2)
    (hp3 : (env.att 3).preError = some e3)
    (hp4 : (env.att 4).preError = some e4)
    (hpart2 : fs2.part = none)
    (hq1 : (env2.att 1).preError = none)
    (hq2 : (env2.att 2).preError = none)
    (hq3 : (env2.att 3).preError = none)
    (hq4 : (env2.att 4).preError = none)
    (hd1 : check_disk_space (env2.att 1).head env2.free = true)
    (hd2 : check_disk_space (env2.att 2).head env2.free = true)
    (hd3 : check_disk_space (env2.att 3).head env2.free = true)
    (hd4 : check_disk_space (env2.att 4).head env2.free = true)
    (hg1 : (env2.att 1).get = .error f1)
    (hg2 : (env2.att 2).get = .error f2)
    (hg3 : (env2.att 3).get = .error f3)
    (hg4 : (env2.att 4).get = .error f4) :
    ((startAndRun env fs none cb pcb).1.job.status = .failed ∧
     (startAndRun env fs none cb pcb).1.job.error = some e4) ∧
    ((startAndRun env2 fs2 none cb2 pcb2).1.job.status = .failed ∧
     (startAndRun env2 fs2 none cb2 pcb2).1.job.error =
       some "Max attempts exceeded") ∧
    (∀ (t : Sys) (e : String) (rf : Nat),
      (download_with_resume t (.error e) rf).1.job.error = some e) := by
  obtain ⟨a1, a2, _, _, _, _, _⟩ := startAndRun_allPre env fs cb pcb
    e1 e2 e3 e4 hp1 hp2 hp3 hp4
  obtain ⟨b1, b2, _, _, _, _, _⟩ := startAndRun_allStream env2 fs2 cb2 pcb2
    f1 f2 f3 f4 hpart2 hq1 hq2 hq3 hq4 hd1 hd2 hd3 hd4 hg1 hg2 hg3 hg4
  refine ⟨⟨a1, a2⟩, ⟨b1, b2⟩, ?_⟩
  intro t e rf
  simp [download_with_resume]

/-- Witness for the amended C4 theorem: `envUrl` keeps attempt 4's specific
message, `envNet` ends with the generic message. -/
theorem c4_witness :
    ((startAndRun envUrl ⟨none, none⟩ none true true).1.job.status =
       .failed ∧
     (startAndRun envUrl ⟨none, none⟩ none true true).1.job.error =
       some "url error") ∧
    ((startAndRun envNet ⟨none, none⟩ none true true).1.job.status =
       .failed ∧
     (startAndRun envNet ⟨none, none⟩ none true true).1.job.error =
       some "Max attempts exceeded") ∧
    (∀ (t : Sys) (e : String) (rf : Nat),
      (download_with_resume t (.error e) rf).1.job.error = some e) :=
  c4_exhaustion_error envUrl envNet ⟨none, none⟩ ⟨none, none⟩
    true true true true
    "url error" "url error" "url error" "url error"
    "boom" "boom" "boom" "boom"
    rfl rfl rfl rfl rfl rfl rfl rfl rfl
    (by decide) (by decide) (by decide) (by decide)
    rfl rfl rfl rfl

/-- C4 counterexample: on the `envNet` run the specific stream error "boom"
is still recorded in `job.error` when the retry loop exits, yet the
finalized job carries the generic "Max attempts exceeded" message — the
generic message is used even though a more specific error was captured. -/
theorem c4_counterexample :
    (perform_loop envNet 4 0 (workerPre (tickCancel
        (initSys (initJob true true) ⟨none, none⟩ none)))).1.job.error =
      some "boom" ∧
    (startAndRun envNet ⟨none, none⟩ none true true).1.job.status =
      .failed ∧
    (startAndRun envNet ⟨none, none⟩ none true true).1.job.error =
      some "Max attempts exceeded" := by
  decide

/-! ## Claim C7 -/

/-- C7: on an attempt whose size probe reports `n` bytes with insufficient
free space (`free < n * 1.2`, modelled exactly as `5 * free < 6 * n`), the
job is finalized as `failed` with the disk-space message on that first
attempt: no GET is issued, no byte is downloaded, no progress callback
fires, and no retry happens; and a failed probe (`none`) or a response
without a size (`some none`) lets the attempt proceed. -/
theorem c7_disk_gate (env : Env) (fs : FS) (cb pcb : Bool) (n : Nat)
    (hpe : (env.att 1).preError = none)
    (hhead : (env.att 1).head = some (some n))
    (hfree : 5 * env.free < 6 * n) :
    check_disk_space (env.att 1).head env.free = false ∧
    (startAndRun env fs none cb pcb).1.job.status = .failed ∧
    (startAndRun env fs none cb pcb).1.job.error =
      some "Insufficient disk space" ∧
    (startAndRun env fs none cb pcb).1.job.downloaded = 0 ∧
    attemptsOf (startAndRun env fs none cb pcb).1.trace = [1] ∧
    progsOf (startAndRun env fs none cb pcb).1.trace = [] ∧
    getsOf (startAndRun env fs none cb pcb).1.trace = [] ∧
    (startAndRun env fs none cb pcb).1.job.finished_writes.length = 1 ∧
    (∀ f, check_disk_space none f = true) ∧
    (∀ f, check_disk_space (some none) f = true) := by
  have hdk : check_disk_space (env.att 1).head env.free = false := by
    rw [hhead]
    simp [check_disk_space]
    omega
  obtain ⟨d1, d2, d3, _, _, d6, d7, d8, d9⟩ :=
    startAndRun_diskFail env fs cb pcb hpe hdk
  exact ⟨hdk, d1, d2, d3, d6, d7, d8, d9,
    fun f => rfl, fun f => rfl⟩

/-- Witness for C7: a 10-byte probe against 1 free byte (`envLowDisk`). -/
theorem c7_witness :
    check_disk_space (envLowDisk.att 1).head envLowDisk.free = false ∧
    (startAndRun envLowDisk ⟨none, none⟩ none true true).1.job.status =
      .failed ∧
    (startAndRun envLowDisk ⟨none, none⟩ none true true).1.job.error =
      some "Insufficient disk space" ∧
    (startAndRun envLowDisk ⟨none, none⟩
      none true true).1.job.downloaded = 0 ∧
    attemptsOf (startAndRun envLowDisk ⟨none, none⟩
      none true true).1.trace = [1] ∧
    progsOf (startAndRun envLowDisk ⟨none, none⟩
      none true true).1.trace = [] ∧
    getsOf (startAndRun envLowDisk ⟨none, none⟩
      none true true).1.trace = [] ∧
    (startAndRun envLowDisk ⟨none, none⟩
      none true true).1.job.finished_writes.length = 1 ∧
    (∀ f, check_disk_space none f = true) ∧
    (∀ f, check_disk_space (some none) f = true) :=
  c7_disk_gate envLowDisk ⟨none, none⟩ true true 10 rfl rfl (by decide)

/-- On a clean first attempt, the run's single GET carries a `Range` header
iff the staging file's recorded length is positive, and the staging file is
opened in append mode iff that length is nonzero. -/
theorem perform_loop_first_gets (env : Env) (s : Sys)
    (hc : s.cancelAt = none) (hf : s.job.cancel = false)
    (h1 : (env.att 1).preError = none)
    (h2 : check_disk_space (env.att 1).head env.free = true)
    (cl : Option Nat) (cs : List Nat)
    (h3 : (env.att 1).get =
      .ok { contentLength := cl, chunks := cs, streamError := none }) :
    getsOf (perform_loop env 4 0 s).1.trace = getsOf s.trace ++
      [if s.fs.part.getD 0 > 0 then some (s.fs.part.getD 0) else none] ∧
    opensOf (perform_loop env 4 0 s).1.trace = opensOf s.trace ++
      [if s.fs.part.getD 0 ≠ 0 then Mode.append else Mode.trunc] := by
  have hone : tickCancel s = { s with tick := s.tick + 1 } := tickCancel_none s hc
  have hb' : (tickCancel s).job.cancel = false := by rw [hone]; exact hf
  have h5c : (tickCancel (tickCancel (emit (.attemptStart 1)
      (emit (.check false) (tickCancel s))))).cancelAt = none := by
    simp [hc]
  have h5f : (tickCancel (tickCancel (emit (.attemptStart 1)
      (emit (.check false) (tickCancel s))))).job.cancel = false := by
    have h3' := tickCancel_none (emit (.attemptStart 1)
      (emit (.check false) (tickCancel s))) (by simp [hc])
    have h5' := tickCancel_none (tickCancel (emit (.attemptStart 1)
      (emit (.check false) (tickCancel s)))) (by simp [hc])
    rw [h5', h3']
    simpa [hone] using hf
  obtain ⟨g1, g2⟩ := dwr_gets (tickCancel (tickCancel (emit (.attemptStart 1)
      (emit (.check false) (tickCancel s)))))
    (.ok { contentLength := cl, chunks := cs, streamError := none })
    (s.fs.part.getD 0)
  have htrue := dwr_ok_true (tickCancel (tickCancel (emit (.attemptStart 1)
      (emit (.check false) (tickCancel s))))) cl cs (s.fs.part.getD 0) h5c h5f
  rcases hdwr : download_with_resume
      (tickCancel (tickCancel (emit (.attemptStart 1)
        (emit (.check false) (tickCancel s)))))
      (.ok { contentLength := cl, chunks := cs, streamError := none })
      (s.fs.part.getD 0)
      with ⟨s6, ok⟩
  rw [hdwr] at g1 g2 htrue
  have hok : ok = true := htrue
  subst hok
  have hres : perform_loop env 4 0 s =
      (if s6.job.hasStatusCb = true then
        emit (.statusCb .done)
          { tickCancel s6 with job := { (tickCancel s6).job with
              status := .done,
              finished_writes :=
                (tickCancel s6).job.finished_writes ++ [(tickCancel s6).tick],
              path := true } }
       else
        { tickCancel s6 with job := { (tickCancel s6).job with
            status := .done,
            finished_writes :=
              (tickCancel s6).job.finished_writes ++ [(tickCancel s6).tick],
            path := true } }, .retDone) := by
    rw [show (4 : Nat) = 3 + 1 from rfl]
    simp [perform_loop, hb', h1, h2, h3, hdwr]
  rw [hres]
  constructor
  · by_cases hcb : s6.job.hasStatusCb = true <;> simp [hcb, g1]
  · by_cases hcb : s6.job.hasStatusCb = true <;> simp [hcb, g2]

/-- A complete cancellation-free run on a clean-first-attempt environment:
the single GET carries a `Range` header iff the staging file's recorded
length is positive, and the staging file is opened in append mode iff that
length is nonzero. -/
theorem startAndRun_first_gets (env : Env) (fs : FS) (cb pcb : Bool)
    (cl : Option Nat) (cs : List Nat)
    (h1 : (env.att 1).preError = none)
    (h2 : check_disk_space (env.att 1).head env.free = true)
    (h3 : (env.att 1).get =
      .ok { contentLength := cl, chunks := cs, streamError := none }) :
    getsOf (startAndRun env fs none cb pcb).1.trace =
      [if fs.part.getD 0 > 0 then some (fs.part.getD 0) else none] ∧
    opensOf (startAndRun env fs none cb pcb).1.trace =
      [if fs.part.getD 0 ≠ 0 then Mode.append else Mode.trunc] := by
  have hq : (tickCancel (initSys (initJob cb pcb) fs none)).job.status =
      .queued := rfl
  have hrun : (startAndRun env fs none cb pcb).1 =
      tickCancel (download_worker env
        (tickCancel (initSys (initJob cb pcb) fs none))) := by
    simp [startAndRun, start_download, hq]
  obtain ⟨w1, w2, w3, w4, w5, w6, w7, w8, w9, w10, w11, w12, w13, w14, w15⟩ :=
    workerPre_nc (tickCancel (initSys (initJob cb pcb) fs none))
      (by simp [initSys])
  obtain ⟨pg1, pg2⟩ := workerPre_gets
    (tickCancel (initSys (initJob cb pcb) fs none))
  have hpf : (workerPre (tickCancel
      (initSys (initJob cb pcb) fs none))).job.cancel = false := by
    rw [w2]; rfl
  obtain ⟨p1, _, _⟩ := perform_loop_first_success env
    (workerPre (tickCancel (initSys (initJob cb pcb) fs none)))
    w1 hpf h1 h2 cl cs h3
  obtain ⟨q1, q2⟩ := perform_loop_first_gets env
    (workerPre (tickCancel (initSys (initJob cb pcb) fs none)))
    w1 hpf h1 h2 cl cs h3
  rcases hpl : perform_loop env 4 0
      (workerPre (tickCancel (initSys (initJob cb pcb) fs none)))
      with ⟨u, lout⟩
  rw [hpl] at p1 q1 q2
  have hlout : lout = .retDone := p1
  subst hlout
  have hpd : perform_download env
      (workerPre (tickCancel (initSys (initJob cb pcb) fs none))) =
      (u, .retDone) := by
    simp [perform_download, hpl]
  have hw : download_worker env
      (tickCancel (initSys (initJob cb pcb) fs none)) = u := by
    rw [download_worker_eq env (tickCancel (initSys (initJob cb pcb) fs none)),
      hpd]
  rw [w7] at q1 q2
  constructor
  · rw [hrun]
    simp only [tickCancel_trace, hw]
    rw [q1, pg1]
    simp [initSys]
  · rw [hrun]
    simp only [tickCancel_trace, hw]
    rw [q2, pg2]
    simp [initSys]

/-! ## Claim C8 -/

/-- C8 (amended): the resume offset is the staging file's recorded byte
length when one exists, else zero; the GET carries a byte-range header iff
that offset is POSITIVE (`resume_from > 0`, line 234), and the staging file
is opened in append mode iff the offset is NONZERO (`'ab' if resume_from
else 'wb'`, line 247) — so a zero-length staging file, although it exists,
resumes like a fresh download: no range header and truncate mode (see the
counterexample to the original claim's "exists implies range + append"). -/
theorem c8_resume_semantics (env : Env) (cb pcb : Bool) (L : Nat)
    (cl : Option Nat) (cs : List Nat)
    (h1 : (env.att 1).preError = none)
    (h2 : check_disk_space (env.att 1).head env.free = true)
    (h3 : (env.att 1).get =
      .ok { contentLength := cl, chunks := cs, streamError := none })
    (hL : 0 < L) :
    (getsOf (startAndRun env { part := some L, final := none }
        none cb pcb).1.trace = [some L] ∧
     opensOf (startAndRun env { part := some L, final := none }
        none cb pcb).1.trace = [Mode.append]) ∧
    (getsOf (startAndRun env { part := none, final := none }
        none cb pcb).1.trace = [none] ∧
     opensOf (startAndRun env { part := none, final := none }
        none cb pcb).1.trace = [Mode.trunc]) ∧
    (getsOf (startAndRun env { part := some 0, final := none }
        none cb pcb).1.trace = [none] ∧
     opensOf (startAndRun env { part := some 0, final := none }
        none cb pcb).1.trace = [Mode.trunc]) := by
  have hL' : L ≠ 0 := Nat.pos_iff_ne_zero.mp hL
  obtain ⟨a1, a2⟩ := startAndRun_first_gets env
    { part := some L, final := none } cb pcb cl cs h1 h2 h3
  obtain ⟨b1, b2⟩ := startAndRun_first_gets env
    { part := none, final := none } cb pcb cl cs h1 h2 h3
  obtain ⟨c1, c2⟩ := startAndRun_first_gets env
    { part := some 0, final := none } cb pcb cl cs h1 h2 h3
  refine ⟨⟨?_, ?_⟩, ⟨?_, ?_⟩, ⟨?_, ?_⟩⟩
  · rw [a1]; simp [hL]
  · rw [a2]; simp [hL']
  · rw [b1]; simp
  · rw [b2]; simp
  · rw [c1]; simp
  · rw [c2]; simp

/-- Witness for the amended C8 theorem at `envSucc` with a 5-byte staging
file. -/
theorem c8_witness :
    (getsOf (startAndRun envSucc { part := some 5, final := none }
        none true true).1.trace = [some 5] ∧
     opensOf (startAndRun envSucc { part := some 5, final := none }
        none true true).1.trace = [Mode.append]) ∧
    (getsOf (startAndRun envSucc { part := none, final := none }
        none true true).1.trace = [none] ∧
     opensOf (startAndRun envSucc { part := none, final := none }
        none true true).1.trace = [Mode.trunc]) ∧
    (getsOf (startAndRun envSucc { part := some 0, final := none }
        none true true).1.trace = [none] ∧
     opensOf (startAndRun envSucc { part := some 0, final := none }
        none true true).1.trace = [Mode.trunc]) :=
  c8_resume_semantics envSucc true true 5 (some 2) [1, 1]
    rfl (by decide) rfl (by decide)

/-- C8 counterexample: with an existing zero-length staging file the run
issues its GET with NO range header and opens the staging file in truncate
mode, refuting "if a staging file exists, the GET carries a byte-range
header starting at its length and the file is opened in append mode". -/
theorem c8_counterexample :
    getsOf (startAndRun envSucc { part := some 0, final := none }
      none true true).1.trace = [none] ∧
    opensOf (startAndRun envSucc { part := some 0, final := none }
      none true true).1.trace = [Mode.trunc] ∧
    (startAndRun envSucc { part := some 0, final := none }
      none true true).1.job.status = .done := by
  decide

/-- A committing transfer that resumes from a staging file of recorded
length `rf`: `job.size` is set to `rf` plus the reported content length
before the stream, the loop adds only newly fetched bytes, and on commit
`job.downloaded` and `job.size` are both set to the final file's size
`rf + chunks.sum`; every progress callback reported at most the entry
`downloaded` plus the new bytes, against a total of exactly `rf + R`. -/
theorem dwr_ok_commit (s : Sys) (r : GetResp) (rf R : Nat)
    (hc : s.cancelAt = none) (hf : s.job.cancel = false)
    (hpart : s.fs.part = some rf) (hrf : rf ≠ 0)
    (hcl : r.contentLength = some R) (hse : r.streamError = none) :
    (download_with_resume s (.ok r) rf).2 = true ∧
    (download_with_resume s (.ok r) rf).1.job.downloaded =
      rf + r.chunks.sum ∧
    (download_with_resume s (.ok r) rf).1.job.size =
      some (rf + r.chunks.sum) ∧
    ∃ tr, (download_with_resume s (.ok r) rf).1.trace = s.trace ++ tr ∧
      ∀ q ∈ progsOf tr,
        q.1 ≤ s.job.downloaded + r.chunks.sum ∧ q.2 = rf + R := by
  have hpre := dwrPre_nc s rf r.contentLength hc
  have hpreC : (dwrPre s rf r.contentLength).cancelAt = none := by
    rw [hpre]; exact hc
  have hpreF : (dwrPre s rf r.contentLength).job.cancel = false := by
    rw [hpre]; exact hf
  have hprePart : (dwrPre s rf r.contentLength).fs.part = some rf := by
    rw [hpre]; simp [hrf, hpart]
  have hpreDl : (dwrPre s rf r.contentLength).job.downloaded =
      s.job.downloaded := by
    rw [hpre]
  have hpreSize : (dwrPre s rf r.contentLength).job.size =
      some (rf + R) := by
    rw [hpre]; simp [hcl]
  obtain ⟨hok, hjob, hfs, hca, hcr, tr, htr, hcb, hsl, hat, hpr⟩ :=
    streamLoop_nc r.chunks (dwrPre s rf r.contentLength) rf
      hpreC hpreF hprePart
  rw [dwr_ok_unfold]
  rcases hsl2 : streamLoop (dwrPre s rf r.contentLength) r.chunks
      with ⟨sf, ok⟩
  rw [hsl2] at hok hjob hfs hca htr
  have hok2 : ok = true := hok
  subst hok2
  have hsffs : sf.fs =
      { part := some (rf + r.chunks.sum),
        final := (dwrPre s rf r.contentLength).fs.final } := hfs
  have hsfjob : sf.job = { (dwrPre s rf r.contentLength).job with
      downloaded := (dwrPre s rf r.contentLength).job.downloaded +
        r.chunks.sum } := hjob
  have hsftr : sf.trace = (dwrPre s rf r.contentLength).trace ++ tr := htr
  refine ⟨by simp [hse], ?_, ?_, ?_⟩
  · simp [hse, hsffs]
  · simp [hse, hsffs]
  · refine ⟨[Event.getReq (if rf > 0 then some rf else none),
      Event.openFile (if rf ≠ 0 then Mode.append else Mode.trunc)] ++ tr,
      ?_, ?_⟩
    · simp only [hse]
      simp [hsftr, dwrPre_trace]
    · intro q hq
      have hq' : q ∈ progsOf tr := by simpa using hq
      obtain ⟨hq1, hq2⟩ := hpr q hq'
      refine ⟨?_, ?_⟩
      · calc q.1 ≤ (dwrPre s rf r.contentLength).job.downloaded +
              r.chunks.sum := hq1
          _ = s.job.downloaded + r.chunks.sum := by rw [hpreDl]
      · rw [hq2, hpreSize]; rfl

/-- On a clean first attempt resuming from a staging file of recorded
length `L`: the loop commits on attempt 1, `downloaded` and `size` end at
`L + chunks.sum`, and every progress callback of the run reported at most
the entry `downloaded` plus the new bytes, against a total of `L + R`. -/
theorem perform_loop_first_commit (env : Env) (s : Sys) (R L : Nat)
    (cs : List Nat)
    (hc : s.cancelAt = none) (hf : s.job.cancel = false)
    (h1 : (env.att 1).preError = none)
    (h2 : check_disk_space (env.att 1).head env.free = true)
    (h3 : (env.att 1).get =
      .ok { contentLength := some R, chunks := cs, streamError := none })
    (hpart : s.fs.part = some L) (hL : L ≠ 0) :
    (perform_loop env 4 0 s).2 = .retDone ∧
    (perform_loop env 4 0 s).1.job.status = .done ∧
    (perform_loop env 4 0 s).1.job.downloaded = L + cs.sum ∧
    (perform_loop env 4 0 s).1.job.size = some (L + cs.sum) ∧
    ∃ tr, (perform_loop env 4 0 s).1.trace = s.trace ++ tr ∧
      ∀ q ∈ progsOf tr,
        q.1 ≤ s.job.downloaded + cs.sum ∧ q.2 = L + R := by
  have hone : tickCancel s = { s with tick := s.tick + 1 } := tickCancel_none s hc
  have hb' : (tickCancel s).job.cancel = false := by rw [hone]; exact hf
  have h5c : (tickCancel (tickCancel (emit (.attemptStart 1)
      (emit (.check false) (tickCancel s))))).cancelAt = none := by
    simp [hc]
  have h5f : (tickCancel (tickCancel (emit (.attemptStart 1)
      (emit (.check false) (tickCancel s))))).job.cancel = false := by
    have h3' := tickCancel_none (emit (.attemptStart 1)
      (emit (.check false) (tickCancel s))) (by simp [hc])
    have h5' := tickCancel_none (tickCancel (emit (.attemptStart 1)
      (emit (.check false) (tickCancel s)))) (by simp [hc])
    rw [h5', h3']
    simpa [hone] using hf
  have h5part : (tickCancel (tickCancel (emit (.attemptStart 1)
      (emit (.check false) (tickCancel s))))).fs.part = some L := by
    simpa using hpart
  obtain ⟨m0, m1, m2, tr, mtr, mpr⟩ := dwr_ok_commit
    (tickCancel (tickCancel (emit (.attemptStart 1)
      (emit (.check false) (tickCancel s)))))
    { contentLength := some R, chunks := cs, streamError := none }
    L R h5c h5f h5part hL rfl rfl
  rcases hdwr : download_with_resume
      (tickCancel (tickCancel (emit (.attemptStart 1)
        (emit (.check false) (tickCancel s)))))
      (.ok { contentLength := some R, chunks := cs, streamError := none })
      L
      with ⟨s6, ok⟩
  rw [hdwr] at m0 m1 m2 mtr
  have hok : ok = true := m0
  subst hok
  simp only at m1 m2
  have hdwr' : download_with_resume
      (tickCancel (tickCancel (emit (.attemptStart 1)
        (emit (.check false) (tickCancel s)))))
      (.ok { contentLength := some R, chunks := cs, streamError := none })
      ((tickCancel (tickCancel (emit (.attemptStart 1)
        (emit (.check false) (tickCancel s))))).fs.part.getD 0) =
      (s6, true) := by
    rw [show (tickCancel (tickCancel (emit (.attemptStart 1)
        (emit (.check false) (tickCancel s))))).fs.part.getD 0 = L from by
      simp [hpart]]
    exact hdwr
  have hres : perform_loop env 4 0 s =
      (if s6.job.hasStatusCb = true then
        emit (.statusCb .done)
          { tickCancel s6 with job := { (tickCancel s6).job with
              status := .done,
              finished_writes :=
                (tickCancel s6).job.finished_writes ++ [(tickCancel s6).tick],
              path := true } }
       else
        { tickCancel s6 with job := { (tickCancel s6).job with
            status := .done,
            finished_writes :=
              (tickCancel s6).job.finished_writes ++ [(tickCancel s6).tick],
            path := true } }, .retDone) := by
    rw [show (4 : Nat) = 3 + 1 from rfl]
    simp [perform_loop, hb', h1, h2, h3, hdwr, hdwr', hpart]
  have hbound : ∀ q ∈ progsOf tr,
      q.1 ≤ s.job.downloaded + cs.sum ∧ q.2 = L + R := by
    intro q hq
    obtain ⟨hq1, hq2⟩ := mpr q hq
    exact ⟨by simpa using hq1, by simpa using hq2⟩
  have hmtr : s6.trace = s.trace ++
      ([Event.check false, Event.attemptStart 1] ++ tr) := by
    rw [show (s6, true).1.trace = s6.trace from rfl] at mtr
    rw [mtr]
    simp
  rw [hres]
  by_cases hcb : s6.job.hasStatusCb = true
  · refine ⟨by simp [hcb], by simp [hcb], by simpa [hcb] using m1,
      by simpa [hcb] using m2, ?_⟩
    refine ⟨[Event.check false, Event.attemptStart 1] ++ tr ++
      [Event.statusCb Status.done], ?_, ?_⟩
    · simp [hcb, hmtr]
    · intro q hq
      exact hbound q (by simpa using hq)
  · refine ⟨by simp [hcb], by simp [hcb], by simpa [hcb] using m1,
      by simpa [hcb] using m2, ?_⟩
    refine ⟨[Event.check false, Event.attemptStart 1] ++ tr, ?_, ?_⟩
    · simp [hcb, hmtr]
    · intro q hq
      exact hbound q (by simpa using hq)

/-! ## Claim C10 -/

/-- C10: resuming from a non-empty staging file of length `L`, with the
server reporting `R` remaining bytes and streaming chunks totalling at most
`R`: the fresh job's `downloaded` counter starts at zero and counts only
newly fetched bytes, `job.size` is `L` plus the remaining content length,
every progress callback during the stream reports a downloaded count
strictly below the total `L + R` (and exactly that total as its second
argument), and on commit `downloaded` is set to the final file's on-disk
size `L + chunks.sum`, with `size` equal to it. -/
theorem c10_resume_progress (env : Env) (cb pcb : Bool) (L R : Nat)
    (cs : List Nat)
    (h1 : (env.att 1).preError = none)
    (h2 : check_disk_space (env.att 1).head env.free = true)
    (h3 : (env.att 1).get =
      .ok { contentLength := some R, chunks := cs, streamError := none })
    (hL : 0 < L) (hsum : cs.sum ≤ R) :
    (startAndRun env { part := some L, final := none }
      none cb pcb).1.job.status = .done ∧
    (startAndRun env { part := some L, final := none }
      none cb pcb).1.job.downloaded = L + cs.sum ∧
    (startAndRun env { part := some L, final := none }
      none cb pcb).1.job.size = some (L + cs.sum) ∧
    ∀ q ∈ progsOf (startAndRun env { part := some L, final := none }
      none cb pcb).1.trace, q.1 < L + R ∧ q.2 = L + R := by
  have hq : (tickCancel (initSys (initJob cb pcb)
      { part := some L, final := none } none)).job.status = .queued := rfl
  have hrun : (startAndRun env { part := some L, final := none }
      none cb pcb).1 =
      tickCancel (download_worker env (tickCancel (initSys (initJob cb pcb)
        { part := some L, final := none } none))) := by
    simp [startAndRun, start_download, hq]
  obtain ⟨w1, w2, w3, w4, w5, w6, w7, w8, w9, w10, w11, w12, w13, w14, w15⟩ :=
    workerPre_nc (tickCancel (initSys (initJob cb pcb)
      { part := some L, final := none } none)) (by simp [initSys])
  have hpf : (workerPre (tickCancel (initSys (initJob cb pcb)
      { part := some L, final := none } none))).job.cancel = false := by
    rw [w2]; rfl
  have hppart : (workerPre (tickCancel (initSys (initJob cb pcb)
      { part := some L, final := none } none))).fs.part = some L := by
    rw [w7]; simp [initSys]
  obtain ⟨m0, m1, m2, m3, tr, mtr, mpr⟩ := perform_loop_first_commit env
    (workerPre (tickCancel (initSys (initJob cb pcb)
      { part := some L, final := none } none)))
    R L cs w1 hpf h1 h2 h3 hppart (Nat.pos_iff_ne_zero.mp hL)
  rcases hpl : perform_loop env 4 0
      (workerPre (tickCancel (initSys (initJob cb pcb)
        { part := some L, final := none } none)))
      with ⟨u, lout⟩
  rw [hpl] at m0 m1 m2 m3 mtr
  have hlout : lout = .retDone := m0
  subst hlout
  have hpd : perform_download env
      (workerPre (tickCancel (initSys (initJob cb pcb)
        { part := some L, final := none } none))) = (u, .retDone) := by
    simp [perform_download, hpl]
  have hw : download_worker env (tickCancel (initSys (initJob cb pcb)
      { part := some L, final := none } none)) = u := by
    rw [download_worker_eq env (tickCancel (initSys (initJob cb pcb)
      { part := some L, final := none } none)), hpd]
  have hm1 : u.job.status = Status.done := m1
  have hWterm : (download_worker env (tickCancel (initSys (initJob cb pcb)
      { part := some L, final := none } none))).job.status.isTerminal =
      true := by
    rw [hw, hm1]; rfl
  have htj := tickCancel_job_of_terminal
    (download_worker env (tickCancel (initSys (initJob cb pcb)
      { part := some L, final := none } none))) hWterm
  refine ⟨?_, ?_, ?_, ?_⟩
  · rw [hrun, htj, hw]; exact m1
  · rw [hrun, htj, hw]; exact m2
  · rw [hrun, htj, hw]; exact m3
  · intro q hmem
    rw [hrun] at hmem
    simp only [tickCancel_trace, hw] at hmem
    rw [show (u, POut.retDone).1.trace = u.trace from rfl] at mtr
    rw [mtr] at hmem
    have hmem' : q ∈ progsOf tr := by
      simp only [progsOf_append, List.mem_append] at hmem
      rcases hmem with h | h
      · exfalso
        rw [w13] at h
        simp [initSys] at h
      · exact h
    obtain ⟨b1, b2⟩ := mpr q hmem'
    have hdl0 : (workerPre (tickCancel (initSys (initJob cb pcb)
        { part := some L, final := none } none))).job.downloaded = 0 := by
      rw [w11]; rfl
    rw [hdl0] at b1
    exact ⟨by omega, b2⟩

/-- Witness for C10: `envSucc` resuming from a 5-byte staging file, with a
reported remaining length of 2 delivered as two 1-byte chunks. -/
theorem c10_witness :
    (startAndRun envSucc { part := some 5, final := none }
      none true true).1.job.status = .done ∧
    (startAndRun envSucc { part := some 5, final := none }
      none true true).1.job.downloaded = 7 ∧
    (startAndRun envSucc { part := some 5, final := none }
      none true true).1.job.size = some 7 ∧
    ∀ q ∈ progsOf (startAndRun envSucc { part := some 5, final := none }
      none true true).1.trace, q.1 < 7 ∧ q.2 = 7 :=
  c10_resume_progress envSucc true true 5 2 [1, 1]
    rfl (by decide) rfl (by decide) (by decide)

end Bunny
